import Mathlib

/-!
# 2D pool game: rule engine and tick of `game.cpp`

A shallow embedding of the simulation core of `src/game.cpp` (the rendering
functions are presentation only and are left out).

Modelling conventions
* `float` values are exact rationals (`ℚ`); decimal literals such as `0.9992f`
  are the rationals they denote.  Division by zero is `0` in `ℚ`.
* `int` values are `Int`; the counters of the game (scores, shots) stay far
  from the machine limits, so no wrap-around is modelled.
* The functions of the C maths library (`sqrt`, `atan2`, `cos`, `sin`) are
  not part of the program: they are taken as a parameter (`Libm`), and every
  theorem holds for every choice of them.  `evalLibm` is a computable rational
  stand-in used to run the model on concrete inputs.
* The global `game` is passed explicitly: every function maps a `GameState`
  to a `GameState`.  `std::vector` is `List`; `v[i]` is `List.getD`.
* `for` loops over indices are left folds over the list of indices.
-/

namespace Snooker

/-! ## Data model -/

/-- The functions of the C maths library used by the program. -/
structure Libm where
  sqrt : ℚ → ℚ
  atan2 : ℚ → ℚ → ℚ
  cos : ℚ → ℚ
  sin : ℚ → ℚ

/-- Source: `const float PI = 3.14159f`. -/
def PI : ℚ := 314159 / 100000

/-- Source: `const int NUM_BALLS = 16`. -/
def NUM_BALLS : Nat := 16

/-- Source: `struct Ball`. -/
structure Ball where
  x : ℚ
  y : ℚ
  vx : ℚ
  vy : ℚ
  radius : ℚ
  active : Bool
  color : List Int
  player : Int
deriving DecidableEq, Inhabited

/-- Source: `struct Pocket`. -/
structure Pocket where
  x : ℚ
  y : ℚ
  radius : ℚ
deriving DecidableEq, Inhabited

/-- Source: `struct GameState`, with its default member initialisers. -/
structure GameState where
  tableWidth : ℚ := 8 / 5
  tableHeight : ℚ := 4 / 5
  cushionThickness : ℚ := 1 / 20
  balls : List Ball := []
  activeBalls : Int := 16
  pockets : List Pocket := []
  cueAngle : ℚ := 0
  cueLength : ℚ := 1 / 2
  cuePower : ℚ := 0
  maxCuePower : ℚ := 1 / 20
  cueDragging : Bool := false
  cueAiming : Bool := true
  ballsMoving : Bool := false
  player1Score : Int := 0
  player2Score : Int := 0
  shots : Int := 0
  gameOver : Bool := false
  currentPlayer : Int := 1
  player1Solids : Bool := false
  player2Solids : Bool := false
  ballTypeAssigned : Bool := false
  potted : Bool := false
  foul : Bool := false
  winner : Int := -1
  message : String := ""
  friction : ℚ := 1249 / 1250
  minVelocity : ℚ := 1 / 125
deriving DecidableEq

/-- Read `game.balls[i]`. -/
def GameState.ball (g : GameState) (i : Nat) : Ball := g.balls.getD i default

/-- Read `game.pockets[j]`. -/
def GameState.pocket (g : GameState) (j : Nat) : Pocket := g.pockets.getD j default

/-- Write `game.balls[i]`. -/
def GameState.setBall (g : GameState) (i : Nat) (b : Ball) : GameState :=
  { g with balls := g.balls.set i b }

/-- A compound assignment on a field of `game.balls[i]`. -/
def GameState.modBall (g : GameState) (i : Nat) (f : Ball → Ball) : GameState :=
  g.setBall i (f (g.ball i))

/-- A `for` loop over the indices `idxs` with body `body`. -/
def forLoop (idxs : List Nat) (body : Nat → GameState → GameState) (g : GameState) :
    GameState :=
  idxs.foldl (fun s i => body i s) g

/-! ## Initialisation -/

/-- Source: the table `colors` of `initializeBalls`. -/
def colors : List (List Int) :=
  [[255, 255, 255], [255, 255, 0], [0, 0, 255], [255, 0, 0], [128, 0, 128], [255, 165, 0],
   [0, 128, 0], [128, 0, 0], [0, 0, 0], [255, 255, 0], [0, 0, 255], [255, 0, 0],
   [128, 0, 128], [255, 165, 0], [0, 128, 0], [128, 0, 0]]

/-- Source: `ballRadius` of `initializeBalls`. -/
def ballRadius : ℚ := 3 / 100

/-- Source: `spacing = ballRadius * 2.1f`. -/
def spacing : ℚ := ballRadius * (21 / 10)

/-- The cue ball built by `initializeBalls`.  The source leaves its `player`
field unset; the indeterminate value is the parameter `cueTag`. -/
def cueBall (cueTag : Int) : Ball :=
  { x := -(2 / 5), y := 0, vx := 0, vy := 0, radius := ballRadius, active := true,
    color := colors.getD 0 [], player := cueTag }

/-- The ball pushed for slot `(row, col)` of the triangle when the running index is
`ballIndex`. -/
def rackBall (row col ballIndex : Nat) : Ball :=
  { x := 2 / 5 + (row : ℚ) * spacing * (433 / 500),
    y := 0 + ((col : ℚ) - (row : ℚ) / 2) * spacing,
    vx := 0, vy := 0, radius := ballRadius, active := true,
    color := colors.getD ballIndex [],
    player := if 1 ≤ ballIndex ∧ ballIndex ≤ 7 then -1
              else if 9 ≤ ballIndex ∧ ballIndex ≤ 15 then -2 else 0 }

/-- The iterations `(row, col)` of the nested loop of `initializeBalls`, in order. -/
def rackSlots : List (Nat × Nat) :=
  (List.range 5).flatMap (fun row => (List.range (row + 1)).map (fun col => (row, col)))

/-- One iteration of the inner loop of `initializeBalls`; the accumulator is the
vector of balls and `ballIndex`. -/
def rackStep (acc : List Ball × Nat) (rc : Nat × Nat) : List Ball × Nat :=
  if acc.2 < NUM_BALLS then (acc.1 ++ [rackBall rc.1 rc.2 acc.2], acc.2 + 1) else acc

/-- Source: `initializeBalls`. -/
def initializeBalls (cueTag : Int) (g : GameState) : GameState :=
  { g with balls := (rackSlots.foldl rackStep ([cueBall cueTag], 1)).1 }

/-- Source: `initializePockets`. -/
def initializePockets (g : GameState) : GameState :=
  let pocketRadius : ℚ := 2 / 25
  let tableWidth := g.tableWidth
  let tableHeight := g.tableHeight
  { g with pockets :=
      [ { x := -tableWidth / 2 - g.cushionThickness / 2,
          y := tableHeight / 2 + g.cushionThickness / 2, radius := pocketRadius },
        { x := 0, y := tableHeight / 2 + g.cushionThickness / 2, radius := pocketRadius },
        { x := tableWidth / 2 + g.cushionThickness / 2,
          y := tableHeight / 2 + g.cushionThickness / 2, radius := pocketRadius },
        { x := tableWidth / 2 + g.cushionThickness / 2,
          y := -tableHeight / 2 - g.cushionThickness / 2, radius := pocketRadius },
        { x := 0, y := -tableHeight / 2 - g.cushionThickness / 2, radius := pocketRadius },
        { x := -tableWidth / 2 - g.cushionThickness / 2,
          y := -tableHeight / 2 - g.cushionThickness / 2, radius := pocketRadius } ] }

/-- Source: `initializeGame`. -/
def initializeGame (cueTag : Int) (g : GameState) : GameState :=
  let g := initializeBalls cueTag g
  let g := initializePockets g
  { g with
    player1Score := 0
    player2Score := 0
    shots := 0
    gameOver := false
    ballsMoving := false
    cueAiming := true
    currentPlayer := 1
    player1Solids := false
    player2Solids := false
    ballTypeAssigned := false
    potted := false
    foul := false
    message := "Player 1's turn" }

/-- The state of a freshly started match: the global `game` with its default
member initialisers, after the call of `initializeGame` in `main`. -/
def startState (cueTag : Int) : GameState := initializeGame cueTag {}

/-! ## Rules -/

/-- Source: `switchPlayer`. -/
def switchPlayer (g : GameState) : GameState :=
  let g : GameState :=
    if g.currentPlayer = 1 then { g with currentPlayer := 2, message := "Player 2's turn" }
    else { g with currentPlayer := 1, message := "Player 1's turn" }
  { g with potted := false, foul := false }

/-- Body of the loop of `assignBallTypes` for index `i`. -/
def assignStep (i : Nat) (g : GameState) : GameState :=
  if i = 8 then g
  else if 1 ≤ i ∧ i ≤ 7 then
    g.setBall i { g.ball i with player := if g.player1Solids then 1 else 2 }
  else
    g.setBall i { g.ball i with player := if g.player1Solids then 2 else 1 }

/-- The branch of `assignBallTypes` that records which player holds solids. -/
def assignSplit (pottedBallIndex : Nat) (g : GameState) : GameState :=
  let isSolid : Bool := decide (1 ≤ pottedBallIndex ∧ pottedBallIndex ≤ 7)
  if g.currentPlayer = 1 then { g with player1Solids := isSolid, player2Solids := !isSolid }
  else { g with player2Solids := isSolid, player1Solids := !isSolid }

/-- The loop of `assignBallTypes` over the balls from index 1. -/
def assignLoop (g : GameState) : GameState :=
  forLoop (List.range' 1 (g.balls.length - 1)) assignStep g

/-- The end of `assignBallTypes`: the flag and the message. -/
def assignFinish (g : GameState) : GameState :=
  let g := { g with ballTypeAssigned := true }
  if g.player1Solids then { g with message := "Player 1: Solids, Player 2: Stripes" }
  else { g with message := "Player 1: Stripes, Player 2: Solids" }

/-- Source: `assignBallTypes`. -/
def assignBallTypes (pottedBallIndex : Nat) (g : GameState) : GameState :=
  if g.ballTypeAssigned then g
  else assignFinish (assignLoop (assignSplit pottedBallIndex g))

/-- The loop of the 8-ball branch of `checkPockets`: some ball with index from 1
carries the current player's tag and is active. -/
def ownBallActive (g : GameState) : Bool :=
  (List.range' 1 (g.balls.length - 1)).any
    (fun k => decide ((g.ball k).player = g.currentPlayer) && (g.ball k).active)

/-- The cue-ball branch of `checkPockets` (scratch). -/
def scratchBranch (g : GameState) : GameState :=
  let g := { g with foul := true }
  let g := g.setBall 0
    { g.ball 0 with x := -(2 / 5), y := 0, vx := 0, vy := 0, active := true }
  { g with activeBalls := g.activeBalls + 1, message := "Foul! Scratched the cue ball" }

/-- The 8-ball branch of `checkPockets`. -/
def eightBallBranch (g : GameState) : GameState :=
  let allAssignedBallsPotted := !ownBallActive g
  if allAssignedBallsPotted then
    { g with gameOver := true, winner := g.currentPlayer,
             message := "Player " ++ toString g.currentPlayer ++
               " wins by potting the black ball!" }
  else
    { g with gameOver := true, winner := if g.currentPlayer = 1 then 2 else 1,
             message := "Player " ++ toString g.currentPlayer ++
               " loses! Potted the black ball too early." }

/-- The scoring part of the regular-ball branch of `checkPockets`, for ball `i`. -/
def scoreBall (i : Nat) (g : GameState) : GameState :=
  if (g.ball i).player = g.currentPlayer then
    let g : GameState :=
      if g.currentPlayer = 1 then { g with player1Score := g.player1Score + 1 }
      else { g with player2Score := g.player2Score + 1 }
    { g with potted := true, message := "Good shot! Go again" }
  else
    let g : GameState :=
      if g.currentPlayer = 1 then { g with player2Score := g.player2Score + 1 }
      else { g with player1Score := g.player1Score + 1 }
    { g with message := "Potted opponent's ball" }

/-- The regular-ball branch of `checkPockets`, for ball `i`. -/
def regularBranch (i : Nat) (g : GameState) : GameState :=
  let g := if !g.ballTypeAssigned then assignBallTypes i g else g
  scoreBall i g

/-- The start of the capture branch of `checkPockets`: ball `i` is deactivated and
the counter of active balls decremented. -/
def deactivate (i : Nat) (g : GameState) : GameState :=
  let g := g.setBall i { g.ball i with active := false }
  { g with activeBalls := g.activeBalls - 1 }

/-- The test `distance < game.pockets[j].radius` of `checkPockets` for ball `i`. -/
def inPocket (m : Libm) (i j : Nat) (g : GameState) : Bool :=
  let dx := (g.ball i).x - (g.pocket j).x
  let dy := (g.ball i).y - (g.pocket j).y
  let distance := m.sqrt (dx * dx + dy * dy)
  decide (distance < (g.pocket j).radius)

/-- Body of the inner loop of `checkPockets` for ball `i` and pocket `j`. -/
def pocketStep (m : Libm) (i j : Nat) (g : GameState) : GameState :=
  if inPocket m i j g then
    let g := deactivate i g
    if i = 0 then scratchBranch g
    else if i = 8 then eightBallBranch g
    else regularBranch i g
  else g

/-- Body of the outer loop of `checkPockets` for ball `i`. -/
def pocketBall (m : Libm) (i : Nat) (g : GameState) : GameState :=
  if !(g.ball i).active then g
  else forLoop (List.range g.pockets.length) (pocketStep m i) g

/-- Source: `checkPockets`. -/
def checkPockets (m : Libm) (g : GameState) : GameState :=
  forLoop (List.range g.balls.length) (pocketBall m) g

/-! ## Physics -/

/-- Body of the integration loop of `update` for one ball. -/
def integrateBall (friction minVelocity : ℚ) (b : Ball) : Ball :=
  if !b.active then b
  else
    let b := { b with x := b.x + b.vx }
    let b := { b with y := b.y + b.vy }
    let b := { b with vx := b.vx * friction }
    let b := { b with vy := b.vy * friction }
    let b := if |b.vx| < minVelocity then { b with vx := 0 } else b
    if |b.vy| < minVelocity then { b with vy := 0 } else b

/-- The integration loop of `update`. -/
def integrate (g : GameState) : GameState :=
  forLoop (List.range g.balls.length)
    (fun i s => s.modBall i (integrateBall s.friction s.minVelocity)) g

/-- The impulse applied to both balls of a colliding pair. -/
def applyImpulse (i j : Nat) (nx ny impulse : ℚ) (g : GameState) : GameState :=
  let g := g.modBall i (fun b => { b with vx := b.vx - nx * impulse })
  let g := g.modBall i (fun b => { b with vy := b.vy - ny * impulse })
  let g := g.modBall j (fun b => { b with vx := b.vx + nx * impulse })
  g.modBall j (fun b => { b with vy := b.vy + ny * impulse })

/-- The positional separation of a colliding pair by half the overlap each. -/
def separate (i j : Nat) (nx ny distance : ℚ) (g : GameState) : GameState :=
  let overlap := ((g.ball i).radius + (g.ball j).radius - distance) / 2
  let g := g.modBall i (fun b => { b with x := b.x - nx * overlap })
  let g := g.modBall i (fun b => { b with y := b.y - ny * overlap })
  let g := g.modBall j (fun b => { b with x := b.x + nx * overlap })
  g.modBall j (fun b => { b with y := b.y + ny * overlap })

/-- Body of the inner loop of `handleBallCollisions` for the pair `(i, j)`.  The
quotients `dx / distance` and `dy / distance` are rational divisions (`0` when
`distance` is `0`, where the source divides floats by zero); `normalDivisor` gives the
divisor a pair reaches, and `collidePairChecked` is the body that fails on the divisor
zero instead. -/
def collidePair (m : Libm) (i j : Nat) (g : GameState) : GameState :=
  if !(g.ball j).active then g
  else
    let dx := (g.ball j).x - (g.ball i).x
    let dy := (g.ball j).y - (g.ball i).y
    let distance := m.sqrt (dx * dx + dy * dy)
    if distance < (g.ball i).radius + (g.ball j).radius then
      let nx := dx / distance
      let ny := dy / distance
      let dvx := (g.ball j).vx - (g.ball i).vx
      let dvy := (g.ball j).vy - (g.ball i).vy
      let velAlongNormal := dvx * nx + dvy * ny
      if velAlongNormal > 0 then g
      else
        let elasticity : ℚ := 1 / 10
        let impulse := -(1 + elasticity) * velAlongNormal
        let g := applyImpulse i j nx ny impulse g
        separate i j nx ny distance g
    else g

/-- Body of the outer loop of `handleBallCollisions` for ball `i`. -/
def collideBall (m : Libm) (i : Nat) (g : GameState) : GameState :=
  if !(g.ball i).active then g
  else forLoop (List.range' (i + 1) (g.balls.length - (i + 1))) (collidePair m i) g

/-- Source: `handleBallCollisions`. -/
def handleBallCollisions (m : Libm) (g : GameState) : GameState :=
  forLoop (List.range g.balls.length) (collideBall m) g

/-- Body of the loop of `handleCushionCollisions` for one ball. -/
def cushionBall (tableLeft tableRight tableTop tableBottom : ℚ) (b : Ball) : Ball :=
  if !b.active then b
  else
    let b := if b.x - b.radius < tableLeft then
      { b with x := tableLeft + b.radius, vx := -b.vx * (4 / 5) } else b
    let b := if b.x + b.radius > tableRight then
      { b with x := tableRight - b.radius, vx := -b.vx * (4 / 5) } else b
    let b := if b.y - b.radius < tableBottom then
      { b with y := tableBottom + b.radius, vy := -b.vy * (4 / 5) } else b
    if b.y + b.radius > tableTop then
      { b with y := tableTop - b.radius, vy := -b.vy * (4 / 5) } else b

/-- Source: `handleCushionCollisions`. -/
def handleCushionCollisions (g : GameState) : GameState :=
  let tableLeft := -g.tableWidth / 2
  let tableRight := g.tableWidth / 2
  let tableTop := g.tableHeight / 2
  let tableBottom := -g.tableHeight / 2
  forLoop (List.range g.balls.length)
    (fun i s => s.modBall i (cushionBall tableLeft tableRight tableTop tableBottom)) g

/-- Source: `allBallsStopped`. -/
def allBallsStopped (g : GameState) : Bool :=
  (List.range g.balls.length).all (fun i =>
    !(g.ball i).active ||
      !(decide (|(g.ball i).vx| > g.minVelocity) || decide (|(g.ball i).vy| > g.minVelocity)))

/-- The four passes of a tick of `update` that precede the rest test: integration,
ball collisions, cushion collisions, pockets. -/
def tickPasses (m : Libm) (g : GameState) : GameState :=
  checkPockets m (handleCushionCollisions (handleBallCollisions m (integrate g)))

/-- The branch of `update` taken when `allBallsStopped()` holds. -/
def resolveTurn (g : GameState) : GameState :=
  let g := { g with ballsMoving := false, cueAiming := true, cuePower := 0 }
  let g := if !g.potted || g.foul then switchPlayer g else g
  { g with potted := false }

/-- Source: `update` (the redisplay request and the timer registration are
presentation and scheduling, not state). -/
def update (m : Libm) (g : GameState) : GameState :=
  if !g.gameOver then
    if g.ballsMoving then
      let g := tickPasses m g
      if allBallsStopped g then resolveTurn g else g
    else g
  else g

/-! ## Input -/

/-- Source: `GLUT_LEFT_BUTTON` of `GL/glut.h`. -/
def GLUT_LEFT_BUTTON : Int := 0

/-- Source: `GLUT_DOWN` of `GL/glut.h`. -/
def GLUT_DOWN : Int := 0

/-- Source: `GLUT_UP` of `GL/glut.h`. -/
def GLUT_UP : Int := 1

/-- Source: `mouseMotion`; the window size read through `glutGet` is the pair
`windowWidth`, `windowHeight`. -/
def mouseMotion (m : Libm) (windowWidth windowHeight : ℚ) (x y : Int) (g : GameState) :
    GameState :=
  if !g.ballsMoving && g.cueAiming then
    let glX := 2 * (x : ℚ) / windowWidth - 1
    let glY := 1 - 2 * (y : ℚ) / windowHeight
    let dx := glX - (g.ball 0).x
    let dy := glY - (g.ball 0).y
    let g := { g with cueAngle := m.atan2 dy dx }
    if g.cueDragging then
      let distance := m.sqrt (dx * dx + dy * dy)
      { g with cuePower := min distance g.maxCuePower }
    else g
  else g

/-- The shot of `mouseClick`: the cue ball receives its velocity and the balls are
flagged as moving. -/
def shoot (m : Libm) (g : GameState) : GameState :=
  let shotAngle := g.cueAngle + PI
  let velocityFactor : ℚ := 1 / 2
  let s := g.modBall 0 (fun b => { b with vx := m.cos shotAngle * g.cuePower * velocityFactor })
  let s := s.modBall 0 (fun b => { b with vy := m.sin shotAngle * s.cuePower * velocityFactor })
  { s with ballsMoving := true, cueAiming := false, cueDragging := false,
           shots := s.shots + 1 }

/-- Source: `mouseClick` (the pointer position is not used). -/
def mouseClick (m : Libm) (button state : Int) (g : GameState) : GameState :=
  if g.gameOver || g.ballsMoving then g
  else if button = GLUT_LEFT_BUTTON then
    if state = GLUT_DOWN then { g with cueDragging := true }
    else if state = GLUT_UP ∧ g.cueDragging then shoot m g
    else g
  else g

/-- Source: `keyboard`.  `none` is the process exit of the ESC key. -/
def keyboard (cueTag : Int) (key : Char) (g : GameState) : Option GameState :=
  if key = 'r' ∨ key = 'R' then some (initializeGame cueTag g)
  else if key.toNat = 27 then none
  else some g

/-! ## Evaluation support -/

/-- Rational square root, rounded down to a multiple of `1 / (d * 10 ^ 9)` for the
argument `n / d`; exact on squares of rationals. -/
def ratSqrt (q : ℚ) : ℚ :=
  if q ≤ 0 then 0
  else (Nat.sqrt (q.num.natAbs * q.den * 10 ^ 18) : ℚ) / ((q.den : ℚ) * 10 ^ 9)

/-- Cosine, by its Taylor polynomial of degree 16. -/
def ratCos (t : ℚ) : ℚ :=
  ((List.range 9).map (fun k => (-1) ^ k * t ^ (2 * k) / ((2 * k).factorial : ℚ))).sum

/-- Sine, by its Taylor polynomial of degree 17. -/
def ratSin (t : ℚ) : ℚ :=
  ((List.range 9).map (fun k => (-1) ^ k * t ^ (2 * k + 1) / ((2 * k + 1).factorial : ℚ))).sum

/-- Arc tangent on `[-1, 1]`, by a quadratic correction of the chord. -/
def ratAtan (z : ℚ) : ℚ := PI / 4 * z + (273 / 1000) * z * (1 - |z|)

/-- Two-argument arc tangent built on `ratAtan`, quadrant by quadrant. -/
def ratAtan2 (y x : ℚ) : ℚ :=
  if x = 0 ∧ y = 0 then 0
  else if |y| ≤ |x| then
    if 0 < x then ratAtan (y / x)
    else if 0 ≤ y then ratAtan (y / x) + PI else ratAtan (y / x) - PI
  else
    if 0 < y then PI / 2 - ratAtan (x / y) else -(PI / 2) - ratAtan (x / y)

/-- A computable rational stand-in for the maths library, used to run the model on
concrete inputs. -/
def evalLibm : Libm := { sqrt := ratSqrt, atan2 := ratAtan2, cos := ratCos, sin := ratSin }

/-! ## Vocabulary of the statements

Frame relations between the state before and after an operation, invariants, the
transition system of play and the concrete positions used to run the model. -/

/-- The state `t` differs from `s` in its balls only. -/
structure SameRules (s t : GameState) : Prop where
  tableWidth : t.tableWidth = s.tableWidth
  tableHeight : t.tableHeight = s.tableHeight
  cushionThickness : t.cushionThickness = s.cushionThickness
  activeBalls : t.activeBalls = s.activeBalls
  pockets : t.pockets = s.pockets
  cueAngle : t.cueAngle = s.cueAngle
  cueLength : t.cueLength = s.cueLength
  cuePower : t.cuePower = s.cuePower
  maxCuePower : t.maxCuePower = s.maxCuePower
  cueDragging : t.cueDragging = s.cueDragging
  cueAiming : t.cueAiming = s.cueAiming
  ballsMoving : t.ballsMoving = s.ballsMoving
  player1Score : t.player1Score = s.player1Score
  player2Score : t.player2Score = s.player2Score
  shots : t.shots = s.shots
  gameOver : t.gameOver = s.gameOver
  currentPlayer : t.currentPlayer = s.currentPlayer
  player1Solids : t.player1Solids = s.player1Solids
  player2Solids : t.player2Solids = s.player2Solids
  ballTypeAssigned : t.ballTypeAssigned = s.ballTypeAssigned
  potted : t.potted = s.potted
  foul : t.foul = s.foul
  winner : t.winner = s.winner
  message : t.message = s.message
  friction : t.friction = s.friction
  minVelocity : t.minVelocity = s.minVelocity

/-- The fields that no rule of the pocket pass writes: the table, the pockets, the
cue, the motion flag, the shot counter, the current player, the friction constants
and the number of balls. -/
structure SameTable (s t : GameState) : Prop where
  tableWidth : t.tableWidth = s.tableWidth
  tableHeight : t.tableHeight = s.tableHeight
  cushionThickness : t.cushionThickness = s.cushionThickness
  pockets : t.pockets = s.pockets
  cueAngle : t.cueAngle = s.cueAngle
  cueLength : t.cueLength = s.cueLength
  cuePower : t.cuePower = s.cuePower
  maxCuePower : t.maxCuePower = s.maxCuePower
  cueDragging : t.cueDragging = s.cueDragging
  cueAiming : t.cueAiming = s.cueAiming
  ballsMoving : t.ballsMoving = s.ballsMoving
  shots : t.shots = s.shots
  currentPlayer : t.currentPlayer = s.currentPlayer
  friction : t.friction = s.friction
  minVelocity : t.minVelocity = s.minVelocity
  length : t.balls.length = s.balls.length

/-- The new tag written by `assignBallTypes` on ball `k`. -/
def retag (p1Solids : Bool) (k : Nat) (b : Ball) : Ball :=
  if k = 8 then b
  else if 1 ≤ k ∧ k ≤ 7 then { b with player := if p1Solids then 1 else 2 }
  else { b with player := if p1Solids then 2 else 1 }

/-- The solids flag that `assignBallTypes` gives player 1 when ball `i` is potted by
the current player of `g`. -/
def splitP1 (i : Nat) (g : GameState) : Bool :=
  if g.currentPlayer = 1 then decide (1 ≤ i ∧ i ≤ 7) else !decide (1 ≤ i ∧ i ≤ 7)

/-- The solids flag that `assignBallTypes` gives player 2. -/
def splitP2 (i : Nat) (g : GameState) : Bool :=
  if g.currentPlayer = 1 then !decide (1 ≤ i ∧ i ≤ 7) else decide (1 ≤ i ∧ i ≤ 7)

/-- The outcome fields that `assignBallTypes` leaves alone. -/
structure SameBoard (s t : GameState) : Prop where
  gameOver : t.gameOver = s.gameOver
  winner : t.winner = s.winner
  foul : t.foul = s.foul
  potted : t.potted = s.potted
  player1Score : t.player1Score = s.player1Score
  player2Score : t.player2Score = s.player2Score

/-- The effect of `assignBallTypes` on a state without assignment. -/
structure AssignEffect (i : Nat) (s t : GameState) : Prop where
  table : SameTable s t
  board : SameBoard s t
  assigned : t.ballTypeAssigned = true
  p1 : t.player1Solids = splitP1 i s
  p2 : t.player2Solids = splitP2 i s
  ball : ∀ k, t.ball k =
    if 1 ≤ k ∧ k < s.balls.length then retag (splitP1 i s) k (s.ball k) else s.ball k

/-- The suit split: the assignment flag and the two solids flags. -/
structure SameSplit (s t : GameState) : Prop where
  ballTypeAssigned : t.ballTypeAssigned = s.ballTypeAssigned
  player1Solids : t.player1Solids = s.player1Solids
  player2Solids : t.player2Solids = s.player2Solids

/-- What every step of the pocket pass keeps: the table fields, a game-over or foul
flag once set, the motion of every ball but the cue ball, the radii, the inactivity
of every ball but the cue ball, the tag of ball 8, and a suit split once made. -/
structure PocketFrame (s t : GameState) : Prop where
  table : SameTable s t
  gameOver : s.gameOver = true → t.gameOver = true
  foul : s.foul = true → t.foul = true
  motion : ∀ k, k ≠ 0 → (t.ball k).x = (s.ball k).x ∧ (t.ball k).y = (s.ball k).y ∧
    (t.ball k).vx = (s.ball k).vx ∧ (t.ball k).vy = (s.ball k).vy
  radius : ∀ k, (t.ball k).radius = (s.ball k).radius
  inactive : ∀ k, k ≠ 0 → (s.ball k).active = false → (t.ball k).active = false
  tag8 : (t.ball 8).player = (s.ball 8).player
  split : s.ballTypeAssigned = true → SameSplit s t ∧ ∀ k, (t.ball k).player = (s.ball k).player

/-- What the three physics passes keep: every field but the balls, the number of
balls, and of each ball the active flag, the owner tag and the radius. -/
structure PhysFrame (s t : GameState) : Prop where
  rules : SameRules s t
  length : t.balls.length = s.balls.length
  active : ∀ k, (t.ball k).active = (s.ball k).active
  player : ∀ k, (t.ball k).player = (s.ball k).player
  radius : ∀ k, (t.ball k).radius = (s.ball k).radius

/-- A ball update that keeps the active flag, the tag and the radius. -/
def KeepsIdentity (f : Ball → Ball) : Prop :=
  ∀ b, (f b).active = b.active ∧ (f b).player = b.player ∧ (f b).radius = b.radius

/-- The cue ball after a scratch. -/
def respawned (b : Ball) : Ball :=
  { b with x := -(2 / 5), y := 0, vx := 0, vy := 0, active := true }

/-- Every ball has zero velocity. -/
def AtRest (s : GameState) : Prop := ∀ k, (s.ball k).vx = 0 ∧ (s.ball k).vy = 0

/-- The state right after a shot of power zero at the start of a match: the balls
are flagged as moving and every ball is at rest. -/
def restShot : GameState :=
  { startState 0 with ballsMoving := true, cueAiming := false, shots := 1 }

/-- What a step of the pocket pass for a ball other than ball 8 keeps: ball 8, the
game-over flag and the winner. -/
structure KeepsEight (s t : GameState) : Prop where
  ball : t.ball 8 = s.ball 8
  gameOver : t.gameOver = s.gameOver
  winner : t.winner = s.winner

/-- The winner that the 8-ball branch declares when ball 8 is captured in state `s`. -/
def verdict (s : GameState) : Int :=
  if ownBallActive (deactivate 8 s) then (if s.currentPlayer = 1 then 2 else 1)
  else s.currentPlayer

/-- The state of the pocket pass once ball 8 has been captured from state `s`. -/
structure EightDone (s t : GameState) : Prop where
  gameOver : t.gameOver = true
  winner : t.winner = verdict s
  ball : ∀ k, t.ball k = (deactivate 8 s).ball k
  length : t.balls.length = s.balls.length
  currentPlayer : t.currentPlayer = s.currentPlayer

/-- The state of the pocket pass when its outer loop reaches ball `i`. -/
def passBefore (m : Libm) (i : Nat) (g : GameState) : GameState :=
  forLoop (List.range i) (pocketBall m) g

/-- Ball `k` is a suit ball: a solid (1 to 7) or a stripe (9 to 15). -/
def IsSuitBall (k : Nat) : Prop := (1 ≤ k ∧ k ≤ 7) ∨ (9 ≤ k ∧ k ≤ 15)

/-- A position with the 8-ball at the centre of the top-middle pocket: player 1 to
play and holding solids (as after potting ball 1), all sixteen balls on the table. -/
def eightAtPocket : GameState :=
  (assignBallTypes 1 (startState 0)).modBall 8 (fun b => { b with x := 0, y := 17 / 40 })

/-- The start of a match with the 8-ball at the centre of the top-middle pocket:
player 1 to play, no suit assigned. -/
def earlyEight : GameState :=
  (startState 0).modBall 8 (fun b => { b with x := 0, y := 17 / 40 })

/-- The cue ball after a scratch in the pocket pass: the foul flag is set and the cue
ball is active, at rest, at the break spot. -/
structure Scratched (t : GameState) : Prop where
  foul : t.foul = true
  active : (t.ball 0).active = true
  x : (t.ball 0).x = -(2 / 5)
  y : (t.ball 0).y = 0
  vx : (t.ball 0).vx = 0
  vy : (t.ball 0).vy = 0

/-- The start of a match with the cue ball at the centre of the top-left pocket. -/
def cueAtPocket : GameState :=
  (startState 0).modBall 0 (fun b => { b with x := -(33 / 40), y := 17 / 40 })

/-- The player who holds solids according to the flag of player 1. -/
def solidsOwner (g : GameState) : Int := if g.player1Solids then 1 else 2

/-- The player who holds stripes according to the flag of player 1. -/
def stripesOwner (g : GameState) : Int := if g.player1Solids then 2 else 1

/-- The solids flag of player `p`. -/
def holdsSolids (g : GameState) (p : Int) : Bool :=
  if p = 1 then g.player1Solids else g.player2Solids

/-- The start of a match with ball 1 at the centre of the top-left pocket. -/
def oneAtPocket : GameState :=
  (startState 0).modBall 1 (fun b => { b with x := -(33 / 40), y := 17 / 40 })

/-- The score of player `p`. -/
def scoreOf (g : GameState) (p : Int) : Int :=
  if p = 1 then g.player1Score else g.player2Score

/-- One operation of play: a tick, an aim update or a mouse click. -/
inductive PlayStep (m : Libm) : GameState → GameState → Prop
  | tick (g : GameState) : PlayStep m g (update m g)
  | aim (g : GameState) (windowWidth windowHeight : ℚ) (x y : Int) :
      PlayStep m g (mouseMotion m windowWidth windowHeight x y g)
  | click (g : GameState) (button state : Int) : PlayStep m g (mouseClick m button state g)

/-- A finite sequence of operations of play leads from the first state to the second. -/
inductive Plays (m : Libm) : GameState → GameState → Prop
  | refl (g : GameState) : Plays m g g
  | step {g h k : GameState} : Plays m g h → PlayStep m h k → Plays m g k

/-- The state is reached from the start of a match by ticks, aim updates and clicks. -/
def Reachable (m : Libm) (g : GameState) : Prop := ∃ c, Plays m (startState c) g

/-- The tags agree with the split: sixteen balls, ball 8 neutral and, once suits are
assigned, the two players hold different suits, balls 1-7 carry the id of the solids
owner and balls 9-15 the id of the stripes owner. -/
structure Consistent (g : GameState) : Prop where
  length : g.balls.length = 16
  eight : (g.ball 8).player = 0
  split : g.ballTypeAssigned = true →
    g.player1Solids = !g.player2Solids ∧
    (∀ k, 1 ≤ k ∧ k ≤ 7 → (g.ball k).player = solidsOwner g) ∧
    (∀ k, 9 ≤ k ∧ k ≤ 15 → (g.ball k).player = stripesOwner g)

/-- The operation from `s` to `t` changes no owner tag and, if suits are assigned in
`s`, no part of the split. -/
structure KeepsSplit (s t : GameState) : Prop where
  length : t.balls.length = s.balls.length
  split : s.ballTypeAssigned = true → SameSplit s t
  tags : s.ballTypeAssigned = true → ∀ k, (t.ball k).player = (s.ball k).player

/-- The positions `(x, y)` of the sixteen balls at the start of a match: the cue ball
at the break spot and the fifteen balls of the triangle. -/
def startPositions : List (ℚ × ℚ) :=
  [(-(2 / 5), 0), (2 / 5, 0),
   (227279 / 500000, -(63 / 2000)), (227279 / 500000, 63 / 2000),
   (127279 / 250000, -(63 / 1000)), (127279 / 250000, 0), (127279 / 250000, 63 / 1000),
   (281837 / 500000, -(189 / 2000)), (281837 / 500000, -(63 / 2000)),
   (281837 / 500000, 63 / 2000), (281837 / 500000, 189 / 2000),
   (77279 / 125000, -(63 / 500)), (77279 / 125000, -(63 / 1000)), (77279 / 125000, 0),
   (77279 / 125000, 63 / 1000), (77279 / 125000, 63 / 500)]

/-- The state after the left mouse button is pressed at the start of a match. -/
def dragStarted : GameState := mouseClick evalLibm GLUT_LEFT_BUTTON GLUT_DOWN (startState 0)

/-- A finished match at rest: the start of a match with the game-over flag set and
player 2 declared the winner. -/
def finishedMatch : GameState := { startState 0 with gameOver := true, winner := 2 }

/-- The edge of the ball crosses the left or the right boundary of the table. -/
def CrossesX (g : GameState) (b : Ball) : Prop :=
  b.x - b.radius < -g.tableWidth / 2 ∨ b.x + b.radius > g.tableWidth / 2

/-- The edge of the ball crosses the bottom or the top boundary of the table. -/
def CrossesY (g : GameState) (b : Ball) : Prop :=
  b.y - b.radius < -g.tableHeight / 2 ∨ b.y + b.radius > g.tableHeight / 2

/-- The ball lies wholly inside the playing area of the table of `g`. -/
def InsideTable (g : GameState) (b : Ball) : Prop :=
  -g.tableWidth / 2 + b.radius ≤ b.x ∧ b.x ≤ g.tableWidth / 2 - b.radius ∧
  -g.tableHeight / 2 + b.radius ≤ b.y ∧ b.y ≤ g.tableHeight / 2 - b.radius

/-- The start of a match with the cue ball moving left across the left boundary. -/
def cueAtCushion : GameState :=
  (startState 0).modBall 0 (fun b => { b with x := -(39 / 50), vx := -(1 / 50) })

/-- The table is 1.6 by 0.8, no ball has a radius above 0.4, and every active ball
lies inside the table. -/
structure OnTable (g : GameState) : Prop where
  width : g.tableWidth = 8 / 5
  height : g.tableHeight = 4 / 5
  radius : ∀ k, (g.ball k).radius ≤ 2 / 5
  inside : ∀ k, (g.ball k).active = true → InsideTable g (g.ball k)

/-- The start of a match with the cue ball moving right at speed 0.02. -/
def cueRolling : GameState :=
  (startState 0).modBall 0 (fun b => { b with vx := 1 / 50 })

/-- The value `distance` of `handleBallCollisions` for the pair `(i, j)`. -/
def pairDistance (m : Libm) (i j : Nat) (g : GameState) : ℚ :=
  m.sqrt (((g.ball j).x - (g.ball i).x) * ((g.ball j).x - (g.ball i).x) +
    ((g.ball j).y - (g.ball i).y) * ((g.ball j).y - (g.ball i).y))

/-- The value `nx` of `handleBallCollisions` for the pair `(i, j)`. -/
def normalX (m : Libm) (i j : Nat) (g : GameState) : ℚ :=
  ((g.ball j).x - (g.ball i).x) / pairDistance m i j g

/-- The value `ny` of `handleBallCollisions` for the pair `(i, j)`. -/
def normalY (m : Libm) (i j : Nat) (g : GameState) : ℚ :=
  ((g.ball j).y - (g.ball i).y) / pairDistance m i j g

/-- The value `velAlongNormal` of `handleBallCollisions` for the pair `(i, j)`. -/
def velAlongNormal (m : Libm) (i j : Nat) (g : GameState) : ℚ :=
  ((g.ball j).vx - (g.ball i).vx) * normalX m i j g +
    ((g.ball j).vy - (g.ball i).vy) * normalY m i j g

/-- The test `distance < radius_i + radius_j` of `handleBallCollisions`. -/
def Overlapping (m : Libm) (i j : Nat) (g : GameState) : Prop :=
  pairDistance m i j g < (g.ball i).radius + (g.ball j).radius

/-- The divisor `distance` of the quotients `dx / distance` and `dy / distance` of
`handleBallCollisions` for the pair `(i, j)`, when the pair reaches them; `none` when
the pair is skipped before. -/
def normalDivisor (m : Libm) (i j : Nat) (g : GameState) : Option ℚ :=
  if !(g.ball j).active then none
  else if pairDistance m i j g < (g.ball i).radius + (g.ball j).radius then
    some (pairDistance m i j g)
  else none

/-- The sum of the squared speeds of balls `i` and `j`: twice the kinetic energy of
the pair for unit masses. -/
def pairEnergy (i j : Nat) (g : GameState) : ℚ :=
  (g.ball i).vx ^ 2 + (g.ball i).vy ^ 2 + (g.ball j).vx ^ 2 + (g.ball j).vy ^ 2

/-- The start of a match with the cue ball moved next to ball 1, their edges
overlapping by 0.01, the cue ball moving along the line of centres with velocity
`v`. -/
def cueNear (v : ℚ) : GameState :=
  (startState 0).modBall 0 (fun b => { b with x := 7 / 20, vx := v })

/-- The start of a match with ball 1 lying on the break spot, under the cue ball. -/
def stacked : GameState :=
  (startState 0).modBall 1 (fun b => { b with x := -(2 / 5), y := 0 })

/-- A ball of the triangle once potted, carrying the owner tag `tag`. -/
def pottedBall (row col ballIndex : Nat) (tag : Int) : Ball :=
  { rackBall row col ballIndex with active := false, player := tag }

/-- An end-game position during a shot of player 1, who holds solids: every suit
ball is potted, the cue ball rests on the break spot and the 8-ball rests inside the
cushions at `(0, 0.37)`, within the capture radius of the top-middle pocket. -/
def lastBlack : GameState :=
  { startState 0 with
    balls :=
      [cueBall 0, pottedBall 0 0 1 1, pottedBall 1 0 2 1, pottedBall 1 1 3 1,
       pottedBall 2 0 4 1, pottedBall 2 1 5 1, pottedBall 2 2 6 1, pottedBall 3 0 7 1,
       { rackBall 3 1 8 with x := 0, y := 37 / 100 },
       pottedBall 3 2 9 2, pottedBall 3 3 10 2, pottedBall 4 0 11 2, pottedBall 4 1 12 2,
       pottedBall 4 2 13 2, pottedBall 4 3 14 2, pottedBall 4 4 15 2]
    activeBalls := 2
    ballsMoving := true
    cueAiming := false
    shots := 30
    player1Score := 7
    player2Score := 7
    player1Solids := true
    ballTypeAssigned := true }

/-- The states `s` and `t` agree off the inactive ball `i`: ball `i` is inactive in
`s`, and `t` is `s` with ball `i` replaced by some inactive ball. -/
def AgreeOff (i : Nat) (s t : GameState) : Prop :=
  (s.ball i).active = false ∧ ∃ b : Ball, b.active = false ∧ t = s.setBall i b

/-- One operation of a match: an operation of play, or a key press that the program
survives (a reset, or a key that is ignored). -/
inductive MatchStep (m : Libm) : GameState → GameState → Prop
  | play {g h : GameState} : PlayStep m g h → MatchStep m g h
  | key (g h : GameState) (cueTag : Int) (k : Char) :
      keyboard cueTag k g = some h → MatchStep m g h

/-- A finite sequence of operations of a match leads from the first state to the
second. -/
inductive MatchRun (m : Libm) : GameState → GameState → Prop
  | refl (g : GameState) : MatchRun m g g
  | step {g h k : GameState} : MatchRun m g h → MatchStep m h k → MatchRun m g k

/-- The state is reached from the start of a match by ticks, aim updates, clicks and
key presses (resets included). -/
def Attainable (m : Libm) (g : GameState) : Prop := ∃ c, MatchRun m (startState c) g

/-- The threshold is 0.008 and, unless the balls are flagged as moving, no velocity
component of an active ball exceeds it in magnitude. -/
def Settled (g : GameState) : Prop :=
  g.minVelocity = 1 / 125 ∧
  (g.ballsMoving = false →
    ∀ k, (g.ball k).active = true → |(g.ball k).vx| ≤ 1 / 125 ∧ |(g.ball k).vy| ≤ 1 / 125)

/-- A shot in progress in which only the cue ball has left its place: the cue ball is
at `(x, y)` with velocity `(vx, vy)`, the fifteen other balls are as at the start of a
match, the balls are flagged as moving and the game is not over. -/
structure CueShot (x y vx vy : ℚ) (s : GameState) : Prop where
  cue : s.ball 0 = { cueBall 0 with x := x, y := y, vx := vx, vy := vy }
  rack : ∀ k, 1 ≤ k → s.ball k = (startState 0).ball k
  length : s.balls.length = 16
  pockets : s.pockets = (startState 0).pockets
  tableWidth : s.tableWidth = 8 / 5
  tableHeight : s.tableHeight = 4 / 5
  friction : s.friction = 1249 / 1250
  minVelocity : s.minVelocity = 1 / 125
  ballsMoving : s.ballsMoving = true
  gameOver : s.gameOver = false

/-- The state after the aim of the slow shot: the button is held and the pointer is
0.02 to the right of the cue ball, in a window of 800 by 600. -/
def slowAim : GameState := mouseMotion evalLibm 800 600 248 300 dragStarted

/-- The state after the release of the slow shot. -/
def slowShot : GameState := mouseClick evalLibm GLUT_LEFT_BUTTON GLUT_UP slowAim

/-- The state 38 ticks after the release of the slow shot. -/
def slowBounce : GameState := (update evalLibm)^[38] slowShot

/-- The library square root falls below the threshold `r` only on arguments below
`r ^ 2`, as the real square root does. -/
def SqrtBelow (m : Libm) (r : ℚ) : Prop := ∀ q, m.sqrt q < r → q < r ^ 2

/-- The point `(x, y)` lies in the capture disc of the pocket `p`. -/
def InDisc (p : Pocket) (x y : ℚ) : Prop :=
  (x - p.x) * (x - p.x) + (y - p.y) * (y - p.y) < p.radius ^ 2

/-- The capture branch of the pocket pass runs for ball `i` at pocket `j`, when the
inner loop over the pockets is started in state `g`: the test `distance < radius`
holds in the state the loop has reached before pocket `j`. -/
def capturedAt (m : Libm) (i j : Nat) (g : GameState) : Bool :=
  inPocket m i j (forLoop (List.range j) (pocketStep m i) g)

/-- The state built by `initializeBalls` followed by `initializePockets`. -/
def openingLayout (cueTag : Int) (g : GameState) : GameState :=
  initializePockets (initializeBalls cueTag g)

/-- Source: `float elasticity = 0.1f` of `handleBallCollisions`. -/
def elasticity : ℚ := 1 / 10

/-- One integration step on a velocity component: multiplication by the friction
factor, then the snap to zero below the threshold. -/
def snapStep (f mv v : ℚ) : ℚ := if |v * f| < mv then 0 else v * f

/-- An end-game position during a shot of player 1, who holds solids: the last solid,
ball 7, rests within the capture radius of the bottom-middle pocket and the 8-ball
within that of the top-middle pocket; every other suit ball is potted. -/
def lastTwoSolids : GameState :=
  { lastBlack with
    balls :=
      [cueBall 0, pottedBall 0 0 1 1, pottedBall 1 0 2 1, pottedBall 1 1 3 1,
       pottedBall 2 0 4 1, pottedBall 2 1 5 1, pottedBall 2 2 6 1,
       { rackBall 3 0 7 with x := 0, y := -(37 / 100), player := 1 },
       { rackBall 3 1 8 with x := 0, y := 37 / 100 },
       pottedBall 3 2 9 2, pottedBall 3 3 10 2, pottedBall 4 0 11 2, pottedBall 4 1 12 2,
       pottedBall 4 2 13 2, pottedBall 4 3 14 2, pottedBall 4 4 15 2]
    activeBalls := 3
    player1Score := 6 }

/-- The same end-game position with the suits exchanged: player 1 holds stripes, the
last stripe, ball 9, rests within the capture radius of the bottom-middle pocket and
the 8-ball within that of the top-middle pocket; every other suit ball is potted. -/
def lastTwoStripes : GameState :=
  { lastBlack with
    balls :=
      [cueBall 0, pottedBall 0 0 1 2, pottedBall 1 0 2 2, pottedBall 1 1 3 2,
       pottedBall 2 0 4 2, pottedBall 2 1 5 2, pottedBall 2 2 6 2, pottedBall 3 0 7 2,
       { rackBall 3 1 8 with x := 0, y := 37 / 100 },
       { rackBall 3 2 9 with x := 0, y := -(37 / 100), player := 1 },
       pottedBall 3 3 10 1, pottedBall 4 0 11 1, pottedBall 4 1 12 1,
       pottedBall 4 2 13 1, pottedBall 4 3 14 1, pottedBall 4 4 15 1]
    activeBalls := 3
    player1Score := 6
    player1Solids := false
    player2Solids := true }

/-- The number of inactive suit balls (indices 1 to 7 and 9 to 15). -/
def pottedSuits (g : GameState) : Nat :=
  (List.range g.balls.length).countP
    (fun k => decide ((1 ≤ k ∧ k ≤ 7) ∨ (9 ≤ k ∧ k ≤ 15)) && !(g.ball k).active)

/-- The number of inactive balls that carry the owner tag `p`. -/
def pottedOf (g : GameState) (p : Int) : Nat :=
  (List.range g.balls.length).countP
    (fun k => decide ((g.ball k).player = p) && !(g.ball k).active)

/-- Player `p` has no ball of index from 1 left on the table: every ball that carries
the tag `p` is inactive (the test of the 8-ball branch of `checkPockets`). -/
def suitCleared (g : GameState) (p : Int) : Prop :=
  ∀ k, 1 ≤ k → (g.ball k).player = p → (g.ball k).active = false

/-- The scores agree with the balls: the tags are consistent, a player is to play, the
pockets are those of `initializePockets`, the cue ball is active, no suit ball is
inactive before suits are assigned, and each score is the number of inactive balls
that carry the player's tag. -/
structure Tally (g : GameState) : Prop where
  consistent : Consistent g
  player : g.currentPlayer = 1 ∨ g.currentPlayer = 2
  pockets : g.pockets = (startState 0).pockets
  cue : (g.ball 0).active = true
  fresh : g.ballTypeAssigned = false → ∀ k, IsSuitBall k → (g.ball k).active = true
  score1 : g.player1Score = pottedOf g 1
  score2 : g.player2Score = pottedOf g 2

/-- The tally on the table of the source: the dimensions from which a reset rebuilds
the pockets have the values of the member initialisers. -/
structure TableTally (g : GameState) : Prop where
  tally : Tally g
  width : g.tableWidth = 8 / 5
  height : g.tableHeight = 4 / 5
  cushion : g.cushionThickness = 1 / 20

/-- The loop `for` over the indices with a body that can fail: the first failure ends
the loop. -/
def forLoopChecked (idxs : List Nat) (body : Nat → GameState → Option GameState)
    (g : GameState) : Option GameState :=
  idxs.foldlM (fun s i => body i s) g

/-- Body of the inner loop of `handleBallCollisions` for the pair `(i, j)` with the
float division made explicit: `none` when the pair reaches the quotients
`dx / distance` and `dy / distance` with `distance = 0`, where the source computes
`0.0f / 0.0f` and writes the result into the velocities and positions of both balls;
otherwise the result of `collidePair`. -/
def collidePairChecked (m : Libm) (i j : Nat) (g : GameState) : Option GameState :=
  if normalDivisor m i j g = some 0 then none else some (collidePair m i j g)

/-- Body of the outer loop of `handleBallCollisions` for ball `i`, failing where a pair
divides by a zero distance. -/
def collideBallChecked (m : Libm) (i : Nat) (g : GameState) : Option GameState :=
  if !(g.ball i).active then some g
  else forLoopChecked (List.range' (i + 1) (g.balls.length - (i + 1)))
    (collidePairChecked m i) g

/-- Source: `handleBallCollisions`, failing where a pair divides by a zero distance. -/
def handleBallCollisionsChecked (m : Libm) (g : GameState) : Option GameState :=
  forLoopChecked (List.range g.balls.length) (collideBallChecked m) g

/-- The position `stacked` right after a shot of power zero: the balls are flagged as
moving, every ball is at rest, ball 1 lies under the cue ball. -/
def stackedShot : GameState :=
  { stacked with ballsMoving := true, cueAiming := false, shots := 1 }

/-! ## Basic facts about states and loops -/

theorem forLoop_nil (body : Nat → GameState → GameState) (g : GameState) :
    forLoop [] body g = g := rfl

theorem forLoop_cons (i : Nat) (is : List Nat) (body : Nat → GameState → GameState)
    (g : GameState) : forLoop (i :: is) body g = forLoop is body (body i g) := rfl

theorem forLoop_append (is js : List Nat) (body : Nat → GameState → GameState)
    (g : GameState) : forLoop (is ++ js) body g = forLoop js body (forLoop is body g) := by
  simp [forLoop, List.foldl_append]

/-- A property kept by every iteration is kept by the loop. -/
theorem forLoop_invariant (P : GameState → Prop) (idxs : List Nat)
    (body : Nat → GameState → GameState) (hbody : ∀ i s, P s → P (body i s))
    (g : GameState) (hg : P g) : P (forLoop idxs body g) := by
  induction idxs generalizing g with
  | nil => exact hg
  | cons i is ih => exact ih _ (hbody i g hg)

/-- A quantity left alone by every iteration is left alone by the loop. -/
theorem forLoop_preserves {α : Type} (f : GameState → α) (idxs : List Nat)
    (body : Nat → GameState → GameState) (hbody : ∀ i s, f (body i s) = f s)
    (g : GameState) : f (forLoop idxs body g) = f g := by
  induction idxs generalizing g with
  | nil => rfl
  | cons i is ih => rw [forLoop_cons, ih, hbody]

theorem ball_setBall (g : GameState) (i k : Nat) (b : Ball) :
    (g.setBall i b).ball k = if i = k ∧ i < g.balls.length then b else g.ball k := by
  unfold GameState.setBall GameState.ball
  by_cases hik : i = k
  · subst hik
    by_cases hlt : i < g.balls.length
    · simp [List.getD_eq_getElem?_getD, hlt]
    · have hle : g.balls.length ≤ i := Nat.le_of_not_lt hlt
      have h1 : (g.balls.set i b)[i]? = none :=
        List.getElem?_eq_none (by simpa using hle)
      simp [List.getD_eq_getElem?_getD, hlt, List.getElem?_eq_none hle, h1]
  · simp [List.getD_eq_getElem?_getD, List.getElem?_set, hik]

theorem ball_setBall_ne (g : GameState) (i k : Nat) (b : Ball) (h : i ≠ k) :
    (g.setBall i b).ball k = g.ball k := by
  simp [ball_setBall, h]

theorem ball_setBall_same (g : GameState) (i : Nat) (b : Ball) (h : i < g.balls.length) :
    (g.setBall i b).ball i = b := by
  simp [ball_setBall, h]

theorem length_setBall (g : GameState) (i : Nat) (b : Ball) :
    (g.setBall i b).balls.length = g.balls.length := by
  simp [GameState.setBall]

/-! ## Frame facts: what a pass leaves alone -/

theorem SameRules.reflRules (s : GameState) : SameRules s s := by
  constructor <;> rfl

theorem SameRules.thenRules {s t u : GameState} (h1 : SameRules s t) (h2 : SameRules t u) :
    SameRules s u := by
  cases h1
  cases h2
  constructor <;> simp_all

theorem sameRules_setBall (g : GameState) (i : Nat) (b : Ball) :
    SameRules g (g.setBall i b) := by
  constructor <;> rfl

/-- A relation that is reflexive and transitive and holds across every iteration
holds across the loop. -/
theorem forLoop_rel (R : GameState → GameState → Prop) (hrefl : ∀ s, R s s)
    (htrans : ∀ s t u, R s t → R t u → R s u) (idxs : List Nat)
    (body : Nat → GameState → GameState) (hbody : ∀ i ∈ idxs, ∀ s, R s (body i s))
    (g : GameState) : R g (forLoop idxs body g) := by
  induction idxs generalizing g with
  | nil => exact hrefl g
  | cons i is ih =>
    rw [forLoop_cons]
    exact htrans _ _ _ (hbody i (List.mem_cons_self i is) g)
      (ih (fun k hk s => hbody k (List.mem_cons_of_mem i hk) s) _)

theorem forLoop_sameRules (idxs : List Nat) (body : Nat → GameState → GameState)
    (hbody : ∀ i s, SameRules s (body i s)) (g : GameState) :
    SameRules g (forLoop idxs body g) :=
  forLoop_rel SameRules SameRules.reflRules (fun _ _ _ => SameRules.thenRules) idxs body
    (fun i _ s => hbody i s) g

theorem SameTable.reflTable (s : GameState) : SameTable s s := by
  constructor <;> rfl

theorem SameTable.thenTable {s t u : GameState} (h1 : SameTable s t) (h2 : SameTable t u) :
    SameTable s u := by
  cases h1
  cases h2
  constructor <;> simp_all

theorem SameRules.sameTable {s t : GameState} (h : SameRules s t)
    (hlen : t.balls.length = s.balls.length) : SameTable s t := by
  cases h
  constructor <;> assumption

theorem retag_idem (p : Bool) (k : Nat) (b : Ball) : retag p k (retag p k b) = retag p k b := by
  unfold retag
  split
  · rfl
  · split <;> rfl

theorem assignStep_eq (i : Nat) (g : GameState) :
    assignStep i g = if i = 8 then g else g.setBall i (retag g.player1Solids i (g.ball i)) := by
  unfold assignStep retag
  by_cases h8 : i = 8
  · simp [h8]
  · by_cases h : 1 ≤ i ∧ i ≤ 7 <;> simp [h8, h]

theorem assignStep_sameRules (i : Nat) (g : GameState) : SameRules g (assignStep i g) := by
  rw [assignStep_eq]
  split
  · exact SameRules.reflRules g
  · exact sameRules_setBall _ _ _

theorem assignStep_length (i : Nat) (g : GameState) :
    (assignStep i g).balls.length = g.balls.length := by
  rw [assignStep_eq]
  split
  · rfl
  · exact length_setBall _ _ _

theorem assignStep_ball (i k : Nat) (g : GameState) :
    (assignStep i g).ball k =
      if i = k ∧ i < g.balls.length then retag g.player1Solids k (g.ball k) else g.ball k := by
  rw [assignStep_eq]
  by_cases h8 : i = 8
  · by_cases hk : i = k
    · subst hk
      simp [h8, retag]
    · have hk8 : ¬ (8 = k) := fun e => hk (h8.trans e)
      simp [h8, hk8]
  · rw [if_neg h8, ball_setBall]
    by_cases hk : i = k
    · subst hk
      rfl
    · simp [hk]

theorem assignSteps_ball (idxs : List Nat) (k : Nat) (g : GameState) :
    (forLoop idxs assignStep g).ball k =
      if k ∈ idxs ∧ k < g.balls.length then retag g.player1Solids k (g.ball k)
      else g.ball k := by
  induction idxs generalizing g with
  | nil => simp [forLoop_nil]
  | cons i is ih =>
    rw [forLoop_cons, ih, assignStep_length, assignStep_ball]
    have hp : (assignStep i g).player1Solids = g.player1Solids :=
      (assignStep_sameRules i g).player1Solids
    rw [hp]
    by_cases hlen : k < g.balls.length
    · by_cases hik : i = k
      · subst hik
        by_cases hmem : i ∈ is <;> simp [hmem, hlen, retag_idem]
      · have hki : ¬ k = i := fun e => hik e.symm
        by_cases hmem : k ∈ is <;> simp [hmem, hlen, hik, hki]
    · simp [hlen]
      intro h1 h2
      exact absurd (h1 ▸ h2) hlen

theorem mem_range'_one (k n : Nat) : k ∈ List.range' 1 (n - 1) ↔ 1 ≤ k ∧ k < n := by
  rw [List.mem_range'_1]
  omega

theorem assignLoop_sameRules (g : GameState) : SameRules g (assignLoop g) :=
  forLoop_sameRules _ assignStep assignStep_sameRules g

theorem assignLoop_length (g : GameState) : (assignLoop g).balls.length = g.balls.length :=
  forLoop_preserves (fun s => s.balls.length) _ assignStep assignStep_length g

theorem assignLoop_ball (k : Nat) (g : GameState) :
    (assignLoop g).ball k =
      if 1 ≤ k ∧ k < g.balls.length then retag g.player1Solids k (g.ball k) else g.ball k := by
  unfold assignLoop
  rw [assignSteps_ball]
  by_cases h1 : 1 ≤ k ∧ k < g.balls.length
  · rw [if_pos h1, if_pos ⟨(mem_range'_one k _).2 h1, h1.2⟩]
  · rw [if_neg h1, if_neg (fun hh => h1 ((mem_range'_one k _).1 hh.1))]

theorem SameBoard.thenBoard {s t u : GameState} (h1 : SameBoard s t) (h2 : SameBoard t u) :
    SameBoard s u := by
  cases h1
  cases h2
  constructor <;> simp_all

theorem SameRules.sameBoard {s t : GameState} (h : SameRules s t) : SameBoard s t := by
  cases h
  constructor <;> assumption

theorem assignSplit_table (i : Nat) (g : GameState) : SameTable g (assignSplit i g) := by
  unfold assignSplit
  dsimp only
  split <;> constructor <;> rfl

theorem assignSplit_board (i : Nat) (g : GameState) : SameBoard g (assignSplit i g) := by
  unfold assignSplit
  dsimp only
  split <;> constructor <;> rfl

theorem assignSplit_balls (i : Nat) (g : GameState) : (assignSplit i g).balls = g.balls := by
  unfold assignSplit
  dsimp only
  split <;> rfl

theorem assignSplit_p1 (i : Nat) (g : GameState) :
    (assignSplit i g).player1Solids = splitP1 i g := by
  unfold assignSplit splitP1
  dsimp only
  split <;> rfl

theorem assignSplit_p2 (i : Nat) (g : GameState) :
    (assignSplit i g).player2Solids = splitP2 i g := by
  unfold assignSplit splitP2
  dsimp only
  split <;> rfl

theorem assignFinish_table (g : GameState) : SameTable g (assignFinish g) := by
  unfold assignFinish
  dsimp only
  split <;> constructor <;> rfl

theorem assignFinish_board (g : GameState) : SameBoard g (assignFinish g) := by
  unfold assignFinish
  dsimp only
  split <;> constructor <;> rfl

theorem assignFinish_balls (g : GameState) : (assignFinish g).balls = g.balls := by
  unfold assignFinish
  dsimp only
  split <;> rfl

theorem assignFinish_p1 (g : GameState) :
    (assignFinish g).player1Solids = g.player1Solids := by
  unfold assignFinish
  dsimp only
  split <;> rfl

theorem assignFinish_p2 (g : GameState) :
    (assignFinish g).player2Solids = g.player2Solids := by
  unfold assignFinish
  dsimp only
  split <;> rfl

theorem assignFinish_assigned (g : GameState) : (assignFinish g).ballTypeAssigned = true := by
  unfold assignFinish
  dsimp only
  split <;> rfl

theorem ball_congr {s t : GameState} (h : t.balls = s.balls) (k : Nat) : t.ball k = s.ball k := by
  unfold GameState.ball
  rw [h]

theorem assignBallTypes_effect (i : Nat) (g : GameState) (h : g.ballTypeAssigned = false) :
    AssignEffect i g (assignBallTypes i g) := by
  unfold assignBallTypes
  rw [if_neg (by simp [h])]
  have hl : (assignLoop (assignSplit i g)).balls.length = g.balls.length := by
    rw [assignLoop_length, assignSplit_balls]
  refine ⟨?_, ?_, assignFinish_assigned _, ?_, ?_, ?_⟩
  · exact (assignSplit_table i g).thenTable
      (((assignLoop_sameRules _).sameTable (assignLoop_length _)).thenTable (assignFinish_table _))
  · exact (assignSplit_board i g).thenBoard
      ((assignLoop_sameRules _).sameBoard.thenBoard (assignFinish_board _))
  · rw [assignFinish_p1, (assignLoop_sameRules _).player1Solids, assignSplit_p1]
  · rw [assignFinish_p2, (assignLoop_sameRules _).player2Solids, assignSplit_p2]
  · intro k
    rw [ball_congr (assignFinish_balls _), assignLoop_ball, assignSplit_p1,
      ball_congr (assignSplit_balls i g), assignSplit_balls]

theorem assignBallTypes_assigned (i : Nat) (g : GameState) (h : g.ballTypeAssigned = true) :
    assignBallTypes i g = g := by
  unfold assignBallTypes
  rw [if_pos h]

theorem SameBoard.reflBoard (s : GameState) : SameBoard s s := by
  constructor <;> rfl

theorem SameSplit.reflSplit (s : GameState) : SameSplit s s := by
  constructor <;> rfl

theorem SameSplit.thenSplit {s t u : GameState} (h1 : SameSplit s t) (h2 : SameSplit t u) :
    SameSplit s u := by
  cases h1
  cases h2
  constructor <;> simp_all

theorem retag_x (p : Bool) (k : Nat) (b : Ball) : (retag p k b).x = b.x := by
  unfold retag
  split
  · rfl
  · split <;> rfl

theorem retag_y (p : Bool) (k : Nat) (b : Ball) : (retag p k b).y = b.y := by
  unfold retag
  split
  · rfl
  · split <;> rfl

theorem retag_vx (p : Bool) (k : Nat) (b : Ball) : (retag p k b).vx = b.vx := by
  unfold retag
  split
  · rfl
  · split <;> rfl

theorem retag_vy (p : Bool) (k : Nat) (b : Ball) : (retag p k b).vy = b.vy := by
  unfold retag
  split
  · rfl
  · split <;> rfl

theorem retag_radius (p : Bool) (k : Nat) (b : Ball) : (retag p k b).radius = b.radius := by
  unfold retag
  split
  · rfl
  · split <;> rfl

theorem retag_active (p : Bool) (k : Nat) (b : Ball) : (retag p k b).active = b.active := by
  unfold retag
  split
  · rfl
  · split <;> rfl

theorem retag_eight (p : Bool) (b : Ball) : retag p 8 b = b := by
  simp [retag]

/-! ### The stages of a capture -/

theorem deactivate_table (i : Nat) (g : GameState) : SameTable g (deactivate i g) := by
  unfold deactivate
  constructor <;> first | rfl | exact length_setBall _ _ _

theorem deactivate_board (i : Nat) (g : GameState) : SameBoard g (deactivate i g) := by
  unfold deactivate
  constructor <;> rfl

theorem deactivate_split (i : Nat) (g : GameState) : SameSplit g (deactivate i g) := by
  unfold deactivate
  constructor <;> rfl

theorem deactivate_ball (i k : Nat) (g : GameState) :
    (deactivate i g).ball k =
      if i = k ∧ i < g.balls.length then { g.ball i with active := false } else g.ball k := by
  have h : (deactivate i g).ball k = (g.setBall i { g.ball i with active := false }).ball k := rfl
  rw [h, ball_setBall]

theorem scratchBranch_table (g : GameState) : SameTable g (scratchBranch g) := by
  unfold scratchBranch
  constructor <;> first | rfl | exact length_setBall _ _ _

theorem scratchBranch_split (g : GameState) : SameSplit g (scratchBranch g) := by
  unfold scratchBranch
  constructor <;> rfl

theorem scratchBranch_foul (g : GameState) : (scratchBranch g).foul = true := rfl

theorem scratchBranch_gameOver (g : GameState) : (scratchBranch g).gameOver = g.gameOver := rfl

theorem scratchBranch_winner (g : GameState) : (scratchBranch g).winner = g.winner := rfl

theorem scratchBranch_potted (g : GameState) : (scratchBranch g).potted = g.potted := rfl

theorem scratchBranch_player1Score (g : GameState) :
    (scratchBranch g).player1Score = g.player1Score := rfl

theorem scratchBranch_player2Score (g : GameState) :
    (scratchBranch g).player2Score = g.player2Score := rfl

theorem scratchBranch_ball (k : Nat) (g : GameState) :
    (scratchBranch g).ball k =
      if 0 = k ∧ 0 < g.balls.length then
        { g.ball 0 with x := -(2 / 5), y := 0, vx := 0, vy := 0, active := true }
      else g.ball k := by
  have h : (scratchBranch g).ball k =
      (({ g with foul := true } : GameState).setBall 0
        { g.ball 0 with x := -(2 / 5), y := 0, vx := 0, vy := 0, active := true }).ball k := rfl
  rw [h, ball_setBall]
  rfl

theorem eightBallBranch_table (g : GameState) : SameTable g (eightBallBranch g) := by
  unfold eightBallBranch
  dsimp only
  split <;> constructor <;> rfl

theorem eightBallBranch_split (g : GameState) : SameSplit g (eightBallBranch g) := by
  unfold eightBallBranch
  dsimp only
  split <;> constructor <;> rfl

theorem eightBallBranch_balls (g : GameState) : (eightBallBranch g).balls = g.balls := by
  unfold eightBallBranch
  dsimp only
  split <;> rfl

theorem eightBallBranch_gameOver (g : GameState) : (eightBallBranch g).gameOver = true := by
  unfold eightBallBranch
  dsimp only
  split <;> rfl

theorem eightBallBranch_winner (g : GameState) :
    (eightBallBranch g).winner =
      if ownBallActive g then (if g.currentPlayer = 1 then 2 else 1) else g.currentPlayer := by
  unfold eightBallBranch
  dsimp only
  cases ownBallActive g <;> rfl

theorem eightBallBranch_foul (g : GameState) : (eightBallBranch g).foul = g.foul := by
  unfold eightBallBranch
  dsimp only
  split <;> rfl

theorem eightBallBranch_potted (g : GameState) : (eightBallBranch g).potted = g.potted := by
  unfold eightBallBranch
  dsimp only
  split <;> rfl

theorem eightBallBranch_player1Score (g : GameState) :
    (eightBallBranch g).player1Score = g.player1Score := by
  unfold eightBallBranch
  dsimp only
  split <;> rfl

theorem eightBallBranch_player2Score (g : GameState) :
    (eightBallBranch g).player2Score = g.player2Score := by
  unfold eightBallBranch
  dsimp only
  split <;> rfl

theorem scoreBall_table (i : Nat) (g : GameState) : SameTable g (scoreBall i g) := by
  unfold scoreBall
  dsimp only
  split <;> split <;> constructor <;> rfl

theorem scoreBall_split (i : Nat) (g : GameState) : SameSplit g (scoreBall i g) := by
  unfold scoreBall
  dsimp only
  split <;> split <;> constructor <;> rfl

theorem scoreBall_balls (i : Nat) (g : GameState) : (scoreBall i g).balls = g.balls := by
  unfold scoreBall
  dsimp only
  split <;> split <;> rfl

theorem scoreBall_gameOver (i : Nat) (g : GameState) :
    (scoreBall i g).gameOver = g.gameOver := by
  unfold scoreBall
  dsimp only
  split <;> split <;> rfl

theorem scoreBall_winner (i : Nat) (g : GameState) : (scoreBall i g).winner = g.winner := by
  unfold scoreBall
  dsimp only
  split <;> split <;> rfl

theorem scoreBall_foul (i : Nat) (g : GameState) : (scoreBall i g).foul = g.foul := by
  unfold scoreBall
  dsimp only
  split <;> split <;> rfl

theorem regularBranch_eq (i : Nat) (g : GameState) :
    regularBranch i g = scoreBall i (assignBallTypes i g) := by
  unfold regularBranch
  cases h : g.ballTypeAssigned
  · simp
  · simp [assignBallTypes_assigned i g h]

theorem PocketFrame.reflPocket (s : GameState) : PocketFrame s s := by
  refine ⟨SameTable.reflTable s, id, id, ?_, ?_, ?_, rfl, ?_⟩
  · intro k _
    exact ⟨rfl, rfl, rfl, rfl⟩
  · intro k
    rfl
  · intro k _ h
    exact h
  · intro _
    exact ⟨SameSplit.reflSplit s, fun _ => rfl⟩

theorem PocketFrame.thenPocket {s t u : GameState} (h1 : PocketFrame s t) (h2 : PocketFrame t u) :
    PocketFrame s u := by
  refine ⟨h1.table.thenTable h2.table, fun h => h2.gameOver (h1.gameOver h),
    fun h => h2.foul (h1.foul h), ?_, ?_, ?_, h2.tag8.trans h1.tag8, ?_⟩
  · intro k hk
    obtain ⟨a1, a2, a3, a4⟩ := h1.motion k hk
    obtain ⟨b1, b2, b3, b4⟩ := h2.motion k hk
    exact ⟨b1.trans a1, b2.trans a2, b3.trans a3, b4.trans a4⟩
  · intro k
    exact (h2.radius k).trans (h1.radius k)
  · intro k hk h
    exact h2.inactive k hk (h1.inactive k hk h)
  · intro h
    obtain ⟨a, b⟩ := h1.split h
    obtain ⟨c, d⟩ := h2.split (a.ballTypeAssigned.trans h)
    exact ⟨a.thenSplit c, fun k => (d k).trans (b k)⟩

theorem deactivate_frame (i : Nat) (g : GameState) : PocketFrame g (deactivate i g) := by
  have hs := deactivate_split i g
  have hb := deactivate_board i g
  refine ⟨deactivate_table i g, fun h => hb.gameOver.trans h, fun h => hb.foul.trans h,
    ?_, ?_, ?_, ?_, fun _ => ⟨hs, ?_⟩⟩
  · intro k _
    rw [deactivate_ball]
    split
    · rename_i h
      rw [h.1]
      exact ⟨rfl, rfl, rfl, rfl⟩
    · exact ⟨rfl, rfl, rfl, rfl⟩
  · intro k
    rw [deactivate_ball]
    split
    · rename_i h
      rw [h.1]
    · rfl
  · intro k _ hk
    rw [deactivate_ball]
    split
    · rfl
    · exact hk
  · rw [deactivate_ball]
    split
    · rename_i h
      rw [h.1]
    · rfl
  · intro k
    rw [deactivate_ball]
    split
    · rename_i h
      rw [h.1]
    · rfl

theorem scratchBranch_frame (g : GameState) : PocketFrame g (scratchBranch g) := by
  refine ⟨scratchBranch_table g, fun h => h, fun _ => rfl, ?_, ?_, ?_, ?_,
    fun _ => ⟨scratchBranch_split g, ?_⟩⟩
  · intro k hk
    rw [scratchBranch_ball, if_neg (fun h => hk h.1.symm)]
    exact ⟨rfl, rfl, rfl, rfl⟩
  · intro k
    rw [scratchBranch_ball]
    split
    · rename_i h
      rw [← h.1]
    · rfl
  · intro k hk h
    rw [scratchBranch_ball, if_neg (fun h => hk h.1.symm)]
    exact h
  · rw [scratchBranch_ball, if_neg (fun h => absurd h.1 (by decide))]
  · intro k
    rw [scratchBranch_ball]
    split
    · rename_i h
      rw [← h.1]
    · rfl

theorem eightBallBranch_frame (g : GameState) : PocketFrame g (eightBallBranch g) := by
  have hb : ∀ k, (eightBallBranch g).ball k = g.ball k :=
    fun k => ball_congr (eightBallBranch_balls g) k
  refine ⟨eightBallBranch_table g, fun _ => eightBallBranch_gameOver g,
    fun h => (eightBallBranch_foul g).trans h, ?_, ?_, ?_, ?_,
    fun _ => ⟨eightBallBranch_split g, ?_⟩⟩
  · intro k _
    rw [hb]
    exact ⟨rfl, rfl, rfl, rfl⟩
  · intro k
    rw [hb]
  · intro k _ h
    rw [hb]
    exact h
  · rw [hb]
  · intro k
    rw [hb]

theorem scoreBall_frame (i : Nat) (g : GameState) : PocketFrame g (scoreBall i g) := by
  have hb : ∀ k, (scoreBall i g).ball k = g.ball k :=
    fun k => ball_congr (scoreBall_balls i g) k
  refine ⟨scoreBall_table i g, fun h => (scoreBall_gameOver i g).trans h,
    fun h => (scoreBall_foul i g).trans h, ?_, ?_, ?_, ?_,
    fun _ => ⟨scoreBall_split i g, ?_⟩⟩
  · intro k _
    rw [hb]
    exact ⟨rfl, rfl, rfl, rfl⟩
  · intro k
    rw [hb]
  · intro k _ h
    rw [hb]
    exact h
  · rw [hb]
  · intro k
    rw [hb]

theorem assignBallTypes_frame (i : Nat) (g : GameState) :
    PocketFrame g (assignBallTypes i g) := by
  cases h : g.ballTypeAssigned
  · have he := assignBallTypes_effect i g h
    refine ⟨he.table, fun hg => he.board.gameOver.trans hg, fun hg => he.board.foul.trans hg,
      ?_, ?_, ?_, ?_, fun hh => ?_⟩
    · intro k _
      rw [he.ball]
      split
      · exact ⟨retag_x _ _ _, retag_y _ _ _, retag_vx _ _ _, retag_vy _ _ _⟩
      · exact ⟨rfl, rfl, rfl, rfl⟩
    · intro k
      rw [he.ball]
      split
      · exact retag_radius _ _ _
      · rfl
    · intro k _ hk
      rw [he.ball]
      split
      · rw [retag_active]
        exact hk
      · exact hk
    · rw [he.ball]
      split
      · rw [retag_eight]
      · rfl
    · rw [h] at hh
      exact absurd hh (by decide)
  · rw [assignBallTypes_assigned i g h]
    exact PocketFrame.reflPocket g

theorem regularBranch_frame (i : Nat) (g : GameState) : PocketFrame g (regularBranch i g) := by
  rw [regularBranch_eq]
  exact (assignBallTypes_frame i g).thenPocket (scoreBall_frame i _)

theorem pocketStep_frame (m : Libm) (i j : Nat) (g : GameState) :
    PocketFrame g (pocketStep m i j g) := by
  unfold pocketStep
  split
  · dsimp only
    split
    · exact (deactivate_frame i g).thenPocket (scratchBranch_frame _)
    · split
      · exact (deactivate_frame i g).thenPocket (eightBallBranch_frame _)
      · exact (deactivate_frame i g).thenPocket (regularBranch_frame i _)
  · exact PocketFrame.reflPocket g

theorem forLoop_pocketFrame (idxs : List Nat) (body : Nat → GameState → GameState)
    (hbody : ∀ i s, PocketFrame s (body i s)) (g : GameState) :
    PocketFrame g (forLoop idxs body g) :=
  forLoop_rel PocketFrame PocketFrame.reflPocket (fun _ _ _ => PocketFrame.thenPocket) idxs body
    (fun i _ s => hbody i s) g

theorem pocketBall_frame (m : Libm) (i : Nat) (g : GameState) :
    PocketFrame g (pocketBall m i g) := by
  unfold pocketBall
  split
  · exact PocketFrame.reflPocket g
  · exact forLoop_pocketFrame _ _ (pocketStep_frame m i) g

theorem checkPockets_frame (m : Libm) (g : GameState) : PocketFrame g (checkPockets m g) :=
  forLoop_pocketFrame _ _ (pocketBall_frame m) g

/-! ### The physics passes -/

theorem PhysFrame.reflPhys (s : GameState) : PhysFrame s s :=
  ⟨SameRules.reflRules s, rfl, fun _ => rfl, fun _ => rfl, fun _ => rfl⟩

theorem PhysFrame.thenPhys {s t u : GameState} (h1 : PhysFrame s t) (h2 : PhysFrame t u) :
    PhysFrame s u :=
  ⟨h1.rules.thenRules h2.rules, h2.length.trans h1.length,
    fun k => (h2.active k).trans (h1.active k), fun k => (h2.player k).trans (h1.player k),
    fun k => (h2.radius k).trans (h1.radius k)⟩

theorem ball_modBall (g : GameState) (i k : Nat) (f : Ball → Ball) :
    (g.modBall i f).ball k = if i = k ∧ i < g.balls.length then f (g.ball i) else g.ball k :=
  ball_setBall g i k _

theorem physFrame_modBall (g : GameState) (i : Nat) (f : Ball → Ball) (hf : KeepsIdentity f) :
    PhysFrame g (g.modBall i f) := by
  refine ⟨sameRules_setBall _ _ _, length_setBall _ _ _, ?_, ?_, ?_⟩ <;>
  · intro k
    rw [ball_modBall]
    split
    · rename_i h
      rw [← h.1]
      first | exact (hf _).1 | exact (hf _).2.1 | exact (hf _).2.2
    · rfl

theorem forLoop_physFrame (idxs : List Nat) (body : Nat → GameState → GameState)
    (hbody : ∀ i s, PhysFrame s (body i s)) (g : GameState) :
    PhysFrame g (forLoop idxs body g) :=
  forLoop_rel PhysFrame PhysFrame.reflPhys (fun _ _ _ => PhysFrame.thenPhys) idxs body
    (fun i _ s => hbody i s) g

theorem integrateBall_keeps (friction minVelocity : ℚ) :
    KeepsIdentity (integrateBall friction minVelocity) := by
  intro b
  unfold integrateBall
  dsimp only
  split
  · exact ⟨rfl, rfl, rfl⟩
  · split <;> split <;> exact ⟨rfl, rfl, rfl⟩

theorem integrate_frame (g : GameState) : PhysFrame g (integrate g) :=
  forLoop_physFrame _ _ (fun _ _ => physFrame_modBall _ _ _ (integrateBall_keeps _ _)) g

theorem cushionBall_keeps (l r t b : ℚ) : KeepsIdentity (cushionBall l r t b) := by
  intro c
  unfold cushionBall
  dsimp only
  split
  · exact ⟨rfl, rfl, rfl⟩
  · split <;> split <;> split <;> split <;> exact ⟨rfl, rfl, rfl⟩

theorem handleCushionCollisions_frame (g : GameState) :
    PhysFrame g (handleCushionCollisions g) :=
  forLoop_physFrame _ _ (fun _ _ => physFrame_modBall _ _ _ (cushionBall_keeps _ _ _ _)) g

theorem applyImpulse_frame (i j : Nat) (nx ny impulse : ℚ) (g : GameState) :
    PhysFrame g (applyImpulse i j nx ny impulse g) := by
  unfold applyImpulse
  dsimp only
  have h1 := fun s => physFrame_modBall s i (fun b => { b with vx := b.vx - nx * impulse })
    (fun _ => ⟨rfl, rfl, rfl⟩)
  have h2 := fun s => physFrame_modBall s i (fun b => { b with vy := b.vy - ny * impulse })
    (fun _ => ⟨rfl, rfl, rfl⟩)
  have h3 := fun s => physFrame_modBall s j (fun b => { b with vx := b.vx + nx * impulse })
    (fun _ => ⟨rfl, rfl, rfl⟩)
  have h4 := fun s => physFrame_modBall s j (fun b => { b with vy := b.vy + ny * impulse })
    (fun _ => ⟨rfl, rfl, rfl⟩)
  exact (((h1 g).thenPhys (h2 _)).thenPhys (h3 _)).thenPhys (h4 _)

theorem separate_frame (i j : Nat) (nx ny distance : ℚ) (g : GameState) :
    PhysFrame g (separate i j nx ny distance g) := by
  unfold separate
  dsimp only
  generalize ((g.ball i).radius + (g.ball j).radius - distance) / 2 = overlap
  have h1 := fun s => physFrame_modBall s i (fun b => { b with x := b.x - nx * overlap })
    (fun _ => ⟨rfl, rfl, rfl⟩)
  have h2 := fun s => physFrame_modBall s i (fun b => { b with y := b.y - ny * overlap })
    (fun _ => ⟨rfl, rfl, rfl⟩)
  have h3 := fun s => physFrame_modBall s j (fun b => { b with x := b.x + nx * overlap })
    (fun _ => ⟨rfl, rfl, rfl⟩)
  have h4 := fun s => physFrame_modBall s j (fun b => { b with y := b.y + ny * overlap })
    (fun _ => ⟨rfl, rfl, rfl⟩)
  exact (((h1 g).thenPhys (h2 _)).thenPhys (h3 _)).thenPhys (h4 _)

theorem collidePair_frame (m : Libm) (i j : Nat) (g : GameState) :
    PhysFrame g (collidePair m i j g) := by
  unfold collidePair
  dsimp only
  split
  · exact PhysFrame.reflPhys g
  · split
    · split
      · exact PhysFrame.reflPhys g
      · exact (applyImpulse_frame _ _ _ _ _ g).thenPhys (separate_frame _ _ _ _ _ _)
    · exact PhysFrame.reflPhys g

theorem collideBall_frame (m : Libm) (i : Nat) (g : GameState) :
    PhysFrame g (collideBall m i g) := by
  unfold collideBall
  split
  · exact PhysFrame.reflPhys g
  · exact forLoop_physFrame _ _ (collidePair_frame m i) g

theorem handleBallCollisions_frame (m : Libm) (g : GameState) :
    PhysFrame g (handleBallCollisions m g) :=
  forLoop_physFrame _ _ (collideBall_frame m) g

/-- What a tick keeps up to the end of its pocket pass. -/
theorem tickPasses_table (m : Libm) (g : GameState) : SameTable g (tickPasses m g) := by
  unfold tickPasses
  have h1 := integrate_frame g
  have h2 := handleBallCollisions_frame m (integrate g)
  have h3 := handleCushionCollisions_frame (handleBallCollisions m (integrate g))
  have h := (h1.thenPhys h2).thenPhys h3
  exact (h.rules.sameTable h.length).thenTable (checkPockets_frame m _).table

/-! ### The cue ball in the pocket pass -/

theorem assignBallTypes_ball_zero (i : Nat) (g : GameState) :
    (assignBallTypes i g).ball 0 = g.ball 0 := by
  cases h : g.ballTypeAssigned
  · rw [(assignBallTypes_effect i g h).ball, if_neg (by omega)]
  · rw [assignBallTypes_assigned i g h]

/-- A step of the pocket pass for a ball other than the cue ball leaves the cue ball
alone. -/
theorem pocketStep_cue (m : Libm) (i j : Nat) (g : GameState) (hi : i ≠ 0) :
    (pocketStep m i j g).ball 0 = g.ball 0 := by
  have hd : (deactivate i g).ball 0 = g.ball 0 := by
    rw [deactivate_ball, if_neg (fun h => hi h.1)]
  unfold pocketStep
  split
  · simp only [if_neg hi]
    split
    · rw [ball_congr (eightBallBranch_balls _), hd]
    · rw [regularBranch_eq, ball_congr (scoreBall_balls _ _), assignBallTypes_ball_zero, hd]
  · rfl

/-- A step of the pocket pass for the cue ball either leaves it alone or respawns
it. -/
theorem pocketStep_zero_ball (m : Libm) (j : Nat) (g : GameState) :
    (pocketStep m 0 j g).ball 0 =
      if inPocket m 0 j g = true ∧ 0 < g.balls.length then respawned (g.ball 0) else g.ball 0 := by
  unfold pocketStep
  by_cases hin : inPocket m 0 j g = true
  · rw [if_pos hin]
    dsimp only
    rw [if_pos rfl, scratchBranch_ball, (deactivate_table 0 g).length, deactivate_ball]
    by_cases hl : 0 < g.balls.length
    · simp [hl, hin, respawned]
    · simp [hl]
  · rw [if_neg hin, if_neg (fun h => hin h.1)]

theorem pocketStep_atRest (m : Libm) (i j : Nat) (g : GameState) (h : AtRest g) :
    AtRest (pocketStep m i j g) := by
  intro k
  by_cases hk : k = 0
  · subst hk
    by_cases hi : i = 0
    · subst hi
      rw [pocketStep_zero_ball]
      split
      · exact ⟨rfl, rfl⟩
      · exact h 0
    · rw [pocketStep_cue m i j g hi]
      exact h 0
  · obtain ⟨_, _, h3, h4⟩ := (pocketStep_frame m i j g).motion k hk
    rw [h3, h4]
    exact h k

theorem checkPockets_atRest (m : Libm) (g : GameState) (h : AtRest g) :
    AtRest (checkPockets m g) := by
  unfold checkPockets
  refine forLoop_invariant AtRest _ _ ?_ g h
  intro i s hs
  unfold pocketBall
  split
  · exact hs
  · exact forLoop_invariant AtRest _ _ (fun j t ht => pocketStep_atRest m i j t ht) s hs

theorem modBall_atRest (g : GameState) (i : Nat) (f : Ball → Ball) (h : AtRest g)
    (hf : ∀ b, b.vx = 0 → b.vy = 0 → (f b).vx = 0 ∧ (f b).vy = 0) : AtRest (g.modBall i f) := by
  intro k
  rw [ball_modBall]
  split
  · exact hf _ (h i).1 (h i).2
  · exact h k

theorem integrate_atRest (g : GameState) (h : AtRest g) : AtRest (integrate g) := by
  unfold integrate
  refine forLoop_invariant AtRest _ _ ?_ g h
  intro i s hs
  refine modBall_atRest s i _ hs ?_
  intro b h1 h2
  unfold integrateBall
  dsimp only
  split
  · exact ⟨h1, h2⟩
  · split <;> split <;> simp [h1, h2]

theorem handleCushionCollisions_atRest (g : GameState) (h : AtRest g) :
    AtRest (handleCushionCollisions g) := by
  unfold handleCushionCollisions
  dsimp only
  refine forLoop_invariant AtRest _ _ ?_ g h
  intro i s hs
  refine modBall_atRest s i _ hs ?_
  intro b h1 h2
  unfold cushionBall
  dsimp only
  split
  · exact ⟨h1, h2⟩
  · split <;> split <;> split <;> split <;> simp [h1, h2]

theorem collidePair_atRest (m : Libm) (i j : Nat) (g : GameState) (h : AtRest g) :
    AtRest (collidePair m i j g) := by
  unfold collidePair
  dsimp only
  split
  · exact h
  · split
    · split
      · exact h
      · have hz : ((g.ball j).vx - (g.ball i).vx) *
            (((g.ball j).x - (g.ball i).x) / m.sqrt
              (((g.ball j).x - (g.ball i).x) * ((g.ball j).x - (g.ball i).x) +
                ((g.ball j).y - (g.ball i).y) * ((g.ball j).y - (g.ball i).y))) +
            ((g.ball j).vy - (g.ball i).vy) *
            (((g.ball j).y - (g.ball i).y) / m.sqrt
              (((g.ball j).x - (g.ball i).x) * ((g.ball j).x - (g.ball i).x) +
                ((g.ball j).y - (g.ball i).y) * ((g.ball j).y - (g.ball i).y))) = 0 := by
          rw [(h j).1, (h i).1, (h j).2, (h i).2]
          ring
        rw [hz]
        unfold separate applyImpulse
        dsimp only
        refine modBall_atRest _ _ _ (modBall_atRest _ _ _ (modBall_atRest _ _ _
          (modBall_atRest _ _ _ (modBall_atRest _ _ _ (modBall_atRest _ _ _
          (modBall_atRest _ _ _ (modBall_atRest _ _ _ h ?_) ?_) ?_) ?_) ?_) ?_) ?_) ?_ <;>
        · intro b h1 h2
          simp [h1, h2]
    · exact h

theorem handleBallCollisions_atRest (m : Libm) (g : GameState) (h : AtRest g) :
    AtRest (handleBallCollisions m g) := by
  unfold handleBallCollisions
  refine forLoop_invariant AtRest _ _ ?_ g h
  intro i s hs
  unfold collideBall
  split
  · exact hs
  · exact forLoop_invariant AtRest _ _ (fun j t ht => collidePair_atRest m i j t ht) s hs

theorem tickPasses_atRest (m : Libm) (g : GameState) (h : AtRest g) :
    AtRest (tickPasses m g) :=
  checkPockets_atRest m _ (handleCushionCollisions_atRest _
    (handleBallCollisions_atRest m _ (integrate_atRest g h)))

theorem allBallsStopped_of_atRest (g : GameState) (h : AtRest g) (hmin : 0 ≤ g.minVelocity) :
    allBallsStopped g = true := by
  unfold allBallsStopped
  rw [List.all_eq_true]
  intro i _
  have hx : ¬ (|(g.ball i).vx| > g.minVelocity) := by
    rw [(h i).1, abs_zero]
    exact not_lt.mpr hmin
  have hy : ¬ (|(g.ball i).vy| > g.minVelocity) := by
    rw [(h i).2, abs_zero]
    exact not_lt.mpr hmin
  simp [hx, hy]

/-- A tick that starts with every ball at rest finds every ball at rest. -/
theorem rest_stays (m : Libm) (g : GameState) (h : AtRest g) (hmin : 0 ≤ g.minVelocity) :
    allBallsStopped (tickPasses m g) = true := by
  apply allBallsStopped_of_atRest _ (tickPasses_atRest m g h)
  rw [(tickPasses_table m g).minVelocity]
  exact hmin

/-! ### The start of a match -/

theorem initializeBalls_balls (c : Int) (g : GameState) :
    (initializeBalls c g).balls =
      [cueBall c, rackBall 0 0 1, rackBall 1 0 2, rackBall 1 1 3, rackBall 2 0 4,
       rackBall 2 1 5, rackBall 2 2 6, rackBall 3 0 7, rackBall 3 1 8, rackBall 3 2 9,
       rackBall 3 3 10, rackBall 4 0 11, rackBall 4 1 12, rackBall 4 2 13, rackBall 4 3 14,
       rackBall 4 4 15] := by
  have h : rackSlots = [(0, 0), (1, 0), (1, 1), (2, 0), (2, 1), (2, 2), (3, 0), (3, 1),
      (3, 2), (3, 3), (4, 0), (4, 1), (4, 2), (4, 3), (4, 4)] := by decide
  unfold initializeBalls
  rw [h]
  simp [rackStep, NUM_BALLS]

theorem initializeGame_balls (c : Int) (g : GameState) :
    (initializeGame c g).balls = (initializeBalls c g).balls := by
  simp only [initializeGame, initializePockets]

theorem atRest_of_forall_mem (s : GameState)
    (h : ∀ b ∈ s.balls, b.vx = 0 ∧ b.vy = 0) : AtRest s := by
  intro k
  unfold GameState.ball
  by_cases hk : k < s.balls.length
  · rw [List.getD_eq_getElem _ _ hk]
    exact h _ (List.getElem_mem hk)
  · rw [List.getD_eq_default _ _ (Nat.le_of_not_lt hk)]
    exact ⟨rfl, rfl⟩

theorem initializeGame_atRest (c : Int) (g : GameState) : AtRest (initializeGame c g) := by
  apply atRest_of_forall_mem
  rw [initializeGame_balls, initializeBalls_balls]
  intro b hb
  simp only [List.mem_cons, List.mem_singleton, List.not_mem_nil, or_false] at hb
  rcases hb with h | h | h | h | h | h | h | h | h | h | h | h | h | h | h | h <;>
  · rw [h]
    exact ⟨rfl, rfl⟩

theorem restShot_atRest : AtRest restShot := initializeGame_atRest 0 {}

/-! ## C1: turn resolution -/

theorem update_resolves (m : Libm) (g : GameState) (hmoving : g.ballsMoving = true)
    (hover : g.gameOver = false) (hrest : allBallsStopped (tickPasses m g) = true) :
    update m g = resolveTurn (tickPasses m g) := by
  unfold update
  simp [hmoving, hover, hrest]

theorem resolveTurn_aiming (g : GameState) :
    (resolveTurn g).potted = false ∧ (resolveTurn g).ballsMoving = false ∧
    (resolveTurn g).cueAiming = true ∧ (resolveTurn g).cuePower = 0 := by
  unfold resolveTurn switchPlayer
  dsimp only
  split
  · split
    · exact ⟨rfl, rfl, rfl, rfl⟩
    · exact ⟨rfl, rfl, rfl, rfl⟩
  · exact ⟨rfl, rfl, rfl, rfl⟩

theorem resolveTurn_foul (g : GameState) : (resolveTurn g).foul = false := by
  unfold resolveTurn switchPlayer
  dsimp only
  cases hp : g.potted <;> cases hf : g.foul <;> simp

theorem resolveTurn_currentPlayer (g : GameState) :
    (resolveTurn g).currentPlayer =
      if g.potted = false ∨ g.foul = true then (if g.currentPlayer = 1 then 2 else 1)
      else g.currentPlayer := by
  unfold resolveTurn switchPlayer
  dsimp only
  cases hp : g.potted <;> cases hf : g.foul <;> simp <;> split <;> rfl

/-- C1. On the tick of a match in motion in which all active balls are found at rest,
the current player is switched exactly when the potted flag is false or the foul
flag is true after the pocket pass, and kept when potted is true and foul is false;
either way the potted and foul flags are cleared and the match is back in aiming. -/
theorem turn_resolution (m : Libm) (g : GameState)
    (hmoving : g.ballsMoving = true) (hover : g.gameOver = false)
    (hplayer : g.currentPlayer = 1 ∨ g.currentPlayer = 2)
    (hrest : allBallsStopped (tickPasses m g) = true) :
    ((tickPasses m g).potted = false ∨ (tickPasses m g).foul = true →
        (g.currentPlayer = 1 ∧ (update m g).currentPlayer = 2) ∨
        (g.currentPlayer = 2 ∧ (update m g).currentPlayer = 1)) ∧
    ((tickPasses m g).potted = true ∧ (tickPasses m g).foul = false →
        (update m g).currentPlayer = g.currentPlayer) ∧
    (update m g).potted = false ∧ (update m g).foul = false ∧
    (update m g).ballsMoving = false ∧ (update m g).cueAiming = true ∧
    (update m g).cuePower = 0 := by
  rw [update_resolves m g hmoving hover hrest]
  have hcp : (tickPasses m g).currentPlayer = g.currentPlayer :=
    (tickPasses_table m g).currentPlayer
  obtain ⟨a1, a2, a3, a4⟩ := resolveTurn_aiming (tickPasses m g)
  refine ⟨?_, ?_, a1, resolveTurn_foul _, a2, a3, a4⟩
  · intro h
    rw [resolveTurn_currentPlayer, if_pos h, hcp]
    rcases hplayer with hp | hp
    · exact Or.inl ⟨hp, by rw [if_pos hp]⟩
    · exact Or.inr ⟨hp, by rw [if_neg (by rw [hp]; decide)]⟩
  · intro h
    rw [resolveTurn_currentPlayer, if_neg (by simp [h.1, h.2]), hcp]

theorem turn_resolution_witness :
    restShot.ballsMoving = true ∧ restShot.gameOver = false ∧
    (restShot.currentPlayer = 1 ∨ restShot.currentPlayer = 2) ∧
    allBallsStopped (tickPasses evalLibm restShot) = true ∧
    (update evalLibm restShot).ballsMoving = false ∧
    (update evalLibm restShot).cueAiming = true :=
  have hrest : allBallsStopped (tickPasses evalLibm restShot) = true :=
    rest_stays evalLibm restShot restShot_atRest
      (show (0 : ℚ) ≤ 1 / 125 by norm_num)
  have h := turn_resolution evalLibm restShot rfl rfl (Or.inl rfl) hrest
  ⟨rfl, rfl, Or.inl rfl, hrest, h.2.2.2.2.1, h.2.2.2.2.2.1⟩

/-! ### The 8-ball in the pocket pass -/

theorem KeepsEight.reflEight (s : GameState) : KeepsEight s s := ⟨rfl, rfl, rfl⟩

theorem KeepsEight.thenEight {s t u : GameState} (h1 : KeepsEight s t) (h2 : KeepsEight t u) :
    KeepsEight s u :=
  ⟨h2.ball.trans h1.ball, h2.gameOver.trans h1.gameOver, h2.winner.trans h1.winner⟩

theorem assignBallTypes_keepsEight (i : Nat) (g : GameState) :
    KeepsEight g (assignBallTypes i g) := by
  cases h : g.ballTypeAssigned
  · have he := assignBallTypes_effect i g h
    refine ⟨?_, he.board.gameOver, he.board.winner⟩
    rw [he.ball]
    split
    · exact retag_eight _ _
    · rfl
  · rw [assignBallTypes_assigned i g h]
    exact KeepsEight.reflEight g

theorem pocketStep_keepsEight (m : Libm) (i j : Nat) (g : GameState) (hi : i ≠ 8) :
    KeepsEight g (pocketStep m i j g) := by
  have hd : KeepsEight g (deactivate i g) := by
    refine ⟨?_, (deactivate_board i g).gameOver, (deactivate_board i g).winner⟩
    rw [deactivate_ball, if_neg (fun h => hi h.1)]
  unfold pocketStep
  split
  · dsimp only
    split
    · refine hd.thenEight ⟨?_, rfl, rfl⟩
      rw [scratchBranch_ball, if_neg (fun h => absurd h.1 (by decide))]
    · rw [regularBranch_eq]
      exact hd.thenEight ((assignBallTypes_keepsEight i _).thenEight
        ⟨ball_congr (scoreBall_balls _ _) 8, scoreBall_gameOver _ _, scoreBall_winner _ _⟩)
  · exact KeepsEight.reflEight g

theorem pocketBall_keepsEight (m : Libm) (i : Nat) (g : GameState) (hi : i ≠ 8) :
    KeepsEight g (pocketBall m i g) := by
  unfold pocketBall
  split
  · exact KeepsEight.reflEight g
  · exact forLoop_rel KeepsEight KeepsEight.reflEight (fun _ _ _ => KeepsEight.thenEight) _ _
      (fun j _ s => pocketStep_keepsEight m i j s hi) g

theorem pocketBalls_keepsEight (m : Libm) (idxs : List Nat) (g : GameState)
    (h : ∀ i ∈ idxs, i ≠ 8) : KeepsEight g (forLoop idxs (pocketBall m) g) :=
  forLoop_rel KeepsEight KeepsEight.reflEight (fun _ _ _ => KeepsEight.thenEight) _ _
    (fun i hi s => pocketBall_keepsEight m i s (h i hi)) g

theorem inPocket_congr (m : Libm) (i j : Nat) {s t : GameState}
    (hx : (t.ball i).x = (s.ball i).x) (hy : (t.ball i).y = (s.ball i).y)
    (hp : t.pockets = s.pockets) : inPocket m i j t = inPocket m i j s := by
  unfold inPocket GameState.pocket
  rw [hx, hy, hp]

theorem any_congr_mem (l : List Nat) (p q : Nat → Bool) (h : ∀ k ∈ l, p k = q k) :
    l.any p = l.any q := by
  induction l with
  | nil => rfl
  | cons a l ih =>
    rw [List.any_cons, List.any_cons, h a (List.mem_cons_self a l),
      ih (fun k hk => h k (List.mem_cons_of_mem a hk))]

theorem ownBallActive_congr {s t : GameState} (hl : t.balls.length = s.balls.length)
    (hb : ∀ k, 1 ≤ k → (t.ball k).player = (s.ball k).player ∧
      (t.ball k).active = (s.ball k).active)
    (hc : t.currentPlayer = s.currentPlayer) : ownBallActive t = ownBallActive s := by
  unfold ownBallActive
  rw [hl, hc]
  apply any_congr_mem
  intro k hk
  have h1 : 1 ≤ k := ((mem_range'_one k _).1 hk).1
  rw [(hb k h1).1, (hb k h1).2]

theorem pocketStep_eight (m : Libm) (j : Nat) (g : GameState) :
    pocketStep m 8 j g = if inPocket m 8 j g then eightBallBranch (deactivate 8 g) else g := by
  unfold pocketStep
  split
  · dsimp only
    rw [if_neg (by decide), if_pos rfl]
  · rfl

theorem deactivate_again (i : Nat) {s t : GameState}
    (hl : t.balls.length = s.balls.length)
    (hb : ∀ k, t.ball k = (deactivate i s).ball k) (k : Nat) :
    (deactivate i t).ball k = (deactivate i s).ball k := by
  rw [deactivate_ball, hl]
  split
  · rename_i h
    rw [hb i, deactivate_ball, if_pos ⟨rfl, h.2⟩, deactivate_ball, if_pos h]
  · exact hb k

theorem eightDone_first (s : GameState) : EightDone s (eightBallBranch (deactivate 8 s)) := by
  refine ⟨eightBallBranch_gameOver _, ?_, fun k => ball_congr (eightBallBranch_balls _) k, ?_, ?_⟩
  · rw [eightBallBranch_winner, (deactivate_table 8 s).currentPlayer]
    rfl
  · rw [eightBallBranch_balls]
    exact (deactivate_table 8 s).length
  · exact (eightBallBranch_table _).currentPlayer.trans (deactivate_table 8 s).currentPlayer

theorem eightDone_step (m : Libm) (j : Nat) {s t : GameState} (h : EightDone s t) :
    EightDone s (pocketStep m 8 j t) := by
  rw [pocketStep_eight]
  split
  · have hb := deactivate_again 8 h.length h.ball
    have hcp : (deactivate 8 t).currentPlayer = (deactivate 8 s).currentPlayer :=
      ((deactivate_table 8 t).currentPlayer.trans h.currentPlayer).trans
        (deactivate_table 8 s).currentPlayer.symm
    have hlen : (deactivate 8 t).balls.length = (deactivate 8 s).balls.length :=
      ((deactivate_table 8 t).length.trans h.length).trans (deactivate_table 8 s).length.symm
    refine ⟨eightBallBranch_gameOver _, ?_, ?_, ?_, ?_⟩
    · rw [eightBallBranch_winner, ownBallActive_congr hlen (fun k _ => by rw [hb k]; exact ⟨rfl, rfl⟩) hcp,
        (deactivate_table 8 t).currentPlayer, h.currentPlayer]
      rfl
    · intro k
      rw [ball_congr (eightBallBranch_balls _) k]
      exact hb k
    · rw [eightBallBranch_balls]
      exact (deactivate_table 8 t).length.trans h.length
    · exact (eightBallBranch_table _).currentPlayer.trans
        ((deactivate_table 8 t).currentPlayer.trans h.currentPlayer)
  · exact h

theorem eightDone_loop (m : Libm) (js : List Nat) (s : GameState)
    (h : ∃ j ∈ js, inPocket m 8 j s = true) :
    EightDone s (forLoop js (pocketStep m 8) s) := by
  induction js with
  | nil =>
    obtain ⟨j, hj, _⟩ := h
    exact absurd hj (List.not_mem_nil j)
  | cons j js ih =>
    rw [forLoop_cons, pocketStep_eight]
    by_cases hin : inPocket m 8 j s = true
    · rw [if_pos hin]
      exact forLoop_invariant (EightDone s) js _ (fun j t ht => eightDone_step m j ht) _
        (eightDone_first s)
    · rw [if_neg hin]
      apply ih
      obtain ⟨j', hj', hin'⟩ := h
      rcases List.mem_cons.1 hj' with e | e
      · rw [e] at hin'
        exact absurd hin' hin
      · exact ⟨j', e, hin'⟩

/-- The pocket pass on sixteen balls, when the active 8-ball lies in the capture
radius of pocket `j`: the game is over, the winner is the verdict computed when the
outer loop reaches ball 8, and ball 8 is inactive. -/
theorem checkPockets_eight (m : Libm) (g : GameState) (j : Nat)
    (hlen : g.balls.length = 16) (hact : (g.ball 8).active = true)
    (hj : j < g.pockets.length) (hin : inPocket m 8 j g = true) :
    (checkPockets m g).gameOver = true ∧
    (checkPockets m g).winner = verdict (passBefore m 8 g) ∧
    ((checkPockets m g).ball 8).active = false := by
  have hsplit : checkPockets m g =
      forLoop (List.range' 9 7) (pocketBall m)
        (pocketBall m 8 (passBefore m 8 g)) := by
    have hr : List.range 16 = List.range 8 ++ 8 :: List.range' 9 7 := by decide
    unfold checkPockets passBefore
    rw [hlen, hr, forLoop_append, forLoop_cons]
  have hk := pocketBalls_keepsEight m (List.range 8) g (by decide)
  have hf : PocketFrame g (passBefore m 8 g) :=
    forLoop_pocketFrame _ _ (pocketBall_frame m) g
  have hin8 : inPocket m 8 j (passBefore m 8 g) = true := by
    have hb : (passBefore m 8 g).ball 8 = g.ball 8 := hk.ball
    rw [inPocket_congr m 8 j (by rw [hb]) (by rw [hb]) hf.table.pockets]
    exact hin
  have hact8 : ((passBefore m 8 g).ball 8).active = true := by
    have hb : (passBefore m 8 g).ball 8 = g.ball 8 := hk.ball
    rw [hb]
    exact hact
  have hdone : EightDone (passBefore m 8 g) (pocketBall m 8 (passBefore m 8 g)) := by
    unfold pocketBall
    rw [if_neg (by simp [hact8])]
    apply eightDone_loop
    refine ⟨j, List.mem_range.2 ?_, hin8⟩
    rw [hf.table.pockets]
    exact hj
  have hrest := pocketBalls_keepsEight m (List.range' 9 7)
    (pocketBall m 8 (passBefore m 8 g)) (by decide)
  rw [hsplit]
  refine ⟨hrest.gameOver.trans hdone.gameOver, hrest.winner.trans hdone.winner, ?_⟩
  have h8 : 8 < (passBefore m 8 g).balls.length := by
    rw [hf.table.length, hlen]
    decide
  rw [hrest.ball, hdone.ball, deactivate_ball, if_pos ⟨rfl, h8⟩]

theorem ownBallActive_iff (s : GameState) :
    ownBallActive s = true ↔
      ∃ k, 1 ≤ k ∧ k < s.balls.length ∧ (s.ball k).player = s.currentPlayer ∧
        (s.ball k).active = true := by
  unfold ownBallActive
  rw [List.any_eq_true]
  constructor
  · rintro ⟨k, hk, h⟩
    obtain ⟨h1, h2⟩ := (mem_range'_one k _).1 hk
    simp only [Bool.and_eq_true, decide_eq_true_eq] at h
    exact ⟨k, h1, h2, h.1, h.2⟩
  · rintro ⟨k, h1, h2, h3, h4⟩
    refine ⟨k, (mem_range'_one k _).2 ⟨h1, h2⟩, ?_⟩
    simp only [Bool.and_eq_true, decide_eq_true_eq]
    exact ⟨h3, h4⟩

/-- On sixteen balls, the loop of the 8-ball branch finds an active ball of the
current player exactly when some suit ball carries the tag and is active. -/
theorem ownBallActive_deactivate (s : GameState) (hlen : s.balls.length = 16) :
    ownBallActive (deactivate 8 s) = true ↔
      ∃ k, IsSuitBall k ∧ (s.ball k).player = s.currentPlayer ∧ (s.ball k).active = true := by
  rw [ownBallActive_iff, (deactivate_table 8 s).length, (deactivate_table 8 s).currentPlayer,
    hlen]
  constructor
  · rintro ⟨k, h1, h2, h3, h4⟩
    rw [deactivate_ball, hlen] at h3 h4
    by_cases h8 : 8 = k
    · rw [if_pos ⟨h8, by decide⟩] at h4
      exact absurd h4 (by simp)
    · rw [if_neg (fun h => h8 h.1)] at h3 h4
      refine ⟨k, ?_, h3, h4⟩
      unfold IsSuitBall
      omega
  · rintro ⟨k, hk, h3, h4⟩
    unfold IsSuitBall at hk
    have h8 : ¬ (8 = k) := by omega
    refine ⟨k, by omega, by omega, ?_, ?_⟩
    · rw [deactivate_ball, if_neg (fun h => h8 h.1)]
      exact h3
    · rw [deactivate_ball, if_neg (fun h => h8 h.1)]
      exact h4

/-- A step of the pocket pass for ball `i` keeps the active flag of every other ball
but the cue ball. -/
theorem pocketStep_active_other (m : Libm) (i j k : Nat) (g : GameState) (hki : k ≠ i)
    (hk0 : k ≠ 0) : ((pocketStep m i j g).ball k).active = (g.ball k).active := by
  have hd : (deactivate i g).ball k = g.ball k := by
    rw [deactivate_ball, if_neg (fun h => hki h.1.symm)]
  have ha : ∀ s : GameState, ((assignBallTypes i s).ball k).active = (s.ball k).active := by
    intro s
    cases h : s.ballTypeAssigned
    · rw [(assignBallTypes_effect i s h).ball]
      split
      · exact retag_active _ _ _
      · rfl
    · rw [assignBallTypes_assigned i s h]
  unfold pocketStep
  split
  · dsimp only
    split
    · rw [scratchBranch_ball, if_neg (fun h => hk0 h.1.symm), hd]
    · split
      · rw [ball_congr (eightBallBranch_balls _), hd]
      · rw [regularBranch_eq, ball_congr (scoreBall_balls _ _), ha, hd]
  · rfl

theorem pocketBalls_active_other (m : Libm) (idxs : List Nat) (k : Nat) (g : GameState)
    (hk : ∀ i ∈ idxs, k ≠ i) (hk0 : k ≠ 0) :
    ((forLoop idxs (pocketBall m) g).ball k).active = (g.ball k).active := by
  refine forLoop_rel (fun s t => (t.ball k).active = (s.ball k).active) (fun _ => rfl)
    (fun _ _ _ h1 h2 => h2.trans h1) idxs _ ?_ g
  intro i hi s
  unfold pocketBall
  split
  · rfl
  · exact forLoop_rel (fun s t => (t.ball k).active = (s.ball k).active) (fun _ => rfl)
      (fun _ _ _ h1 h2 => h2.trans h1) _ _
      (fun j _ t => pocketStep_active_other m i j k t (hk i hi) hk0) s

theorem passBefore_frame (m : Libm) (i : Nat) (g : GameState) :
    PocketFrame g (passBefore m i g) :=
  forLoop_pocketFrame _ _ (pocketBall_frame m) g

/-! ## C2, C3: the outcome of potting the 8-ball -/

/-- The 8-ball branch reads the state of the pass at the moment its outer loop reaches
ball 8.  With suits assigned, when the active 8-ball lies in the capture radius of a
pocket during the pocket pass with acting player `p`, the pass sets game-over; the
winner is `p` if no suit ball tagged `p` is active at that moment, and the other
player otherwise.  The tags at that moment are those before the pass, the stripes are
as active as before the pass, and a solid that is active at that moment was active
before the pass. -/
theorem eight_ball_mid_pass (m : Libm) (g : GameState) (j : Nat)
    (hlen : g.balls.length = 16) (hassigned : g.ballTypeAssigned = true)
    (hact : (g.ball 8).active = true) (hj : j < g.pockets.length)
    (hin : inPocket m 8 j g = true)
    (hplayer : g.currentPlayer = 1 ∨ g.currentPlayer = 2) :
    (checkPockets m g).gameOver = true ∧
    ((∀ k, IsSuitBall k → ((passBefore m 8 g).ball k).player = g.currentPlayer →
        ((passBefore m 8 g).ball k).active = false) →
      (checkPockets m g).winner = g.currentPlayer) ∧
    ((∃ k, IsSuitBall k ∧ ((passBefore m 8 g).ball k).player = g.currentPlayer ∧
        ((passBefore m 8 g).ball k).active = true) →
      (g.currentPlayer = 1 ∧ (checkPockets m g).winner = 2) ∨
      (g.currentPlayer = 2 ∧ (checkPockets m g).winner = 1)) ∧
    (∀ k, ((passBefore m 8 g).ball k).player = (g.ball k).player) ∧
    (∀ k, 9 ≤ k → ((passBefore m 8 g).ball k).active = (g.ball k).active) ∧
    (∀ k, 1 ≤ k → ((passBefore m 8 g).ball k).active = true → (g.ball k).active = true) := by
  obtain ⟨h1, h2, _⟩ := checkPockets_eight m g j hlen hact hj hin
  have hf := passBefore_frame m 8 g
  have hl : (passBefore m 8 g).balls.length = 16 := hf.table.length.trans hlen
  have hcp : (passBefore m 8 g).currentPlayer = g.currentPlayer := hf.table.currentPlayer
  have hown := ownBallActive_deactivate (passBefore m 8 g) hl
  rw [hcp] at hown
  refine ⟨h1, ?_, ?_, (hf.split hassigned).2, ?_, ?_⟩
  · intro hnone
    have hno : ¬ (ownBallActive (deactivate 8 (passBefore m 8 g)) = true) := by
      rw [hown]
      rintro ⟨k, hk, ht, ha⟩
      rw [hnone k hk ht] at ha
      exact absurd ha (by decide)
    rw [h2]
    unfold verdict
    rw [if_neg hno, hcp]
  · intro hsome
    rw [h2]
    unfold verdict
    rw [if_pos (hown.2 hsome), hcp]
    rcases hplayer with hp | hp
    · exact Or.inl ⟨hp, by rw [if_pos hp]⟩
    · exact Or.inr ⟨hp, by rw [if_neg (by rw [hp]; decide)]⟩
  · intro k hk
    apply pocketBalls_active_other m (List.range 8) k g
    · intro i hi
      have := List.mem_range.1 hi
      omega
    · omega
  · intro k hk ha
    by_contra hn
    have hfalse : (g.ball k).active = false := by
      cases h : (g.ball k).active
      · rfl
      · exact absurd h hn
    rw [hf.inactive k (by omega) hfalse] at ha
    exact absurd ha (by decide)

/-- C3. Whenever the active 8-ball lies in the capture radius of some pocket when the
pocket pass runs, after the pass the 8-ball is inactive, the game-over flag is set
and the winner is player 1 or player 2. -/
theorem eight_ball_terminates (m : Libm) (g : GameState) (j : Nat)
    (hlen : g.balls.length = 16) (hact : (g.ball 8).active = true)
    (hj : j < g.pockets.length) (hin : inPocket m 8 j g = true)
    (hplayer : g.currentPlayer = 1 ∨ g.currentPlayer = 2) :
    ((checkPockets m g).ball 8).active = false ∧ (checkPockets m g).gameOver = true ∧
    ((checkPockets m g).winner = 1 ∨ (checkPockets m g).winner = 2) := by
  obtain ⟨h1, h2, h3⟩ := checkPockets_eight m g j hlen hact hj hin
  refine ⟨h3, h1, ?_⟩
  rw [h2]
  unfold verdict
  rw [(passBefore_frame m 8 g).table.currentPlayer]
  split
  · split
    · exact Or.inr rfl
    · exact Or.inl rfl
  · exact hplayer

/-! ### Concrete positions -/

theorem startState_length (c : Int) : (startState c).balls.length = 16 := by
  unfold startState
  rw [initializeGame_balls, initializeBalls_balls]
  rfl

theorem startState_pockets (c : Int) :
    (startState c).pockets =
      [ { x := -(33 / 40), y := 17 / 40, radius := 2 / 25 },
        { x := 0, y := 17 / 40, radius := 2 / 25 },
        { x := 33 / 40, y := 17 / 40, radius := 2 / 25 },
        { x := 33 / 40, y := -(17 / 40), radius := 2 / 25 },
        { x := 0, y := -(17 / 40), radius := 2 / 25 },
        { x := -(33 / 40), y := -(17 / 40), radius := 2 / 25 } ] := by
  simp only [startState, initializeGame, initializePockets, initializeBalls]
  norm_num

theorem startState_ball (c : Int) (k : Nat) :
    (startState c).ball k =
      [cueBall c, rackBall 0 0 1, rackBall 1 0 2, rackBall 1 1 3, rackBall 2 0 4,
       rackBall 2 1 5, rackBall 2 2 6, rackBall 3 0 7, rackBall 3 1 8, rackBall 3 2 9,
       rackBall 3 3 10, rackBall 4 0 11, rackBall 4 1 12, rackBall 4 2 13, rackBall 4 3 14,
       rackBall 4 4 15].getD k default := by
  unfold GameState.ball startState
  rw [initializeGame_balls, initializeBalls_balls]

theorem eightAtPocket_facts :
    eightAtPocket.balls.length = 16 ∧ eightAtPocket.ballTypeAssigned = true ∧
    (eightAtPocket.ball 8).active = true ∧ 1 < eightAtPocket.pockets.length ∧
    inPocket evalLibm 8 1 eightAtPocket = true ∧ eightAtPocket.currentPlayer = 1 := by
  have he := assignBallTypes_effect 1 (startState 0) rfl
  have hl : (assignBallTypes 1 (startState 0)).balls.length = 16 :=
    he.table.length.trans (startState_length 0)
  have hb : eightAtPocket.ball 8 =
      { (assignBallTypes 1 (startState 0)).ball 8 with x := 0, y := 17 / 40 } := by
    unfold eightAtPocket
    rw [ball_modBall, if_pos ⟨rfl, by rw [hl]; decide⟩]
  have hb8 : (assignBallTypes 1 (startState 0)).ball 8 = rackBall 3 1 8 := by
    rw [he.ball, startState_length, if_pos (by decide), retag_eight, startState_ball]
    rfl
  have hs : SameRules (assignBallTypes 1 (startState 0)) eightAtPocket := by
    unfold eightAtPocket
    exact sameRules_setBall _ _ _
  have hp : eightAtPocket.pockets = (startState 0).pockets :=
    hs.pockets.trans he.table.pockets
  have hlen : eightAtPocket.balls.length = 16 := by
    unfold eightAtPocket
    exact (length_setBall _ _ _).trans hl
  refine ⟨hlen, hs.ballTypeAssigned.trans he.assigned, ?_, ?_, ?_,
    hs.currentPlayer.trans he.table.currentPlayer⟩
  · rw [hb, hb8]
    rfl
  · rw [hp, startState_pockets]
    decide
  · unfold inPocket GameState.pocket
    rw [hb, hp, startState_pockets]
    norm_num [evalLibm, ratSqrt]

theorem eight_ball_mid_pass_witness :
    (eightAtPocket.balls.length = 16 ∧ eightAtPocket.ballTypeAssigned = true ∧
      (eightAtPocket.ball 8).active = true ∧ 1 < eightAtPocket.pockets.length ∧
      inPocket evalLibm 8 1 eightAtPocket = true ∧ eightAtPocket.currentPlayer = 1) ∧
    (checkPockets evalLibm eightAtPocket).gameOver = true :=
  ⟨eightAtPocket_facts, (eight_ball_mid_pass evalLibm eightAtPocket 1 eightAtPocket_facts.1 eightAtPocket_facts.2.1
    eightAtPocket_facts.2.2.1 eightAtPocket_facts.2.2.2.1 eightAtPocket_facts.2.2.2.2.1
    (Or.inl eightAtPocket_facts.2.2.2.2.2)).1⟩

theorem eight_ball_terminates_witness :
    (eightAtPocket.balls.length = 16 ∧ (eightAtPocket.ball 8).active = true ∧
      1 < eightAtPocket.pockets.length ∧ inPocket evalLibm 8 1 eightAtPocket = true ∧
      eightAtPocket.currentPlayer = 1) ∧
    ((checkPockets evalLibm eightAtPocket).ball 8).active = false ∧
    (checkPockets evalLibm eightAtPocket).gameOver = true :=
  have h := eight_ball_terminates evalLibm eightAtPocket 1 eightAtPocket_facts.1
    eightAtPocket_facts.2.2.1 eightAtPocket_facts.2.2.2.1 eightAtPocket_facts.2.2.2.2.1
    (Or.inl eightAtPocket_facts.2.2.2.2.2)
  ⟨⟨eightAtPocket_facts.1, eightAtPocket_facts.2.2⟩, h.1, h.2.1⟩

/-! ## C4: the 8-ball before suits are assigned -/

/-- When no ball from index 1 carries the current player's tag, as before suits are
assigned, the capture of ball 8 declares the current player the winner. -/
theorem pocketStep_eight_untagged (m : Libm) (g : GameState) (j : Nat)
    (hun : ∀ k, 1 ≤ k → (g.ball k).player ≠ g.currentPlayer)
    (hin : inPocket m 8 j g = true) :
    (pocketStep m 8 j g).gameOver = true ∧ (pocketStep m 8 j g).winner = g.currentPlayer := by
  rw [pocketStep_eight, if_pos hin]
  refine ⟨eightBallBranch_gameOver _, ?_⟩
  have hno : ¬ (ownBallActive (deactivate 8 g) = true) := by
    rw [ownBallActive_iff]
    rintro ⟨k, h1, _, h3, _⟩
    rw [(deactivate_table 8 g).currentPlayer, deactivate_ball] at h3
    split at h3
    · rename_i h
      exact hun 8 (by decide) h3
    · exact hun k h1 h3
  rw [eightBallBranch_winner, if_neg hno]
  exact (deactivate_table 8 g).currentPlayer

theorem earlyEight_ball (k : Nat) :
    earlyEight.ball k =
      if k = 8 then { rackBall 3 1 8 with x := 0, y := 17 / 40 } else (startState 0).ball k := by
  unfold earlyEight
  rw [ball_modBall, startState_length]
  by_cases h : k = 8
  · rw [if_pos h, if_pos ⟨h.symm, by decide⟩, startState_ball]
    rfl
  · rw [if_neg h, if_neg (fun hh => h hh.1.symm)]

theorem startState_tags (c : Int) (k : Nat) (hk : 1 ≤ k) :
    ((startState c).ball k).player = -1 ∨ ((startState c).ball k).player = -2 ∨
    ((startState c).ball k).player = 0 := by
  rw [startState_ball]
  rcases k with _ | _ | _ | _ | _ | _ | _ | _ | _ | _ | _ | _ | _ | _ | _ | _ | k
  · omega
  all_goals first
    | exact Or.inl rfl
    | exact Or.inr (Or.inl rfl)
    | exact Or.inr (Or.inr rfl)

/-- C4 (evaluation of the code). At the start of a match, with no suit assigned and
player 1 to play, the capture of the active 8-ball in the top-middle pocket sets
game-over and declares player 1, the acting player, the winner. -/
theorem early_eight_ball_wins :
    earlyEight.ballTypeAssigned = false ∧ earlyEight.currentPlayer = 1 ∧
    (earlyEight.ball 8).active = true ∧ inPocket evalLibm 8 1 earlyEight = true ∧
    (pocketStep evalLibm 8 1 earlyEight).gameOver = true ∧
    (pocketStep evalLibm 8 1 earlyEight).winner = 1 := by
  have hin : inPocket evalLibm 8 1 earlyEight = true := by
    have hp : earlyEight.pockets = (startState 0).pockets := rfl
    unfold inPocket GameState.pocket
    rw [earlyEight_ball, if_pos rfl, hp, startState_pockets]
    norm_num [evalLibm, ratSqrt]
  have hun : ∀ k, 1 ≤ k → (earlyEight.ball k).player ≠ earlyEight.currentPlayer := by
    intro k hk
    have hc : earlyEight.currentPlayer = 1 := rfl
    rw [hc, earlyEight_ball]
    split
    · decide
    · rcases startState_tags 0 k hk with h | h | h <;> rw [h] <;> decide
  have h := pocketStep_eight_untagged evalLibm earlyEight 1 hun hin
  refine ⟨rfl, rfl, ?_, hin, h.1, h.2⟩
  rw [earlyEight_ball, if_pos rfl]
  rfl

/-! ## C5: scratch -/

theorem scratched_step_zero (m : Libm) (j : Nat) {t : GameState} (h : Scratched t) :
    Scratched (pocketStep m 0 j t) := by
  have hb := pocketStep_zero_ball m j t
  refine ⟨(pocketStep_frame m 0 j t).foul h.foul, ?_, ?_, ?_, ?_, ?_⟩ <;>
  · rw [hb]
    split
    · rfl
    · first | exact h.active | exact h.x | exact h.y | exact h.vx | exact h.vy

theorem scratched_step_other (m : Libm) (i j : Nat) {t : GameState} (h : Scratched t)
    (hi : i ≠ 0) : Scratched (pocketStep m i j t) := by
  have hb := pocketStep_cue m i j t hi
  refine ⟨(pocketStep_frame m i j t).foul h.foul, ?_, ?_, ?_, ?_, ?_⟩ <;>
  · rw [hb]
    first | exact h.active | exact h.x | exact h.y | exact h.vx | exact h.vy

theorem scratched_first (m : Libm) (j : Nat) (g : GameState) (hlen : 0 < g.balls.length)
    (hin : inPocket m 0 j g = true) : Scratched (pocketStep m 0 j g) := by
  have hb := pocketStep_zero_ball m j g
  rw [if_pos ⟨hin, hlen⟩] at hb
  have hf : (pocketStep m 0 j g).foul = true := by
    unfold pocketStep
    rw [if_pos hin]
    rfl
  refine ⟨hf, ?_, ?_, ?_, ?_, ?_⟩ <;>
  · rw [hb]
    rfl

theorem pocketStep_miss (m : Libm) (i j : Nat) (g : GameState)
    (h : ¬ (inPocket m i j g = true)) : pocketStep m i j g = g := by
  unfold pocketStep
  rw [if_neg h]

theorem scratched_loop (m : Libm) (js : List Nat) (g : GameState) (hlen : 0 < g.balls.length)
    (h : ∃ j ∈ js, inPocket m 0 j g = true) :
    Scratched (forLoop js (pocketStep m 0) g) := by
  induction js with
  | nil =>
    obtain ⟨j, hj, _⟩ := h
    exact absurd hj (List.not_mem_nil j)
  | cons j js ih =>
    rw [forLoop_cons]
    by_cases hin : inPocket m 0 j g = true
    · exact forLoop_invariant Scratched js _ (fun j t ht => scratched_step_zero m j ht) _
        (scratched_first m j g hlen hin)
    · rw [pocketStep_miss m 0 j g hin]
      apply ih
      obtain ⟨j', hj', hin'⟩ := h
      rcases List.mem_cons.1 hj' with e | e
      · rw [e] at hin'
        exact absurd hin' hin
      · exact ⟨j', e, hin'⟩

/-- C5. Whenever the cue ball, on the table, lies in the capture radius of some pocket
when the pocket pass runs, after the pass the foul flag is set and the cue ball is
active, at the break spot `(-0.4, 0)`, with zero velocity; and no other ball that was
inactive before the pass is active after it. -/
theorem scratch_respawns (m : Libm) (g : GameState) (j : Nat)
    (hlen : g.balls.length = 16) (hact : (g.ball 0).active = true)
    (hj : j < g.pockets.length) (hin : inPocket m 0 j g = true) :
    (checkPockets m g).foul = true ∧ ((checkPockets m g).ball 0).active = true ∧
    ((checkPockets m g).ball 0).x = -(2 / 5) ∧ ((checkPockets m g).ball 0).y = 0 ∧
    ((checkPockets m g).ball 0).vx = 0 ∧ ((checkPockets m g).ball 0).vy = 0 ∧
    (∀ k, k ≠ 0 → (g.ball k).active = false → ((checkPockets m g).ball k).active = false) := by
  have hsplit : checkPockets m g =
      forLoop (List.range' 1 15) (pocketBall m) (pocketBall m 0 g) := by
    have hr : List.range 16 = 0 :: List.range' 1 15 := by decide
    unfold checkPockets
    rw [hlen, hr, forLoop_cons]
  have h0 : Scratched (pocketBall m 0 g) := by
    unfold pocketBall
    rw [if_neg (by simp [hact])]
    exact scratched_loop m _ g (by rw [hlen]; decide) ⟨j, List.mem_range.2 hj, hin⟩
  have hall : Scratched (checkPockets m g) := by
    rw [hsplit]
    refine forLoop_rel (fun s t => Scratched s → Scratched t) (fun _ h => h)
      (fun _ _ _ h1 h2 h => h2 (h1 h)) (List.range' 1 15) _ ?_ _ h0
    intro i hi s hs
    have hi0 : i ≠ 0 := by
      have := (List.mem_range'_1.1 hi).1
      omega
    unfold pocketBall
    split
    · exact hs
    · exact forLoop_invariant Scratched _ _
        (fun j t ht => scratched_step_other m i j ht hi0) s hs
  exact ⟨hall.foul, hall.active, hall.x, hall.y, hall.vx, hall.vy,
    (checkPockets_frame m g).inactive⟩

theorem scratch_respawns_witness :
    (cueAtPocket.balls.length = 16 ∧ (cueAtPocket.ball 0).active = true ∧
      0 < cueAtPocket.pockets.length ∧ inPocket evalLibm 0 0 cueAtPocket = true) ∧
    (checkPockets evalLibm cueAtPocket).foul = true ∧
    ((checkPockets evalLibm cueAtPocket).ball 0).x = -(2 / 5) := by
  have hb : cueAtPocket.ball 0 = { cueBall 0 with x := -(33 / 40), y := 17 / 40 } := by
    unfold cueAtPocket
    rw [ball_modBall, startState_length, if_pos ⟨rfl, by decide⟩, startState_ball]
    rfl
  have hp : cueAtPocket.pockets = (startState 0).pockets := rfl
  have hl : cueAtPocket.balls.length = 16 := by
    unfold cueAtPocket
    exact (length_setBall _ _ _).trans (startState_length 0)
  have ha : (cueAtPocket.ball 0).active = true := by
    rw [hb]
    rfl
  have hj : 0 < cueAtPocket.pockets.length := by
    rw [hp, startState_pockets]
    decide
  have hin : inPocket evalLibm 0 0 cueAtPocket = true := by
    unfold inPocket GameState.pocket
    rw [hb, hp, startState_pockets]
    norm_num [evalLibm, ratSqrt]
  have h := scratch_respawns evalLibm cueAtPocket 0 hl ha hj hin
  exact ⟨⟨hl, ha, hj, hin⟩, h.1, h.2.2.1⟩

/-! ## C6, C7: the capture of a suit ball -/

/-- The capture of a suit ball: the step is the regular branch after deactivation. -/
theorem pocketStep_suit (m : Libm) (i j : Nat) (g : GameState) (hi : IsSuitBall i)
    (hin : inPocket m i j g = true) :
    pocketStep m i j g = scoreBall i (assignBallTypes i (deactivate i g)) := by
  unfold IsSuitBall at hi
  unfold pocketStep
  rw [if_pos hin]
  dsimp only
  rw [if_neg (by omega), if_neg (by omega), regularBranch_eq]

/-- C6. With suits unassigned and acting player `p`, when a suit ball `i` is pocketed,
afterwards the assignment flag is set, `p` holds the suit of ball `i` and the
opponent the other suit, exactly one player holds solids, every ball 1-7 carries the
id of the solids owner, every ball 9-15 the id of the stripes owner, and the tag of
the 8-ball is what it was. -/
theorem first_suit_ball_assigns (m : Libm) (g : GameState) (i j : Nat)
    (hlen : g.balls.length = 16) (hun : g.ballTypeAssigned = false)
    (hplayer : g.currentPlayer = 1 ∨ g.currentPlayer = 2) (hi : IsSuitBall i)
    (hin : inPocket m i j g = true) :
    (pocketStep m i j g).ballTypeAssigned = true ∧
    holdsSolids (pocketStep m i j g) g.currentPlayer = decide (i ≤ 7) ∧
    holdsSolids (pocketStep m i j g) (3 - g.currentPlayer) = !decide (i ≤ 7) ∧
    (pocketStep m i j g).player1Solids = !(pocketStep m i j g).player2Solids ∧
    (∀ k, 1 ≤ k ∧ k ≤ 7 →
      ((pocketStep m i j g).ball k).player = solidsOwner (pocketStep m i j g)) ∧
    (∀ k, 9 ≤ k ∧ k ≤ 15 →
      ((pocketStep m i j g).ball k).player = stripesOwner (pocketStep m i j g)) ∧
    ((pocketStep m i j g).ball 8).player = (g.ball 8).player ∧
    (solidsOwner (pocketStep m i j g) = 1 ∨ solidsOwner (pocketStep m i j g) = 2) ∧
    stripesOwner (pocketStep m i j g) = 3 - solidsOwner (pocketStep m i j g) := by
  rw [pocketStep_suit m i j g hi hin]
  have hd : (deactivate i g).ballTypeAssigned = false :=
    (deactivate_split i g).ballTypeAssigned.trans hun
  have he := assignBallTypes_effect i (deactivate i g) hd
  have hs := scoreBall_split i (assignBallTypes i (deactivate i g))
  have hcp : (deactivate i g).currentPlayer = g.currentPlayer :=
    (deactivate_table i g).currentPlayer
  have hdl : (deactivate i g).balls.length = 16 := (deactivate_table i g).length.trans hlen
  have hp1 : (scoreBall i (assignBallTypes i (deactivate i g))).player1Solids =
      splitP1 i (deactivate i g) := hs.player1Solids.trans he.p1
  have hp2 : (scoreBall i (assignBallTypes i (deactivate i g))).player2Solids =
      splitP2 i (deactivate i g) := hs.player2Solids.trans he.p2
  have hball : ∀ k, (scoreBall i (assignBallTypes i (deactivate i g))).ball k =
      if 1 ≤ k ∧ k < 16 then retag (splitP1 i (deactivate i g)) k ((deactivate i g).ball k)
      else (deactivate i g).ball k := by
    intro k
    rw [ball_congr (scoreBall_balls _ _), he.ball, hdl]
  have hsolid : decide (1 ≤ i ∧ i ≤ 7) = decide (i ≤ 7) := by
    unfold IsSuitBall at hi
    have h1 : 1 ≤ i := by omega
    simp [h1]
  unfold holdsSolids solidsOwner stripesOwner
  rw [hp1, hp2]
  unfold splitP1 splitP2
  rw [hcp, hsolid]
  refine ⟨hs.ballTypeAssigned.trans he.assigned, ?_, ?_, ?_, ?_, ?_, ?_, ?_, ?_⟩
  · rcases hplayer with hp | hp <;> simp [hp]
  · rcases hplayer with hp | hp <;> simp [hp]
  · rcases hplayer with hp | hp <;> simp [hp]
  · intro k hk
    rw [hball, if_pos (by omega)]
    unfold retag
    rw [if_neg (by omega), if_pos hk, splitP1, hcp, hsolid]
  · intro k hk
    rw [hball, if_pos (by omega)]
    unfold retag
    rw [if_neg (by omega), if_neg (by omega), splitP1, hcp, hsolid]
  · rw [hball, if_pos (by decide), retag_eight, deactivate_ball]
    unfold IsSuitBall at hi
    rw [if_neg (by omega)]
  · by_cases h7 : i ≤ 7 <;> rcases hplayer with hp | hp <;> simp [hp, h7]
  · by_cases h7 : i ≤ 7 <;> rcases hplayer with hp | hp <;> simp [hp, h7]

theorem oneAtPocket_facts :
    oneAtPocket.balls.length = 16 ∧ oneAtPocket.ballTypeAssigned = false ∧
    (oneAtPocket.currentPlayer = 1 ∨ oneAtPocket.currentPlayer = 2) ∧ IsSuitBall 1 ∧
    inPocket evalLibm 1 0 oneAtPocket = true := by
  have hb : oneAtPocket.ball 1 = { rackBall 0 0 1 with x := -(33 / 40), y := 17 / 40 } := by
    unfold oneAtPocket
    rw [ball_modBall, startState_length, if_pos ⟨rfl, by decide⟩, startState_ball]
    rfl
  have hp : oneAtPocket.pockets = (startState 0).pockets := rfl
  have hl : oneAtPocket.balls.length = 16 := by
    unfold oneAtPocket
    exact (length_setBall _ _ _).trans (startState_length 0)
  refine ⟨hl, rfl, Or.inl rfl, Or.inl (by decide), ?_⟩
  unfold inPocket GameState.pocket
  rw [hb, hp, startState_pockets]
  norm_num [evalLibm, ratSqrt]

theorem first_suit_ball_assigns_witness :
    (oneAtPocket.balls.length = 16 ∧ oneAtPocket.ballTypeAssigned = false ∧
      (oneAtPocket.currentPlayer = 1 ∨ oneAtPocket.currentPlayer = 2) ∧ IsSuitBall 1 ∧
      inPocket evalLibm 1 0 oneAtPocket = true) ∧
    (pocketStep evalLibm 1 0 oneAtPocket).ballTypeAssigned = true :=
  ⟨oneAtPocket_facts,
    (first_suit_ball_assigns evalLibm oneAtPocket 1 0 oneAtPocket_facts.1
      oneAtPocket_facts.2.1 oneAtPocket_facts.2.2.1 oneAtPocket_facts.2.2.2.1
      oneAtPocket_facts.2.2.2.2).1⟩

theorem scoreBall_scores (i : Nat) (g : GameState)
    (hplayer : g.currentPlayer = 1 ∨ g.currentPlayer = 2) :
    ((g.ball i).player = g.currentPlayer →
      scoreOf (scoreBall i g) g.currentPlayer = scoreOf g g.currentPlayer + 1 ∧
      scoreOf (scoreBall i g) (3 - g.currentPlayer) = scoreOf g (3 - g.currentPlayer) ∧
      (scoreBall i g).potted = true) ∧
    ((g.ball i).player ≠ g.currentPlayer →
      scoreOf (scoreBall i g) (3 - g.currentPlayer) = scoreOf g (3 - g.currentPlayer) + 1 ∧
      scoreOf (scoreBall i g) g.currentPlayer = scoreOf g g.currentPlayer ∧
      (scoreBall i g).potted = g.potted) := by
  unfold scoreBall scoreOf
  dsimp only
  constructor
  · intro h
    rw [if_pos h]
    rcases hplayer with hp | hp <;> simp [hp]
  · intro h
    rw [if_neg h]
    rcases hplayer with hp | hp <;> simp [hp]

/-- C7. For every suit ball pocketed in a pocket pass, with the owner tag read after
any assignment triggered by the ball, exactly one score changes and it increases by
one: the acting player's score if the tag equals the acting player, and then the
potted flag is set; otherwise the opponent's score, and then the potted flag is what
it was.  A ball pocketed before any assignment carries the acting player's tag; a
ball pocketed after assignment carries the tag it had. -/
theorem suit_ball_scores (m : Libm) (g : GameState) (i j : Nat)
    (hlen : g.balls.length = 16)
    (hplayer : g.currentPlayer = 1 ∨ g.currentPlayer = 2) (hi : IsSuitBall i)
    (hin : inPocket m i j g = true) :
    (((pocketStep m i j g).ball i).player = g.currentPlayer →
      scoreOf (pocketStep m i j g) g.currentPlayer = scoreOf g g.currentPlayer + 1 ∧
      scoreOf (pocketStep m i j g) (3 - g.currentPlayer) = scoreOf g (3 - g.currentPlayer) ∧
      (pocketStep m i j g).potted = true) ∧
    (((pocketStep m i j g).ball i).player ≠ g.currentPlayer →
      scoreOf (pocketStep m i j g) (3 - g.currentPlayer) =
        scoreOf g (3 - g.currentPlayer) + 1 ∧
      scoreOf (pocketStep m i j g) g.currentPlayer = scoreOf g g.currentPlayer ∧
      (pocketStep m i j g).potted = g.potted) ∧
    (g.ballTypeAssigned = false → ((pocketStep m i j g).ball i).player = g.currentPlayer) ∧
    (g.ballTypeAssigned = true → ((pocketStep m i j g).ball i).player = (g.ball i).player) := by
  rw [pocketStep_suit m i j g hi hin]
  have hf := (deactivate_frame i g).thenPocket (assignBallTypes_frame i (deactivate i g))
  have hcp : (assignBallTypes i (deactivate i g)).currentPlayer = g.currentPlayer :=
    hf.table.currentPlayer
  have hbd : SameBoard g (assignBallTypes i (deactivate i g)) := by
    refine (deactivate_board i g).thenBoard ?_
    cases h : (deactivate i g).ballTypeAssigned
    · exact (assignBallTypes_effect i _ h).board
    · rw [assignBallTypes_assigned i _ h]
      exact SameBoard.reflBoard _
  have hsc : ∀ p, scoreOf (assignBallTypes i (deactivate i g)) p = scoreOf g p := by
    intro p
    unfold scoreOf
    rw [hbd.player1Score, hbd.player2Score]
  have h := scoreBall_scores i (assignBallTypes i (deactivate i g)) (by rw [hcp]; exact hplayer)
  rw [hcp, hsc, hsc, hbd.potted] at h
  have htag : ((scoreBall i (assignBallTypes i (deactivate i g))).ball i).player =
      ((assignBallTypes i (deactivate i g)).ball i).player := by
    rw [ball_congr (scoreBall_balls _ _)]
  rw [htag]
  refine ⟨h.1, h.2, ?_, ?_⟩
  · intro hun
    have hd : (deactivate i g).ballTypeAssigned = false :=
      (deactivate_split i g).ballTypeAssigned.trans hun
    have he := assignBallTypes_effect i (deactivate i g) hd
    have hdl : (deactivate i g).balls.length = 16 := (deactivate_table i g).length.trans hlen
    unfold IsSuitBall at hi
    rw [he.ball, hdl, if_pos (by omega)]
    unfold retag splitP1
    rw [(deactivate_table i g).currentPlayer, if_neg (by omega)]
    by_cases h7 : i ≤ 7
    · have h17 : 1 ≤ i ∧ i ≤ 7 := by omega
      rcases hplayer with hp | hp <;> simp [hp, h17]
    · have h17 : ¬ (1 ≤ i ∧ i ≤ 7) := by omega
      rcases hplayer with hp | hp <;> simp [hp, h17]
  · intro has
    rw [((hf.split has).2 i)]

theorem suit_ball_scores_witness :
    (oneAtPocket.balls.length = 16 ∧
      (oneAtPocket.currentPlayer = 1 ∨ oneAtPocket.currentPlayer = 2) ∧ IsSuitBall 1 ∧
      inPocket evalLibm 1 0 oneAtPocket = true) ∧
    ((pocketStep evalLibm 1 0 oneAtPocket).ball 1).player = oneAtPocket.currentPlayer :=
  ⟨⟨oneAtPocket_facts.1, oneAtPocket_facts.2.2⟩,
    (suit_ball_scores evalLibm oneAtPocket 1 0 oneAtPocket_facts.1 oneAtPocket_facts.2.2.1
      oneAtPocket_facts.2.2.2.1 oneAtPocket_facts.2.2.2.2).2.2.1 oneAtPocket_facts.2.1⟩

/-! ## C8: suit assignment is irreversible -/

theorem KeepsSplit.reflKeeps (s : GameState) : KeepsSplit s s :=
  ⟨rfl, fun _ => SameSplit.reflSplit s, fun _ _ => rfl⟩

theorem KeepsSplit.thenKeeps {s t u : GameState} (h1 : KeepsSplit s t) (h2 : KeepsSplit t u) :
    KeepsSplit s u := by
  refine ⟨h2.length.trans h1.length, fun h => (h1.split h).thenSplit (h2.split ?_),
    fun h k => ((h2.tags ?_) k).trans (h1.tags h k)⟩
  · exact (h1.split h).ballTypeAssigned.trans h
  · exact (h1.split h).ballTypeAssigned.trans h

theorem PhysFrame.physKeepsSplit {s t : GameState} (h : PhysFrame s t) : KeepsSplit s t :=
  ⟨h.length, fun _ => ⟨h.rules.ballTypeAssigned, h.rules.player1Solids, h.rules.player2Solids⟩,
    fun _ => h.player⟩

theorem PocketFrame.pocketKeepsSplit {s t : GameState} (h : PocketFrame s t) : KeepsSplit s t :=
  ⟨h.table.length, fun ha => (h.split ha).1, fun ha => (h.split ha).2⟩

theorem resolveTurn_balls (g : GameState) : (resolveTurn g).balls = g.balls := by
  unfold resolveTurn switchPlayer
  dsimp only
  split
  · split <;> rfl
  · rfl

theorem resolveTurn_split (g : GameState) : SameSplit g (resolveTurn g) := by
  unfold resolveTurn switchPlayer
  dsimp only
  split
  · split <;> constructor <;> rfl
  · constructor <;> rfl

theorem same_keepsSplit {s t : GameState} (hb : t.balls = s.balls) (hs : SameSplit s t) :
    KeepsSplit s t :=
  ⟨by rw [hb], fun _ => hs, fun _ k => by rw [ball_congr hb]⟩

theorem tickPasses_physFrame (m : Libm) (g : GameState) :
    PhysFrame g (handleCushionCollisions (handleBallCollisions m (integrate g))) :=
  ((integrate_frame g).thenPhys (handleBallCollisions_frame m _)).thenPhys
    (handleCushionCollisions_frame _)

theorem update_keepsSplit (m : Libm) (g : GameState) : KeepsSplit g (update m g) := by
  have hp : KeepsSplit g (tickPasses m g) :=
    (tickPasses_physFrame m g).physKeepsSplit.thenKeeps (checkPockets_frame m _).pocketKeepsSplit
  unfold update
  split
  · split
    · dsimp only
      split
      · exact hp.thenKeeps (same_keepsSplit (resolveTurn_balls _) (resolveTurn_split _))
      · exact hp
    · exact KeepsSplit.reflKeeps g
  · exact KeepsSplit.reflKeeps g

theorem mouseMotion_keepsSplit (m : Libm) (w h : ℚ) (x y : Int) (g : GameState) :
    KeepsSplit g (mouseMotion m w h x y g) := by
  unfold mouseMotion
  dsimp only
  split
  · split
    · exact same_keepsSplit rfl ⟨rfl, rfl, rfl⟩
    · exact same_keepsSplit rfl ⟨rfl, rfl, rfl⟩
  · exact KeepsSplit.reflKeeps g

theorem shoot_keepsSplit (m : Libm) (g : GameState) : KeepsSplit g (shoot m g) := by
  unfold shoot
  dsimp only
  have h1 := fun (s : GameState) (v : ℚ) =>
    physFrame_modBall s 0 (fun b => { b with vx := v }) (fun _ => ⟨rfl, rfl, rfl⟩)
  have h2 := fun (s : GameState) (v : ℚ) =>
    physFrame_modBall s 0 (fun b => { b with vy := v }) (fun _ => ⟨rfl, rfl, rfl⟩)
  exact ((h1 g _).thenPhys (h2 _ _)).physKeepsSplit.thenKeeps (same_keepsSplit rfl ⟨rfl, rfl, rfl⟩)

theorem mouseClick_keepsSplit (m : Libm) (button state : Int) (g : GameState) :
    KeepsSplit g (mouseClick m button state g) := by
  unfold mouseClick
  split
  · exact KeepsSplit.reflKeeps g
  · split
    · split
      · exact same_keepsSplit rfl ⟨rfl, rfl, rfl⟩
      · split
        · exact shoot_keepsSplit m g
        · exact KeepsSplit.reflKeeps g
    · exact KeepsSplit.reflKeeps g

theorem playStep_keepsSplit (m : Libm) {g h : GameState} (hs : PlayStep m g h) :
    KeepsSplit g h := by
  cases hs with
  | tick => exact update_keepsSplit m g
  | aim w h x y => exact mouseMotion_keepsSplit m w h x y g
  | click b s => exact mouseClick_keepsSplit m b s g

theorem plays_keepsSplit (m : Libm) {g h : GameState} (hp : Plays m g h) :
    KeepsSplit g h := by
  induction hp with
  | refl => exact KeepsSplit.reflKeeps g
  | step _ hs ih => exact ih.thenKeeps (playStep_keepsSplit m hs)

/-! ### Consistency of the tags along play -/

/-- Consistency passes to a state with the same tags and the same split. -/
theorem Consistent.of_same {s t : GameState} (h : Consistent s)
    (hl : t.balls.length = s.balls.length) (ht : ∀ k, (t.ball k).player = (s.ball k).player)
    (hs : SameSplit s t) : Consistent t := by
  refine ⟨hl.trans h.length, (ht 8).trans h.eight, ?_⟩
  intro ha
  obtain ⟨a, b, c⟩ := h.split (hs.ballTypeAssigned.symm.trans ha)
  unfold solidsOwner stripesOwner at *
  rw [hs.player1Solids, hs.player2Solids]
  refine ⟨a, fun k hk => ?_, fun k hk => ?_⟩
  · rw [ht k]
    exact b k hk
  · rw [ht k]
    exact c k hk

theorem assignBallTypes_consistent (i : Nat) (g : GameState) (h : Consistent g) :
    Consistent (assignBallTypes i g) := by
  cases ha : g.ballTypeAssigned
  · have he := assignBallTypes_effect i g ha
    refine ⟨he.table.length.trans h.length, ?_, fun _ => ⟨?_, ?_, ?_⟩⟩
    · rw [he.ball, h.length, if_pos (by decide), retag_eight]
      exact h.eight
    · rw [he.p1, he.p2]
      unfold splitP1 splitP2
      split <;> simp
    · intro k hk
      unfold solidsOwner
      rw [he.ball, h.length, if_pos (by omega), he.p1]
      unfold retag
      rw [if_neg (by omega), if_pos hk]
    · intro k hk
      unfold stripesOwner
      rw [he.ball, h.length, if_pos (by omega), he.p1]
      unfold retag
      rw [if_neg (by omega), if_neg (by omega)]
  · rw [assignBallTypes_assigned i g ha]
    exact h

theorem deactivate_consistent (i : Nat) (g : GameState) (h : Consistent g) :
    Consistent (deactivate i g) := by
  refine h.of_same (deactivate_table i g).length ?_ (deactivate_split i g)
  intro k
  rw [deactivate_ball]
  split
  · rename_i hk
    rw [hk.1]
  · rfl

theorem pocketStep_consistent (m : Libm) (i j : Nat) (g : GameState) (h : Consistent g) :
    Consistent (pocketStep m i j g) := by
  have hd := deactivate_consistent i g h
  unfold pocketStep
  split
  · dsimp only
    split
    · refine hd.of_same (scratchBranch_table _).length ?_ (scratchBranch_split _)
      intro k
      rw [scratchBranch_ball]
      split
      · rename_i hk
        rw [← hk.1]
      · rfl
    · split
      · exact hd.of_same (by rw [eightBallBranch_balls])
          (fun k => by rw [ball_congr (eightBallBranch_balls _)]) (eightBallBranch_split _)
      · rw [regularBranch_eq]
        exact (assignBallTypes_consistent i _ hd).of_same (by rw [scoreBall_balls])
          (fun k => by rw [ball_congr (scoreBall_balls _ _)]) (scoreBall_split _ _)
  · exact h

theorem checkPockets_consistent (m : Libm) (g : GameState) (h : Consistent g) :
    Consistent (checkPockets m g) := by
  unfold checkPockets
  refine forLoop_invariant Consistent _ _ ?_ g h
  intro i s hs
  unfold pocketBall
  split
  · exact hs
  · exact forLoop_invariant Consistent _ _ (fun j t ht => pocketStep_consistent m i j t ht) s hs

theorem PhysFrame.consistent {s t : GameState} (hf : PhysFrame s t) (h : Consistent s) :
    Consistent t :=
  h.of_same hf.length hf.player
    ⟨hf.rules.ballTypeAssigned, hf.rules.player1Solids, hf.rules.player2Solids⟩

theorem update_consistent (m : Libm) (g : GameState) (h : Consistent g) :
    Consistent (update m g) := by
  have hp : Consistent (tickPasses m g) :=
    checkPockets_consistent m _ ((tickPasses_physFrame m g).consistent h)
  unfold update
  split
  · split
    · dsimp only
      split
      · exact hp.of_same (by rw [resolveTurn_balls])
          (fun k => by rw [ball_congr (resolveTurn_balls _)]) (resolveTurn_split _)
      · exact hp
    · exact h
  · exact h

theorem mouseMotion_consistent (m : Libm) (w h : ℚ) (x y : Int) (g : GameState)
    (hc : Consistent g) : Consistent (mouseMotion m w h x y g) := by
  unfold mouseMotion
  dsimp only
  split
  · split
    · exact hc.of_same rfl (fun _ => rfl) ⟨rfl, rfl, rfl⟩
    · exact hc.of_same rfl (fun _ => rfl) ⟨rfl, rfl, rfl⟩
  · exact hc

theorem shoot_consistent (m : Libm) (g : GameState) (hc : Consistent g) :
    Consistent (shoot m g) := by
  unfold shoot
  dsimp only
  have h1 := fun (s : GameState) (v : ℚ) =>
    physFrame_modBall s 0 (fun b => { b with vx := v }) (fun _ => ⟨rfl, rfl, rfl⟩)
  have h2 := fun (s : GameState) (v : ℚ) =>
    physFrame_modBall s 0 (fun b => { b with vy := v }) (fun _ => ⟨rfl, rfl, rfl⟩)
  exact (((h1 g _).thenPhys (h2 _ _)).consistent hc).of_same rfl (fun _ => rfl) ⟨rfl, rfl, rfl⟩

theorem mouseClick_consistent (m : Libm) (button state : Int) (g : GameState)
    (hc : Consistent g) : Consistent (mouseClick m button state g) := by
  unfold mouseClick
  split
  · exact hc
  · split
    · split
      · exact hc.of_same rfl (fun _ => rfl) ⟨rfl, rfl, rfl⟩
      · split
        · exact shoot_consistent m g hc
        · exact hc
    · exact hc

theorem startState_consistent (c : Int) : Consistent (startState c) := by
  refine ⟨startState_length c, ?_, fun h => ?_⟩
  · rw [startState_ball]
    rfl
  · have hf : (startState c).ballTypeAssigned = false := rfl
    rw [hf] at h
    exact absurd h (by decide)

theorem plays_consistent (m : Libm) {g h : GameState} (hp : Plays m g h)
    (hc : Consistent g) : Consistent h := by
  induction hp with
  | refl => exact hc
  | step _ hs ih =>
    cases hs with
    | tick => exact update_consistent m _ ih
    | aim w h x y => exact mouseMotion_consistent m w h x y _ ih
    | click b s => exact mouseClick_consistent m b s _ ih

theorem reachable_consistent (m : Libm) (g : GameState) (h : Reachable m g) :
    Consistent g := by
  obtain ⟨c, hp⟩ := h
  exact plays_consistent m hp (startState_consistent c)

/-- C8. In every state reached from the start of a match by ticks, aim updates and
clicks, once the assignment flag is set no later tick, aim update or click changes
the flag, the solids flag of either player or the owner tag of any ball; and the
tags agree with the split in that state and in every later one: ball 8 is neutral,
the two players hold different suits, balls 1-7 carry the id of the solids owner and
balls 9-15 the id of the stripes owner. -/
theorem assignment_irreversible (m : Libm) (g h : GameState) (hreach : Reachable m g)
    (hplay : Plays m g h) :
    (g.ballTypeAssigned = true →
      h.ballTypeAssigned = true ∧ h.player1Solids = g.player1Solids ∧
      h.player2Solids = g.player2Solids ∧ ∀ k, (h.ball k).player = (g.ball k).player) ∧
    Consistent g ∧ Consistent h := by
  have hk := plays_keepsSplit m hplay
  have hc := reachable_consistent m g hreach
  refine ⟨fun ha => ?_, hc, plays_consistent m hplay hc⟩
  have hs := hk.split ha
  exact ⟨hs.ballTypeAssigned.trans ha, hs.player1Solids, hs.player2Solids, hk.tags ha⟩

theorem assignment_irreversible_witness :
    (Reachable evalLibm (startState 0) ∧
      Plays evalLibm (startState 0) (update evalLibm (startState 0))) ∧
    Consistent (update evalLibm (startState 0)) :=
  have hr : Reachable evalLibm (startState 0) := ⟨0, Plays.refl _⟩
  have hp : Plays evalLibm (startState 0) (update evalLibm (startState 0)) :=
    Plays.step (Plays.refl _) (PlayStep.tick _)
  ⟨⟨hr, hp⟩, (assignment_irreversible evalLibm _ _ hr hp).2.2⟩

/-! ## C9, C10: reset -/

theorem initializeGame_positions (c : Int) (g : GameState) :
    (initializeGame c g).balls.map (fun b => (b.x, b.y)) = startPositions := by
  rw [initializeGame_balls, initializeBalls_balls]
  simp only [List.map, cueBall, rackBall, spacing, ballRadius, startPositions]
  norm_num

theorem initializeGame_active (c : Int) (g : GameState) :
    ∀ b ∈ (initializeGame c g).balls, b.active = true ∧ b.vx = 0 ∧ b.vy = 0 := by
  rw [initializeGame_balls, initializeBalls_balls]
  intro b hb
  simp only [List.mem_cons, List.mem_singleton, List.not_mem_nil, or_false] at hb
  rcases hb with h | h | h | h | h | h | h | h | h | h | h | h | h | h | h | h <;>
  · rw [h]
    exact ⟨rfl, rfl, rfl⟩

/-- C9. A reset request (the key `r` or `R`) in any state, in particular one with
game-over set, yields a state in which all sixteen balls are active, at rest and at
their initial positions, both scores are zero, the current player is 1, game-over is
cleared and the match is in aiming. -/
theorem reset_from_game_over (c : Int) (g : GameState) :
    keyboard c 'r' g = some (initializeGame c g) ∧
    keyboard c 'R' g = some (initializeGame c g) ∧
    (initializeGame c g).balls.length = 16 ∧
    (∀ b ∈ (initializeGame c g).balls, b.active = true ∧ b.vx = 0 ∧ b.vy = 0) ∧
    (initializeGame c g).balls.map (fun b => (b.x, b.y)) = startPositions ∧
    (initializeGame c g).balls = (startState c).balls ∧
    (initializeGame c g).player1Score = 0 ∧ (initializeGame c g).player2Score = 0 ∧
    (initializeGame c g).currentPlayer = 1 ∧ (initializeGame c g).gameOver = false ∧
    (initializeGame c g).ballsMoving = false ∧ (initializeGame c g).cueAiming = true := by
  refine ⟨rfl, rfl, ?_, initializeGame_active c g, initializeGame_positions c g, ?_,
    rfl, rfl, rfl, rfl, rfl, rfl⟩
  · rw [initializeGame_balls, initializeBalls_balls]
    rfl
  · unfold startState
    rw [initializeGame_balls, initializeGame_balls, initializeBalls_balls,
      initializeBalls_balls]

/-- The fields that `initializeGame` does not write keep their value across a reset. -/
theorem initializeGame_stale (c : Int) (g : GameState) :
    (initializeGame c g).winner = g.winner ∧
    (initializeGame c g).activeBalls = g.activeBalls ∧
    (initializeGame c g).cuePower = g.cuePower ∧
    (initializeGame c g).cueAngle = g.cueAngle ∧
    (initializeGame c g).cueDragging = g.cueDragging := by
  refine ⟨?_, ?_, ?_, ?_, ?_⟩ <;> simp only [initializeGame, initializePockets, initializeBalls]

/-- C10 (evaluation of the code). After the left button is pressed at the start of a
match, a reset leaves the drag flag set, while a freshly started match has it clear:
the state after the reset is not the state of a freshly started match.  In the same
way a reset keeps the winner id, the counter of active balls, the aim power and the
aim angle of the state it is applied to. -/
theorem reset_keeps_stale_fields :
    keyboard 0 'r' dragStarted = some (initializeGame 0 dragStarted) ∧
    (initializeGame 0 dragStarted).cueDragging = true ∧
    (startState 0).cueDragging = false ∧
    initializeGame 0 dragStarted ≠ startState 0 ∧
    (∀ (c : Int) (g : GameState),
      (initializeGame c g).winner = g.winner ∧
      (initializeGame c g).activeBalls = g.activeBalls ∧
      (initializeGame c g).cuePower = g.cuePower ∧
      (initializeGame c g).cueAngle = g.cueAngle ∧
      (initializeGame c g).cueDragging = g.cueDragging) := by
  have h1 : (initializeGame 0 dragStarted).cueDragging = true := rfl
  have h2 : (startState 0).cueDragging = false := rfl
  refine ⟨rfl, h1, h2, ?_, initializeGame_stale⟩
  intro h
  rw [h, h2] at h1
  exact absurd h1 (by decide)

/-! ### Loops that update each ball on its own -/

theorem modBall_sameRules (g : GameState) (i : Nat) (f : Ball → Ball) :
    SameRules g (g.modBall i f) :=
  sameRules_setBall _ _ _

theorem length_modBall (g : GameState) (i : Nat) (f : Ball → Ball) :
    (g.modBall i f).balls.length = g.balls.length :=
  length_setBall _ _ _

/-- A loop whose iteration `i` applies to ball `i` an update that depends on the
fields other than the balls only, applies that update to every ball it visits. -/
theorem forLoop_modBall_ball (F : GameState → Ball → Ball)
    (hF : ∀ s t, SameRules s t → F t = F s) (idxs : List Nat) (hnd : idxs.Nodup)
    (g : GameState) (k : Nat) :
    (forLoop idxs (fun i s => s.modBall i (F s)) g).ball k =
      if k ∈ idxs ∧ k < g.balls.length then F g (g.ball k) else g.ball k := by
  induction idxs generalizing g with
  | nil => simp [forLoop_nil]
  | cons i is ih =>
    rw [forLoop_cons, ih (List.nodup_cons.1 hnd).2, length_modBall, ball_modBall,
      hF g _ (modBall_sameRules g i (F g))]
    have hni : i ∉ is := (List.nodup_cons.1 hnd).1
    by_cases hlen : k < g.balls.length
    · by_cases hik : i = k
      · subst hik
        simp [hni, hlen]
      · have hki : ¬ k = i := fun e => hik e.symm
        by_cases hmem : k ∈ is <;> simp [hmem, hlen, hik, hki]
    · simp [hlen]
      intro h1 h2
      exact absurd (h1 ▸ h2) hlen

theorem integrate_ball (g : GameState) (k : Nat) :
    (integrate g).ball k = integrateBall g.friction g.minVelocity (g.ball k) := by
  unfold integrate
  rw [forLoop_modBall_ball (fun s => integrateBall s.friction s.minVelocity)
    (fun s t h => by simp only [h.friction, h.minVelocity]) _ (List.nodup_range _)]
  by_cases hk : k < g.balls.length
  · rw [if_pos ⟨List.mem_range.2 hk, hk⟩]
  · rw [if_neg (fun h => hk h.2)]
    have hd : g.ball k = default := by
      unfold GameState.ball
      exact List.getD_eq_default _ _ (Nat.le_of_not_lt hk)
    rw [hd]
    rfl

theorem handleCushionCollisions_ball (g : GameState) (k : Nat) :
    (handleCushionCollisions g).ball k =
      cushionBall (-g.tableWidth / 2) (g.tableWidth / 2) (g.tableHeight / 2)
        (-g.tableHeight / 2) (g.ball k) := by
  unfold handleCushionCollisions
  dsimp only
  rw [forLoop_modBall_ball (fun _ => cushionBall (-g.tableWidth / 2) (g.tableWidth / 2)
    (g.tableHeight / 2) (-g.tableHeight / 2)) (fun _ _ _ => rfl) _ (List.nodup_range _)]
  by_cases hk : k < g.balls.length
  · rw [if_pos ⟨List.mem_range.2 hk, hk⟩]
  · rw [if_neg (fun h => hk h.2)]
    have hd : g.ball k = default := by
      unfold GameState.ball
      exact List.getD_eq_default _ _ (Nat.le_of_not_lt hk)
    rw [hd]
    rfl

/-! ## C11: operations outside their legal state -/

/-- C11. With balls moving or the game over, a mouse click (begin-drag or
commit-shot) leaves the whole state unchanged; with balls moving, an aim update
leaves the whole state, in particular the angle and the power, unchanged; with the
game over, a tick leaves the whole state unchanged. -/
theorem illegal_operations_are_no_ops (m : Libm) (g : GameState) :
    (g.ballsMoving = true ∨ g.gameOver = true →
      ∀ button state, mouseClick m button state g = g) ∧
    (g.ballsMoving = true →
      ∀ windowWidth windowHeight x y,
        mouseMotion m windowWidth windowHeight x y g = g ∧
        (mouseMotion m windowWidth windowHeight x y g).cueAngle = g.cueAngle ∧
        (mouseMotion m windowWidth windowHeight x y g).cuePower = g.cuePower) ∧
    (g.gameOver = true → update m g = g) := by
  refine ⟨?_, ?_, ?_⟩
  · intro h button state
    unfold mouseClick
    rcases h with h | h <;> simp [h]
  · intro h w hh x y
    have e : mouseMotion m w hh x y g = g := by
      unfold mouseMotion
      simp [h]
    rw [e]
    exact ⟨rfl, rfl, rfl⟩
  · intro h
    unfold update
    simp [h]

theorem illegal_operations_are_no_ops_witness :
    restShot.ballsMoving = true ∧ finishedMatch.gameOver = true ∧
    mouseClick evalLibm GLUT_LEFT_BUTTON GLUT_UP restShot = restShot ∧
    mouseMotion evalLibm 800 600 400 300 restShot = restShot ∧
    update evalLibm finishedMatch = finishedMatch :=
  ⟨rfl, rfl,
    (illegal_operations_are_no_ops evalLibm restShot).1 (Or.inl rfl) GLUT_LEFT_BUTTON GLUT_UP,
    ((illegal_operations_are_no_ops evalLibm restShot).2.1 rfl 800 600 400 300).1,
    (illegal_operations_are_no_ops evalLibm finishedMatch).2.2 rfl⟩

/-! ## C15, C16: the cushion pass -/

/-- The cushion step on an active ball no wider than the table: each axis is
reflected once if a boundary of that axis is crossed, and left alone otherwise; the
ball ends inside the table. -/
theorem cushionBall_active (w h : ℚ) (b : Ball) (hact : b.active = true)
    (hw : 2 * b.radius ≤ w) (hh : 2 * b.radius ≤ h) :
    ((b.x - b.radius < -w / 2 ∨ b.x + b.radius > w / 2) →
      (cushionBall (-w / 2) (w / 2) (h / 2) (-h / 2) b).vx = -b.vx * (4 / 5)) ∧
    (¬ (b.x - b.radius < -w / 2 ∨ b.x + b.radius > w / 2) →
      (cushionBall (-w / 2) (w / 2) (h / 2) (-h / 2) b).vx = b.vx) ∧
    ((b.y - b.radius < -h / 2 ∨ b.y + b.radius > h / 2) →
      (cushionBall (-w / 2) (w / 2) (h / 2) (-h / 2) b).vy = -b.vy * (4 / 5)) ∧
    (¬ (b.y - b.radius < -h / 2 ∨ b.y + b.radius > h / 2) →
      (cushionBall (-w / 2) (w / 2) (h / 2) (-h / 2) b).vy = b.vy) ∧
    (cushionBall (-w / 2) (w / 2) (h / 2) (-h / 2) b).radius = b.radius ∧
    -w / 2 + b.radius ≤ (cushionBall (-w / 2) (w / 2) (h / 2) (-h / 2) b).x ∧
    (cushionBall (-w / 2) (w / 2) (h / 2) (-h / 2) b).x ≤ w / 2 - b.radius ∧
    -h / 2 + b.radius ≤ (cushionBall (-w / 2) (w / 2) (h / 2) (-h / 2) b).y ∧
    (cushionBall (-w / 2) (w / 2) (h / 2) (-h / 2) b).y ≤ h / 2 - b.radius := by
  unfold cushionBall
  rw [if_neg (by simp [hact])]
  dsimp only
  split_ifs with h1 h2 h3 h4 h4 h3 h4 h4 h2 h3 h4 h4 h3 h4 h4 <;>
  refine ⟨fun hc => ?_, fun hc => ?_, fun hc => ?_, fun hc => ?_, rfl, ?_, ?_, ?_, ?_⟩ <;>
  first
  | rfl
  | linarith
  | (exfalso; exact hc (Or.inl (by assumption)))
  | (exfalso; exact hc (Or.inr (by assumption)))
  | (exfalso; rcases hc with hc | hc <;> exact absurd hc (by assumption))

/-- C15. For every active ball no wider than the table (the balls have radius 0.03,
the table is 1.6 by 0.8) whose edge crosses a boundary of an axis, after the cushion
pass the velocity component of that axis is the incoming one times `-0.8`: its
magnitude is at most 0.8 times the incoming magnitude and its sign is reversed; the
component of an axis on which no boundary is crossed is unchanged. -/
theorem cushion_never_amplifies (g : GameState) (k : Nat)
    (hact : (g.ball k).active = true)
    (hw : 2 * (g.ball k).radius ≤ g.tableWidth)
    (hh : 2 * (g.ball k).radius ≤ g.tableHeight) :
    (CrossesX g (g.ball k) →
      ((handleCushionCollisions g).ball k).vx = -(4 / 5) * (g.ball k).vx ∧
      |((handleCushionCollisions g).ball k).vx| ≤ (4 / 5) * |(g.ball k).vx| ∧
      ((handleCushionCollisions g).ball k).vx * (g.ball k).vx ≤ 0) ∧
    (¬ CrossesX g (g.ball k) →
      ((handleCushionCollisions g).ball k).vx = (g.ball k).vx) ∧
    (CrossesY g (g.ball k) →
      ((handleCushionCollisions g).ball k).vy = -(4 / 5) * (g.ball k).vy ∧
      |((handleCushionCollisions g).ball k).vy| ≤ (4 / 5) * |(g.ball k).vy| ∧
      ((handleCushionCollisions g).ball k).vy * (g.ball k).vy ≤ 0) ∧
    (¬ CrossesY g (g.ball k) →
      ((handleCushionCollisions g).ball k).vy = (g.ball k).vy) := by
  obtain ⟨h1, h2, h3, h4, _⟩ :=
    cushionBall_active g.tableWidth g.tableHeight (g.ball k) hact hw hh
  rw [handleCushionCollisions_ball]
  have key : ∀ v : ℚ, |-(4 / 5) * v| ≤ (4 / 5) * |v| ∧ -(4 / 5) * v * v ≤ 0 := by
    intro v
    constructor
    · rw [abs_mul, abs_neg, abs_of_pos (by norm_num : (0 : ℚ) < 4 / 5)]
    · nlinarith [mul_self_nonneg v]
  refine ⟨fun hc => ?_, fun hc => h2 hc, fun hc => ?_, fun hc => h4 hc⟩
  · have e : (cushionBall (-g.tableWidth / 2) (g.tableWidth / 2) (g.tableHeight / 2)
        (-g.tableHeight / 2) (g.ball k)).vx = -(4 / 5) * (g.ball k).vx := by
      rw [h1 hc]
      ring
    rw [e]
    exact ⟨rfl, (key _).1, (key _).2⟩
  · have e : (cushionBall (-g.tableWidth / 2) (g.tableWidth / 2) (g.tableHeight / 2)
        (-g.tableHeight / 2) (g.ball k)).vy = -(4 / 5) * (g.ball k).vy := by
      rw [h3 hc]
      ring
    rw [e]
    exact ⟨rfl, (key _).1, (key _).2⟩

theorem cueAtCushion_ball :
    cueAtCushion.ball 0 = { cueBall 0 with x := -(39 / 50), vx := -(1 / 50) } := by
  unfold cueAtCushion
  rw [ball_modBall, startState_length, if_pos ⟨rfl, by decide⟩, startState_ball]
  rfl

theorem cueAtCushion_table :
    cueAtCushion.tableWidth = 8 / 5 ∧ cueAtCushion.tableHeight = 4 / 5 := ⟨rfl, rfl⟩

theorem cushion_never_amplifies_witness :
    ((cueAtCushion.ball 0).active = true ∧
      2 * (cueAtCushion.ball 0).radius ≤ cueAtCushion.tableWidth ∧
      2 * (cueAtCushion.ball 0).radius ≤ cueAtCushion.tableHeight ∧
      CrossesX cueAtCushion (cueAtCushion.ball 0)) ∧
    ((handleCushionCollisions cueAtCushion).ball 0).vx = -(4 / 5) * -(1 / 50) := by
  have ha : (cueAtCushion.ball 0).active = true := by
    rw [cueAtCushion_ball]
    rfl
  have hw : 2 * (cueAtCushion.ball 0).radius ≤ cueAtCushion.tableWidth := by
    rw [cueAtCushion_ball, cueAtCushion_table.1]
    norm_num [cueBall, ballRadius]
  have hh : 2 * (cueAtCushion.ball 0).radius ≤ cueAtCushion.tableHeight := by
    rw [cueAtCushion_ball, cueAtCushion_table.2]
    norm_num [cueBall, ballRadius]
  have hc : CrossesX cueAtCushion (cueAtCushion.ball 0) := by
    unfold CrossesX
    rw [cueAtCushion_ball, cueAtCushion_table.1]
    left
    norm_num [cueBall, ballRadius]
  have h := ((cushion_never_amplifies cueAtCushion 0 ha hw hh).1 hc).1
  rw [cueAtCushion_ball] at h
  exact ⟨⟨ha, hw, hh, hc⟩, h⟩

theorem insideTable_pocketStep (m : Libm) (i j : Nat) (g : GameState)
    (hw : g.tableWidth = 8 / 5) (hh : g.tableHeight = 4 / 5)
    (hr : ∀ k, (g.ball k).radius ≤ 2 / 5)
    (h : ∀ k, (g.ball k).active = true → InsideTable g (g.ball k)) :
    ∀ k, ((pocketStep m i j g).ball k).active = true →
      InsideTable (pocketStep m i j g) ((pocketStep m i j g).ball k) := by
  have hf := pocketStep_frame m i j g
  intro k hk
  unfold InsideTable at *
  rw [hf.table.tableWidth, hf.table.tableHeight, hf.radius k]
  by_cases hk0 : k = 0
  · subst hk0
    by_cases hi : i = 0
    · subst hi
      rw [pocketStep_zero_ball] at hk ⊢
      split
      · have := hr 0
        rw [hw, hh]
        simp only [respawned]
        refine ⟨by linarith, by linarith, by linarith, by linarith⟩
      · rename_i hn
        rw [if_neg hn] at hk
        exact h 0 hk
    · rw [pocketStep_cue m i j g hi] at hk ⊢
      exact h 0 hk
  · obtain ⟨e1, e2, _, _⟩ := hf.motion k hk0
    rw [e1, e2]
    apply h k
    by_contra hn
    have hfalse : (g.ball k).active = false := by
      cases hh : (g.ball k).active
      · rfl
      · exact absurd hh hn
    rw [hf.inactive k hk0 hfalse] at hk
    exact absurd hk (by decide)

theorem onTable_pocketStep (m : Libm) (i j : Nat) (g : GameState) (h : OnTable g) :
    OnTable (pocketStep m i j g) := by
  have hf := pocketStep_frame m i j g
  refine ⟨hf.table.tableWidth.trans h.width, hf.table.tableHeight.trans h.height, ?_,
    insideTable_pocketStep m i j g h.width h.height h.radius h.inside⟩
  intro k
  rw [hf.radius k]
  exact h.radius k

theorem onTable_checkPockets (m : Libm) (g : GameState) (h : OnTable g) :
    OnTable (checkPockets m g) := by
  unfold checkPockets
  refine forLoop_invariant OnTable _ _ ?_ g h
  intro i s hs
  unfold pocketBall
  split
  · exact hs
  · exact forLoop_invariant OnTable _ _ (fun j t ht => onTable_pocketStep m i j t ht) s hs

theorem onTable_cushions (g : GameState) (hw : g.tableWidth = 8 / 5)
    (hh : g.tableHeight = 4 / 5) (hr : ∀ k, (g.ball k).radius ≤ 2 / 5) :
    OnTable (handleCushionCollisions g) := by
  have hf := handleCushionCollisions_frame g
  refine ⟨hf.rules.tableWidth.trans hw, hf.rules.tableHeight.trans hh, ?_, ?_⟩
  · intro k
    rw [hf.radius k]
    exact hr k
  · intro k hk
    rw [hf.active k] at hk
    have h := cushionBall_active g.tableWidth g.tableHeight (g.ball k) hk
      (by rw [hw]; linarith [hr k]) (by rw [hh]; linarith [hr k])
    unfold InsideTable
    rw [hf.rules.tableWidth, hf.rules.tableHeight, hf.radius k, handleCushionCollisions_ball]
    exact h.2.2.2.2.2

theorem startState_radius (c : Int) (k : Nat) : ((startState c).ball k).radius ≤ 2 / 5 := by
  rw [startState_ball]
  rcases k with _ | _ | _ | _ | _ | _ | _ | _ | _ | _ | _ | _ | _ | _ | _ | _ | k <;>
  first
  | (show ballRadius ≤ 2 / 5; norm_num [ballRadius])
  | (show (0 : ℚ) ≤ 2 / 5; norm_num)

theorem restShot_ball (k : Nat) : restShot.ball k = (startState 0).ball k := rfl

/-! ## C17: friction -/

/-- One integration step of an active ball: the squared speed after the step is at
most the squared speed before times the square of the friction factor. -/
theorem integrateBall_speed (f mv : ℚ) (b : Ball) (hact : b.active = true) :
    (integrateBall f mv b).vx ^ 2 + (integrateBall f mv b).vy ^ 2 ≤
      f ^ 2 * (b.vx ^ 2 + b.vy ^ 2) := by
  unfold integrateBall
  rw [if_neg (by simp [hact])]
  dsimp only
  split_ifs <;> simp only [] <;> nlinarith [sq_nonneg (b.vx * f), sq_nonneg (b.vy * f)]

/-- C17. For every active ball with nonzero velocity, under a friction factor in
`[0, 1)` (the factor is 0.9992), one integration step yields a speed strictly
smaller than the speed before the step. -/
theorem friction_monotone (g : GameState) (k : Nat) (hact : (g.ball k).active = true)
    (hmove : (g.ball k).vx ≠ 0 ∨ (g.ball k).vy ≠ 0)
    (hf0 : 0 ≤ g.friction) (hf1 : g.friction < 1) :
    ((integrate g).ball k).vx ^ 2 + ((integrate g).ball k).vy ^ 2 <
      (g.ball k).vx ^ 2 + (g.ball k).vy ^ 2 ∧
    Real.sqrt ((((integrate g).ball k).vx ^ 2 + ((integrate g).ball k).vy ^ 2 : ℚ) : ℝ) <
      Real.sqrt (((g.ball k).vx ^ 2 + (g.ball k).vy ^ 2 : ℚ) : ℝ) := by
  have hpos : 0 < (g.ball k).vx ^ 2 + (g.ball k).vy ^ 2 := by
    rcases hmove with h | h
    · have := pow_pos (abs_pos.2 h) 2
      rw [sq_abs] at this
      nlinarith [sq_nonneg (g.ball k).vy]
    · have := pow_pos (abs_pos.2 h) 2
      rw [sq_abs] at this
      nlinarith [sq_nonneg (g.ball k).vx]
  have hle := integrateBall_speed g.friction g.minVelocity (g.ball k) hact
  have hlt : ((integrate g).ball k).vx ^ 2 + ((integrate g).ball k).vy ^ 2 <
      (g.ball k).vx ^ 2 + (g.ball k).vy ^ 2 := by
    rw [integrate_ball]
    have hf2 : g.friction ^ 2 < 1 := by nlinarith
    nlinarith
  refine ⟨hlt, ?_⟩
  apply Real.sqrt_lt_sqrt
  · have h0 : (0 : ℚ) ≤ ((integrate g).ball k).vx ^ 2 + ((integrate g).ball k).vy ^ 2 := by
      positivity
    exact_mod_cast h0
  · exact_mod_cast hlt

theorem cueRolling_ball :
    cueRolling.ball 0 = { cueBall 0 with vx := 1 / 50 } := by
  unfold cueRolling
  rw [ball_modBall, startState_length, if_pos ⟨rfl, by decide⟩, startState_ball]
  rfl

theorem friction_monotone_witness :
    ((cueRolling.ball 0).active = true ∧
      ((cueRolling.ball 0).vx ≠ 0 ∨ (cueRolling.ball 0).vy ≠ 0) ∧
      0 ≤ cueRolling.friction ∧ cueRolling.friction < 1) ∧
    ((integrate cueRolling).ball 0).vx ^ 2 + ((integrate cueRolling).ball 0).vy ^ 2 <
      (cueRolling.ball 0).vx ^ 2 + (cueRolling.ball 0).vy ^ 2 := by
  have ha : (cueRolling.ball 0).active = true := by
    rw [cueRolling_ball]
    rfl
  have hm : (cueRolling.ball 0).vx ≠ 0 ∨ (cueRolling.ball 0).vy ≠ 0 := by
    left
    rw [cueRolling_ball]
    norm_num
  have hfr : cueRolling.friction = 1249 / 1250 := rfl
  have h0 : 0 ≤ cueRolling.friction := by
    rw [hfr]
    norm_num
  have h1 : cueRolling.friction < 1 := by
    rw [hfr]
    norm_num
  exact ⟨⟨ha, hm, h0, h1⟩, (friction_monotone cueRolling 0 ha hm h0 h1).1⟩

/-! ## Ball-ball resolution -/

theorem collidePair_skip (m : Libm) (i j : Nat) (g : GameState)
    (h : velAlongNormal m i j g > 0) : collidePair m i j g = g := by
  unfold velAlongNormal normalX normalY pairDistance at h
  unfold collidePair
  dsimp only
  split_ifs <;> rfl

theorem collidePair_apart (m : Libm) (i j : Nat) (g : GameState)
    (h : ¬ Overlapping m i j g) : collidePair m i j g = g := by
  unfold Overlapping pairDistance at h
  unfold collidePair
  dsimp only
  split_ifs <;> rfl

theorem collidePair_inactive (m : Libm) (i j : Nat) (g : GameState)
    (h : (g.ball j).active = false) : collidePair m i j g = g := by
  unfold collidePair
  rw [if_pos (by simp [h])]

/-- The resolution of a pair that is not skipped: the impulse, then the separation. -/
theorem collidePair_hit (m : Libm) (i j : Nat) (g : GameState)
    (hact : (g.ball j).active = true) (hov : Overlapping m i j g)
    (hvn : ¬ (velAlongNormal m i j g > 0)) :
    collidePair m i j g =
      separate i j (normalX m i j g) (normalY m i j g) (pairDistance m i j g)
        (applyImpulse i j (normalX m i j g) (normalY m i j g)
          (-(1 + 1 / 10) * velAlongNormal m i j g) g) := by
  unfold Overlapping at hov
  unfold velAlongNormal normalX normalY pairDistance at *
  unfold collidePair
  rw [if_neg (by simp [hact])]
  dsimp only
  rw [if_pos hov, if_neg hvn]

theorem applyImpulse_ball (i j : Nat) (nx ny imp : ℚ) (g : GameState) (hij : i ≠ j)
    (hi : i < g.balls.length) (hj : j < g.balls.length) (k : Nat) :
    (applyImpulse i j nx ny imp g).ball k =
      if k = i then { g.ball i with vx := (g.ball i).vx - nx * imp,
                                    vy := (g.ball i).vy - ny * imp }
      else if k = j then { g.ball j with vx := (g.ball j).vx + nx * imp,
                                         vy := (g.ball j).vy + ny * imp }
      else g.ball k := by
  unfold applyImpulse
  dsimp only
  simp only [ball_modBall, length_modBall]
  by_cases hki : k = i
  · subst hki
    simp [hi, hj, hij, Ne.symm hij]
  · by_cases hkj : k = j
    · subst hkj
      simp [hi, hj, hij, Ne.symm hij]
    · simp [hki, hkj, Ne.symm hki, Ne.symm hkj]

theorem separate_ball (i j : Nat) (nx ny d : ℚ) (g : GameState) (hij : i ≠ j)
    (hi : i < g.balls.length) (hj : j < g.balls.length) (k : Nat) :
    (separate i j nx ny d g).ball k =
      if k = i then
        { g.ball i with
          x := (g.ball i).x - nx * (((g.ball i).radius + (g.ball j).radius - d) / 2),
          y := (g.ball i).y - ny * (((g.ball i).radius + (g.ball j).radius - d) / 2) }
      else if k = j then
        { g.ball j with
          x := (g.ball j).x + nx * (((g.ball i).radius + (g.ball j).radius - d) / 2),
          y := (g.ball j).y + ny * (((g.ball i).radius + (g.ball j).radius - d) / 2) }
      else g.ball k := by
  unfold separate
  dsimp only
  simp only [ball_modBall, length_modBall]
  by_cases hki : k = i
  · subst hki
    simp [hi, hj, hij, Ne.symm hij]
  · by_cases hkj : k = j
    · subst hkj
      simp [hi, hj, hij, Ne.symm hij]
    · simp [hki, hkj, Ne.symm hki, Ne.symm hkj]

/-- The fields of the two balls of a pair after a resolution that is not skipped. -/
theorem collidePair_hit_ball (m : Libm) (i j : Nat) (g : GameState)
    (hact : (g.ball j).active = true) (hov : Overlapping m i j g)
    (hvn : ¬ (velAlongNormal m i j g > 0)) (hij : i ≠ j)
    (hi : i < g.balls.length) (hj : j < g.balls.length) :
    ((collidePair m i j g).ball i).vx =
      (g.ball i).vx - normalX m i j g * (-(1 + 1 / 10) * velAlongNormal m i j g) ∧
    ((collidePair m i j g).ball i).vy =
      (g.ball i).vy - normalY m i j g * (-(1 + 1 / 10) * velAlongNormal m i j g) ∧
    ((collidePair m i j g).ball j).vx =
      (g.ball j).vx + normalX m i j g * (-(1 + 1 / 10) * velAlongNormal m i j g) ∧
    ((collidePair m i j g).ball j).vy =
      (g.ball j).vy + normalY m i j g * (-(1 + 1 / 10) * velAlongNormal m i j g) ∧
    ((collidePair m i j g).ball i).x =
      (g.ball i).x - normalX m i j g *
        (((g.ball i).radius + (g.ball j).radius - pairDistance m i j g) / 2) ∧
    ((collidePair m i j g).ball i).y =
      (g.ball i).y - normalY m i j g *
        (((g.ball i).radius + (g.ball j).radius - pairDistance m i j g) / 2) ∧
    ((collidePair m i j g).ball j).x =
      (g.ball j).x + normalX m i j g *
        (((g.ball i).radius + (g.ball j).radius - pairDistance m i j g) / 2) ∧
    ((collidePair m i j g).ball j).y =
      (g.ball j).y + normalY m i j g *
        (((g.ball i).radius + (g.ball j).radius - pairDistance m i j g) / 2) := by
  have hf := applyImpulse_frame i j (normalX m i j g) (normalY m i j g)
    (-(1 + 1 / 10) * velAlongNormal m i j g) g
  rw [collidePair_hit m i j g hact hov hvn]
  simp only [separate_ball _ _ _ _ _ _ hij (hf.length.symm ▸ hi) (hf.length.symm ▸ hj),
    applyImpulse_ball _ _ _ _ _ _ hij hi hj, if_true, if_neg (Ne.symm hij)]
  refine ⟨?_, ?_, ?_, ?_, ?_, ?_, ?_, ?_⟩ <;> trivial

theorem cueNear_ball (v : ℚ) (k : Nat) :
    (cueNear v).ball k =
      if k = 0 then { cueBall 0 with x := 7 / 20, vx := v } else (startState 0).ball k := by
  unfold cueNear
  rw [ball_modBall, startState_length]
  by_cases h : k = 0
  · rw [if_pos h, if_pos ⟨h.symm, by decide⟩, startState_ball]
    rfl
  · rw [if_neg h, if_neg (fun hh => h hh.1.symm)]

theorem cueNear_zero (v : ℚ) :
    (cueNear v).ball 0 = { cueBall 0 with x := 7 / 20, vx := v } := by
  rw [cueNear_ball, if_pos rfl]

theorem cueNear_one (v : ℚ) : (cueNear v).ball 1 = rackBall 0 0 1 := by
  rw [cueNear_ball, if_neg (by decide), startState_ball]
  rfl

theorem cueNear_length (v : ℚ) : (cueNear v).balls.length = 16 := by
  unfold cueNear
  exact (length_modBall _ _ _).trans (startState_length 0)

/-- The values of the resolution of the pair (cue ball, ball 1) in `cueNear v`. -/
theorem cueNear_values (v : ℚ) :
    pairDistance evalLibm 0 1 (cueNear v) = 1 / 20 ∧
    normalX evalLibm 0 1 (cueNear v) = 1 ∧ normalY evalLibm 0 1 (cueNear v) = 0 ∧
    velAlongNormal evalLibm 0 1 (cueNear v) = -v ∧
    Overlapping evalLibm 0 1 (cueNear v) := by
  have hd : pairDistance evalLibm 0 1 (cueNear v) = 1 / 20 := by
    unfold pairDistance
    rw [cueNear_zero, cueNear_one]
    norm_num [evalLibm, ratSqrt, rackBall, cueBall]
  have hx : normalX evalLibm 0 1 (cueNear v) = 1 := by
    unfold normalX
    rw [hd, cueNear_zero, cueNear_one]
    norm_num [rackBall, cueBall]
  have hy : normalY evalLibm 0 1 (cueNear v) = 0 := by
    unfold normalY
    rw [hd, cueNear_zero, cueNear_one]
    norm_num [rackBall, cueBall]
  refine ⟨hd, hx, hy, ?_, ?_⟩
  · unfold velAlongNormal
    rw [hx, hy, cueNear_zero, cueNear_one]
    norm_num [rackBall, cueBall]
  · unfold Overlapping
    rw [hd, cueNear_zero, cueNear_one]
    norm_num [rackBall, cueBall, ballRadius]

/-! ## C20: pairs that are not approaching -/

/-- The resolution of a pair with a unit normal and relative normal velocity `vn ≤ 0`
changes the sum of the squared speeds of the pair by `2 e (1 + e) vn ^ 2` with
`e = 0.1`, that is by `0.22 vn ^ 2`. -/
theorem collidePair_energy (m : Libm) (i j : Nat) (g : GameState)
    (hact : (g.ball j).active = true) (hov : Overlapping m i j g)
    (hvn : ¬ (velAlongNormal m i j g > 0)) (hij : i ≠ j)
    (hi : i < g.balls.length) (hj : j < g.balls.length)
    (hunit : normalX m i j g ^ 2 + normalY m i j g ^ 2 = 1) :
    pairEnergy i j (collidePair m i j g) =
      pairEnergy i j g + 11 / 50 * velAlongNormal m i j g ^ 2 := by
  obtain ⟨h1, h2, h3, h4, _⟩ := collidePair_hit_ball m i j g hact hov hvn hij hi hj
  unfold pairEnergy
  rw [h1, h2, h3, h4]
  have hv : velAlongNormal m i j g =
      ((g.ball j).vx - (g.ball i).vx) * normalX m i j g +
        ((g.ball j).vy - (g.ball i).vy) * normalY m i j g := rfl
  generalize velAlongNormal m i j g = vn at *
  generalize normalX m i j g = nx at *
  generalize normalY m i j g = ny at *
  subst hv
  linear_combination (2 * ((11 / 10) * (((g.ball j).vx - (g.ball i).vx) * nx +
    ((g.ball j).vy - (g.ball i).vy) * ny)) ^ 2) * hunit

/-- C13 (evaluation of the code). The cue ball moves at speed 0.02 straight onto
ball 1, which is at rest; both are active, they overlap and their centres are
distinct.  The resolution of the pair takes the sum of the squared speeds from
`0.0004` to `0.000488`: the collision adds kinetic energy. -/
theorem collision_adds_energy :
    ((cueNear (1 / 50)).ball 0).active = true ∧ ((cueNear (1 / 50)).ball 1).active = true ∧
    ((cueNear (1 / 50)).ball 0).x ≠ ((cueNear (1 / 50)).ball 1).x ∧
    Overlapping evalLibm 0 1 (cueNear (1 / 50)) ∧
    pairEnergy 0 1 (cueNear (1 / 50)) = 1 / 2500 ∧
    pairEnergy 0 1 (collidePair evalLibm 0 1 (cueNear (1 / 50))) = 61 / 125000 ∧
    pairEnergy 0 1 (cueNear (1 / 50)) <
      pairEnergy 0 1 (collidePair evalLibm 0 1 (cueNear (1 / 50))) := by
  obtain ⟨hd, hx, hy, hv, hov⟩ := cueNear_values (1 / 50)
  have ha : ((cueNear (1 / 50)).ball 1).active = true := by
    rw [cueNear_one]
    rfl
  have hbefore : pairEnergy 0 1 (cueNear (1 / 50)) = 1 / 2500 := by
    unfold pairEnergy
    rw [cueNear_zero, cueNear_one]
    norm_num [rackBall, cueBall]
  have hafter : pairEnergy 0 1 (collidePair evalLibm 0 1 (cueNear (1 / 50))) =
      61 / 125000 := by
    rw [collidePair_energy evalLibm 0 1 _ ha hov (by rw [hv]; norm_num) (by decide)
      (by rw [cueNear_length]; decide) (by rw [cueNear_length]; decide)
      (by rw [hx, hy]; norm_num), hbefore, hv]
    norm_num
  refine ⟨?_, ha, ?_, hov, hbefore, hafter, ?_⟩
  · rw [cueNear_zero]
    rfl
  · rw [cueNear_zero, cueNear_one]
    norm_num [rackBall, cueBall]
  · rw [hbefore, hafter]
    norm_num

/-! ## C14: coincident centres -/

/-- C14 (evaluation of the code). With the cue ball and ball 1 both active and their
centres coincident, the resolution of the pair does not skip it: it reaches the
quotients `dx / distance` and `dy / distance` with `distance = 0`. -/
theorem coincident_centres_divide_by_zero :
    (stacked.ball 0).active = true ∧ (stacked.ball 1).active = true ∧
    (stacked.ball 0).x = (stacked.ball 1).x ∧ (stacked.ball 0).y = (stacked.ball 1).y ∧
    pairDistance evalLibm 0 1 stacked = 0 ∧
    normalDivisor evalLibm 0 1 stacked = some 0 := by
  have h0 : stacked.ball 0 = cueBall 0 := by
    unfold stacked
    rw [ball_modBall, if_neg (fun h => absurd h.1 (by decide)), startState_ball]
    rfl
  have h1 : stacked.ball 1 = { rackBall 0 0 1 with x := -(2 / 5), y := 0 } := by
    unfold stacked
    rw [ball_modBall, startState_length, if_pos ⟨rfl, by decide⟩, startState_ball]
    rfl
  have hd : pairDistance evalLibm 0 1 stacked = 0 := by
    unfold pairDistance
    rw [h0, h1]
    norm_num [evalLibm, ratSqrt, cueBall]
  refine ⟨?_, ?_, ?_, ?_, hd, ?_⟩
  · rw [h0]
    rfl
  · rw [h1]
    rfl
  · rw [h0, h1]
    rfl
  · rw [h0, h1]
    rfl
  · unfold normalDivisor
    rw [hd, h0, h1]
    norm_num [cueBall, rackBall, ballRadius]

/-! ## C12: the turn switch after game over -/

theorem forLoop_fixed (idxs : List Nat) (body : Nat → GameState → GameState) (g : GameState)
    (h : ∀ i ∈ idxs, body i g = g) : forLoop idxs body g = g := by
  induction idxs with
  | nil => rfl
  | cons i is ih =>
    rw [forLoop_cons, h i (List.mem_cons_self _ _)]
    exact ih (fun k hk => h k (List.mem_cons_of_mem _ hk))

theorem collideBall_apart (m : Libm) (i : Nat) (g : GameState)
    (h : ∀ j, i < j → (g.ball i).active = true → (g.ball j).active = true →
      ¬ Overlapping m i j g) : collideBall m i g = g := by
  unfold collideBall
  by_cases hi : (g.ball i).active = true
  · rw [if_neg (by simp [hi])]
    apply forLoop_fixed
    intro j hj
    have hij : i < j := by
      have := (List.mem_range'_1.1 hj).1
      omega
    by_cases hj2 : (g.ball j).active = true
    · exact collidePair_apart m i j g (h j hij hi hj2)
    · exact collidePair_inactive m i j g (by simpa using hj2)
  · rw [if_pos (by simpa using hi)]

theorem handleBallCollisions_apart (m : Libm) (g : GameState)
    (h : ∀ i j, i < j → (g.ball i).active = true → (g.ball j).active = true →
      ¬ Overlapping m i j g) : handleBallCollisions m g = g := by
  unfold handleBallCollisions
  apply forLoop_fixed
  intro i _
  exact collideBall_apart m i g (h i)

theorem integrateBall_rest (f mv : ℚ) (b : Ball) (hx : b.vx = 0) (hy : b.vy = 0) :
    integrateBall f mv b = b := by
  obtain ⟨x, y, vx, vy, r, a, c, p⟩ := b
  simp only at hx hy
  subst hx hy
  unfold integrateBall
  split_ifs <;> simp

theorem cushionBall_inside (l r t b : ℚ) (c : Ball)
    (h : c.active = true → l ≤ c.x - c.radius ∧ c.x + c.radius ≤ r ∧
      b ≤ c.y - c.radius ∧ c.y + c.radius ≤ t) : cushionBall l r t b c = c := by
  unfold cushionBall
  by_cases ha : c.active = true
  · obtain ⟨h1, h2, h3, h4⟩ := h ha
    rw [if_neg (by simp [ha])]
    dsimp only
    rw [if_neg (not_lt.2 h1), if_neg (not_lt.2 h2), if_neg (not_lt.2 h3), if_neg (not_lt.2 h4)]
  · rw [if_pos (by simpa using ha)]

theorem pocketStep_potted (m : Libm) (i j : Nat) (g : GameState) (hi : i = 0 ∨ i = 8) :
    (pocketStep m i j g).potted = g.potted := by
  unfold pocketStep
  by_cases hin : inPocket m i j g = true
  · rw [if_pos hin]
    dsimp only
    rcases hi with hi | hi
    · rw [if_pos hi, scratchBranch_potted]
      exact (deactivate_board i g).potted
    · rw [if_neg (by omega), if_pos hi, eightBallBranch_potted]
      exact (deactivate_board i g).potted
  · rw [if_neg hin]

theorem checkPockets_potted (m : Libm) (g : GameState)
    (h : ∀ k, k ≠ 0 → k ≠ 8 → (g.ball k).active = false) :
    (checkPockets m g).potted = g.potted := by
  have key : (∀ k, k ≠ 0 → k ≠ 8 → ((checkPockets m g).ball k).active = false) ∧
      (checkPockets m g).potted = g.potted := by
    unfold checkPockets
    refine forLoop_invariant
      (fun s => (∀ k, k ≠ 0 → k ≠ 8 → (s.ball k).active = false) ∧ s.potted = g.potted)
      _ _ ?_ g ⟨h, rfl⟩
    intro i s hs
    unfold pocketBall
    by_cases ha : (s.ball i).active = true
    · rw [if_neg (by simp [ha])]
      have hi : i = 0 ∨ i = 8 := by
        by_contra hc
        push_neg at hc
        rw [hs.1 i hc.1 hc.2] at ha
        exact Bool.noConfusion ha
      refine forLoop_invariant
        (fun s => (∀ k, k ≠ 0 → k ≠ 8 → (s.ball k).active = false) ∧ s.potted = g.potted)
        _ _ ?_ s hs
      intro j u hu
      exact ⟨fun k h0 h8 => (pocketStep_frame m i j u).inactive k h0 (hu.1 k h0 h8),
        (pocketStep_potted m i j u hi).trans hu.2⟩
    · rw [if_pos (by simpa using ha)]
      exact hs
  exact key.2

theorem resolveTurn_message (g : GameState) (h : g.potted = false ∨ g.foul = true) :
    (resolveTurn g).message =
      if g.currentPlayer = 1 then "Player 2's turn" else "Player 1's turn" := by
  unfold resolveTurn
  dsimp only
  rw [if_pos (by rcases h with h | h <;> simp [h])]
  unfold switchPlayer
  dsimp only
  split_ifs <;> rfl

theorem resolveTurn_gameOver (g : GameState) :
    (resolveTurn g).gameOver = g.gameOver ∧ (resolveTurn g).winner = g.winner := by
  unfold resolveTurn switchPlayer
  dsimp only
  split_ifs <;> exact ⟨rfl, rfl⟩

theorem lastBlack_ball (k : Nat) :
    lastBlack.ball k =
      [cueBall 0, pottedBall 0 0 1 1, pottedBall 1 0 2 1, pottedBall 1 1 3 1,
       pottedBall 2 0 4 1, pottedBall 2 1 5 1, pottedBall 2 2 6 1, pottedBall 3 0 7 1,
       { rackBall 3 1 8 with x := 0, y := 37 / 100 },
       pottedBall 3 2 9 2, pottedBall 3 3 10 2, pottedBall 4 0 11 2, pottedBall 4 1 12 2,
       pottedBall 4 2 13 2, pottedBall 4 3 14 2, pottedBall 4 4 15 2].getD k default := rfl

theorem lastBlack_active (k : Nat) (h : (lastBlack.ball k).active = true) : k = 0 ∨ k = 8 := by
  rw [lastBlack_ball] at h
  rcases k with _ | _ | _ | _ | _ | _ | _ | _ | _ | _ | _ | _ | _ | _ | _ | _ | k
  all_goals first
    | exact Or.inl rfl
    | exact Or.inr rfl
    | exact Bool.noConfusion h

theorem lastBlack_atRest : AtRest lastBlack := by
  apply atRest_of_forall_mem
  intro b hb
  have hl : lastBlack.balls =
      [cueBall 0, pottedBall 0 0 1 1, pottedBall 1 0 2 1, pottedBall 1 1 3 1,
       pottedBall 2 0 4 1, pottedBall 2 1 5 1, pottedBall 2 2 6 1, pottedBall 3 0 7 1,
       { rackBall 3 1 8 with x := 0, y := 37 / 100 },
       pottedBall 3 2 9 2, pottedBall 3 3 10 2, pottedBall 4 0 11 2, pottedBall 4 1 12 2,
       pottedBall 4 2 13 2, pottedBall 4 3 14 2, pottedBall 4 4 15 2] := rfl
  rw [hl] at hb
  simp only [List.mem_cons, List.mem_singleton, List.not_mem_nil, or_false] at hb
  rcases hb with h | h | h | h | h | h | h | h | h | h | h | h | h | h | h | h <;>
    rw [h] <;> exact ⟨rfl, rfl⟩

/-- The state of `lastBlack` after the three physics passes of a tick. -/
theorem lastBlack_physics :
    (∀ k, (handleCushionCollisions (handleBallCollisions evalLibm (integrate lastBlack))).ball k
      = lastBlack.ball k) ∧
    PhysFrame lastBlack
      (handleCushionCollisions (handleBallCollisions evalLibm (integrate lastBlack))) := by
  have h1 : ∀ k, (integrate lastBlack).ball k = lastBlack.ball k := by
    intro k
    rw [integrate_ball]
    exact integrateBall_rest _ _ _ (lastBlack_atRest k).1 (lastBlack_atRest k).2
  have h2 : handleBallCollisions evalLibm (integrate lastBlack) = integrate lastBlack := by
    apply handleBallCollisions_apart
    intro i j hij hi hj
    rw [h1] at hi hj
    have hi2 := lastBlack_active i hi
    have hj2 := lastBlack_active j hj
    have hi0 : i = 0 := by omega
    have hj8 : j = 8 := by omega
    subst hi0 hj8
    unfold Overlapping pairDistance
    rw [h1, h1, lastBlack_ball, lastBlack_ball]
    norm_num [evalLibm, ratSqrt, cueBall, rackBall, ballRadius]
  refine ⟨fun k => ?_, tickPasses_physFrame evalLibm lastBlack⟩
  have hw : (integrate lastBlack).tableWidth = 8 / 5 := (integrate_frame lastBlack).rules.tableWidth
  have hh : (integrate lastBlack).tableHeight = 4 / 5 :=
    (integrate_frame lastBlack).rules.tableHeight
  rw [h2, handleCushionCollisions_ball, h1, hw, hh]
  apply cushionBall_inside
  intro ha
  rcases lastBlack_active k ha with hk | hk <;> subst hk <;> rw [lastBlack_ball] <;>
    norm_num [cueBall, rackBall, ballRadius]

theorem lastBlack_tick :
    (tickPasses evalLibm lastBlack).gameOver = true ∧
    (tickPasses evalLibm lastBlack).winner = 1 ∧
    (tickPasses evalLibm lastBlack).potted = false ∧
    (tickPasses evalLibm lastBlack).currentPlayer = 1 ∧
    allBallsStopped (tickPasses evalLibm lastBlack) = true := by
  obtain ⟨hb, hf⟩ := lastBlack_physics
  have hlen : (handleCushionCollisions
      (handleBallCollisions evalLibm (integrate lastBlack))).balls.length = 16 := hf.length
  have hin : inPocket evalLibm 8 1
      (handleCushionCollisions (handleBallCollisions evalLibm (integrate lastBlack))) = true := by
    rw [inPocket_congr evalLibm 8 1 (by rw [hb]) (by rw [hb]) hf.rules.pockets]
    have hp : lastBlack.pockets = (startState 0).pockets := rfl
    unfold inPocket GameState.pocket
    rw [lastBlack_ball, hp, startState_pockets]
    norm_num [evalLibm, ratSqrt, rackBall]
  have hinact : ∀ k, k ≠ 0 → k ≠ 8 → ((handleCushionCollisions
      (handleBallCollisions evalLibm (integrate lastBlack))).ball k).active = false := by
    intro k h0 h8
    rw [hb]
    by_contra hc
    rcases lastBlack_active k (by simpa using hc) with h | h
    · exact h0 h
    · exact h8 h
  have h8 := checkPockets_eight evalLibm _ 1 hlen (by rw [hb]; rfl)
    (by rw [hf.rules.pockets]; decide) hin
  have hpf := passBefore_frame evalLibm 8
    (handleCushionCollisions (handleBallCollisions evalLibm (integrate lastBlack)))
  have hcp : (passBefore evalLibm 8 (handleCushionCollisions
      (handleBallCollisions evalLibm (integrate lastBlack)))).currentPlayer = 1 :=
    hpf.table.currentPlayer.trans hf.rules.currentPlayer
  have hown : ¬ (ownBallActive (deactivate 8 (passBefore evalLibm 8 (handleCushionCollisions
      (handleBallCollisions evalLibm (integrate lastBlack))))) = true) := by
    rw [ownBallActive_deactivate _ (hpf.table.length.trans hlen)]
    rintro ⟨k, hk, _, hact⟩
    have h0 : k ≠ 0 := by unfold IsSuitBall at hk; omega
    have hk8 : k ≠ 8 := by unfold IsSuitBall at hk; omega
    rw [hpf.inactive k h0 (hinact k h0 hk8)] at hact
    exact Bool.noConfusion hact
  refine ⟨h8.1, ?_, ?_, ?_, rest_stays evalLibm lastBlack lastBlack_atRest
    (by show (0 : ℚ) ≤ 1 / 125; norm_num)⟩
  · unfold tickPasses
    rw [h8.2.1]
    unfold verdict
    rw [if_neg hown, hcp]
  · unfold tickPasses
    rw [checkPockets_potted evalLibm _ hinact]
    exact hf.rules.potted
  · exact (tickPasses_table evalLibm lastBlack).currentPlayer

/-- C12 (evaluation of the code). A tick whose pocket pass sets game-over, with all
balls stopped and no own ball potted without foul, still switches the current player
and replaces the status message by the next-turn message.  In the end-game position
`lastBlack` player 1 pots the 8-ball with all solids gone: after the tick the match is
over, the winner is player 1, the current player is player 2 and the message reads
"Player 2's turn". -/
theorem game_over_switches_turn :
    (∀ (m : Libm) (g : GameState), g.ballsMoving = true → g.gameOver = false →
      allBallsStopped (tickPasses m g) = true → (tickPasses m g).gameOver = true →
      ((tickPasses m g).potted = false ∨ (tickPasses m g).foul = true) →
      (update m g).gameOver = true ∧
      (update m g).currentPlayer = (if g.currentPlayer = 1 then 2 else 1) ∧
      (update m g).message =
        (if g.currentPlayer = 1 then "Player 2's turn" else "Player 1's turn")) ∧
    lastBlack.ballsMoving = true ∧ lastBlack.gameOver = false ∧
    lastBlack.currentPlayer = 1 ∧ (lastBlack.ball 8).active = true ∧
    (∀ k, (lastBlack.ball k).vx = 0 ∧ (lastBlack.ball k).vy = 0) ∧
    (tickPasses evalLibm lastBlack).gameOver = true ∧
    allBallsStopped (tickPasses evalLibm lastBlack) = true ∧
    (update evalLibm lastBlack).gameOver = true ∧
    (update evalLibm lastBlack).winner = 1 ∧
    (update evalLibm lastBlack).currentPlayer = 2 ∧
    (update evalLibm lastBlack).message = "Player 2's turn" := by
  have gen : ∀ (m : Libm) (g : GameState), g.ballsMoving = true → g.gameOver = false →
      allBallsStopped (tickPasses m g) = true → (tickPasses m g).gameOver = true →
      ((tickPasses m g).potted = false ∨ (tickPasses m g).foul = true) →
      (update m g).gameOver = true ∧ (update m g).winner = (tickPasses m g).winner ∧
      (update m g).currentPlayer = (if g.currentPlayer = 1 then 2 else 1) ∧
      (update m g).message =
        (if g.currentPlayer = 1 then "Player 2's turn" else "Player 1's turn") := by
    intro m g hmov hover hstop hgo hsw
    have hcp : (tickPasses m g).currentPlayer = g.currentPlayer :=
      (tickPasses_table m g).currentPlayer
    rw [update_resolves m g hmov hover hstop, resolveTurn_currentPlayer, if_pos hsw,
      resolveTurn_message _ hsw, (resolveTurn_gameOver _).1, (resolveTurn_gameOver _).2, hcp]
    exact ⟨hgo, rfl, rfl, rfl⟩
  obtain ⟨hgo, hwin, hpot, _, hstop⟩ := lastBlack_tick
  obtain ⟨u1, u2, u3, u4⟩ := gen evalLibm lastBlack rfl rfl hstop hgo (Or.inl hpot)
  refine ⟨fun m g a b c d e => ⟨(gen m g a b c d e).1, (gen m g a b c d e).2.2⟩, rfl, rfl, rfl,
    rfl, lastBlack_atRest, hgo, hstop, u1, u2.trans hwin, u3, u4⟩

/-! ## C18: inactive balls -/

theorem integrateBall_inactive (f mv : ℚ) (b : Ball) (h : b.active = false) :
    integrateBall f mv b = b := by
  unfold integrateBall
  rw [if_pos (by simp [h])]

theorem cushionBall_inactive (l r t u : ℚ) (b : Ball) (h : b.active = false) :
    cushionBall l r t u b = b := by
  unfold cushionBall
  rw [if_pos (by simp [h])]

theorem ball_modBall_ne (g : GameState) (i k : Nat) (f : Ball → Ball) (h : i ≠ k) :
    (g.modBall i f).ball k = g.ball k :=
  ball_setBall_ne g i k _ h

theorem applyImpulse_ball_other (i j k : Nat) (nx ny imp : ℚ) (g : GameState)
    (hi : i ≠ k) (hj : j ≠ k) : (applyImpulse i j nx ny imp g).ball k = g.ball k := by
  unfold applyImpulse
  dsimp only
  rw [ball_modBall_ne _ _ _ _ hj, ball_modBall_ne _ _ _ _ hj, ball_modBall_ne _ _ _ _ hi,
    ball_modBall_ne _ _ _ _ hi]

theorem separate_ball_other (i j k : Nat) (nx ny d : ℚ) (g : GameState)
    (hi : i ≠ k) (hj : j ≠ k) : (separate i j nx ny d g).ball k = g.ball k := by
  unfold separate
  dsimp only
  rw [ball_modBall_ne _ _ _ _ hj, ball_modBall_ne _ _ _ _ hj, ball_modBall_ne _ _ _ _ hi,
    ball_modBall_ne _ _ _ _ hi]

theorem collidePair_ball_other (m : Libm) (i j k : Nat) (g : GameState)
    (hi : i ≠ k) (hj : j ≠ k) : (collidePair m i j g).ball k = g.ball k := by
  by_cases hact : (g.ball j).active = true
  · by_cases hov : Overlapping m i j g
    · by_cases hvn : velAlongNormal m i j g > 0
      · rw [collidePair_skip m i j g hvn]
      · rw [collidePair_hit m i j g hact hov hvn, separate_ball_other _ _ _ _ _ _ _ hi hj,
          applyImpulse_ball_other _ _ _ _ _ _ _ hi hj]
    · rw [collidePair_apart m i j g hov]
  · rw [collidePair_inactive m i j g (by simpa using hact)]

theorem collidePair_ball_inactive (m : Libm) (i j k : Nat) (g : GameState)
    (hik : i ≠ k) (hk : (g.ball k).active = false) : (collidePair m i j g).ball k = g.ball k := by
  by_cases hjk : j = k
  · subst hjk
    rw [collidePair_inactive m i j g hk]
  · exact collidePair_ball_other m i j k g hik hjk

theorem collideBall_ball_inactive (m : Libm) (i k : Nat) (g : GameState)
    (hk : (g.ball k).active = false) : (collideBall m i g).ball k = g.ball k := by
  unfold collideBall
  by_cases hi : (g.ball i).active = true
  · rw [if_neg (by simp [hi])]
    have hik : i ≠ k := by
      rintro rfl
      rw [hk] at hi
      exact Bool.noConfusion hi
    refine forLoop_invariant (fun s => s.ball k = g.ball k) _ _ ?_ g rfl
    intro j s hs
    show (collidePair m i j s).ball k = g.ball k
    rw [collidePair_ball_inactive m i j k s hik (by rw [hs]; exact hk)]
    exact hs
  · rw [if_pos (by simpa using hi)]

theorem handleBallCollisions_ball_inactive (m : Libm) (k : Nat) (g : GameState)
    (hk : (g.ball k).active = false) : (handleBallCollisions m g).ball k = g.ball k := by
  unfold handleBallCollisions
  refine forLoop_invariant (fun s => s.ball k = g.ball k) _ _ ?_ g rfl
  intro i s hs
  show (collideBall m i s).ball k = g.ball k
  rw [collideBall_ball_inactive m i k s (by rw [hs]; exact hk)]
  exact hs

/-- The three physics passes leave an inactive ball as it is. -/
theorem physics_ball_inactive (m : Libm) (k : Nat) (g : GameState)
    (hk : (g.ball k).active = false) :
    (handleCushionCollisions (handleBallCollisions m (integrate g))).ball k = g.ball k := by
  have h1 : (integrate g).ball k = g.ball k := by
    rw [integrate_ball, integrateBall_inactive _ _ _ hk]
  have h2 : (handleBallCollisions m (integrate g)).ball k = g.ball k := by
    rw [handleBallCollisions_ball_inactive m k _ (by rw [h1]; exact hk), h1]
  rw [handleCushionCollisions_ball, h2, cushionBall_inactive _ _ _ _ _ hk]

/-- A tick leaves a ball other than the cue ball that is inactive before it inactive,
with the same position and velocity. -/
theorem update_ball_inactive (m : Libm) (k : Nat) (g : GameState) (hk0 : k ≠ 0)
    (hk : (g.ball k).active = false) :
    ((update m g).ball k).active = false ∧
    ((update m g).ball k).x = (g.ball k).x ∧ ((update m g).ball k).y = (g.ball k).y ∧
    ((update m g).ball k).vx = (g.ball k).vx ∧ ((update m g).ball k).vy = (g.ball k).vy := by
  have hp := physics_ball_inactive m k g hk
  have hf := checkPockets_frame m (handleCushionCollisions (handleBallCollisions m (integrate g)))
  have ht : ((tickPasses m g).ball k).active = false ∧
      ((tickPasses m g).ball k).x = (g.ball k).x ∧ ((tickPasses m g).ball k).y = (g.ball k).y ∧
      ((tickPasses m g).ball k).vx = (g.ball k).vx ∧
      ((tickPasses m g).ball k).vy = (g.ball k).vy := by
    unfold tickPasses
    have hm := hf.motion k hk0
    rw [hp] at hm
    exact ⟨hf.inactive k hk0 (by rw [hp]; exact hk), hm⟩
  unfold update
  by_cases hgo : g.gameOver = true
  · rw [if_neg (by simp [hgo])]
    exact ⟨hk, rfl, rfl, rfl, rfl⟩
  · rw [if_pos (by simpa using hgo)]
    by_cases hmov : g.ballsMoving = true
    · rw [if_pos hmov]
      dsimp only
      by_cases hstop : allBallsStopped (tickPasses m g) = true
      · rw [if_pos hstop, ball_congr (resolveTurn_balls _)]
        exact ht
      · rw [if_neg hstop]
        exact ht
    · rw [if_neg hmov]
      exact ⟨hk, rfl, rfl, rfl, rfl⟩

/-! ### States that agree off an inactive ball -/

theorem list_set_getD_self (l : List Ball) (i : Nat) : l.set i (l.getD i default) = l := by
  induction l generalizing i with
  | nil => rfl
  | cons x xs ih =>
    cases i with
    | zero => rfl
    | succ i =>
      show x :: xs.set i (xs.getD i default) = x :: xs
      rw [ih]

theorem setBall_ball_self (s : GameState) (i : Nat) : s.setBall i (s.ball i) = s := by
  unfold GameState.setBall GameState.ball
  rw [list_set_getD_self]

theorem setBall_setBall (s : GameState) (i : Nat) (b c : Ball) :
    (s.setBall i b).setBall i c = s.setBall i c := by
  unfold GameState.setBall
  dsimp only
  rw [List.set_set]

theorem setBall_comm (s : GameState) (a i : Nat) (b c : Ball) (h : a ≠ i) :
    (s.setBall i b).setBall a c = (s.setBall a c).setBall i b := by
  unfold GameState.setBall
  dsimp only
  rw [List.set_comm b c _ (Ne.symm h)]

theorem ball_set_inactive (s : GameState) (i : Nat) (b : Ball)
    (hs : (s.ball i).active = false) (hb : b.active = false) :
    ((s.setBall i b).ball i).active = false := by
  rw [ball_setBall]
  split
  · exact hb
  · exact hs

theorem active_setBall (s : GameState) (i : Nat) (b : Ball)
    (hs : (s.ball i).active = false) (hb : b.active = false) (k : Nat) :
    ((s.setBall i b).ball k).active = (s.ball k).active := by
  by_cases hk : i = k
  · subst hk
    rw [ball_set_inactive s i b hs hb, hs]
  · rw [ball_setBall_ne _ _ _ _ hk]

theorem AgreeOff.same {i : Nat} {s : GameState} (h : (s.ball i).active = false) :
    AgreeOff i s s :=
  ⟨h, s.ball i, h, (setBall_ball_self s i).symm⟩

theorem agree_of_comm {i : Nat} {s t : GameState} (P : GameState → GameState)
    (h : AgreeOff i s t) (hin : ((P s).ball i).active = false)
    (hcomm : ∀ b : Ball, b.active = false → P (s.setBall i b) = (P s).setBall i b) :
    AgreeOff i (P s) (P t) := by
  obtain ⟨_, b, hb, rfl⟩ := h
  exact ⟨hin, b, hb, hcomm b hb⟩

theorem forLoop_agree (R : GameState → GameState → Prop) (idxs : List Nat)
    (body : Nat → GameState → GameState)
    (hbody : ∀ a ∈ idxs, ∀ s t, R s t → R (body a s) (body a t))
    (g h : GameState) (hR : R g h) : R (forLoop idxs body g) (forLoop idxs body h) := by
  induction idxs generalizing g h with
  | nil => exact hR
  | cons a as ih =>
    rw [forLoop_cons, forLoop_cons]
    exact ih (fun k hk => hbody k (List.mem_cons_of_mem _ hk)) _ _
      (hbody a (List.mem_cons_self _ _) g h hR)

theorem modBall_skip_agree {i : Nat} {s t : GameState} (a : Nat) (F : Ball → Ball)
    (hF : ∀ c : Ball, c.active = false → F c = c) (h : AgreeOff i s t) :
    AgreeOff i (s.modBall a F) (t.modBall a F) := by
  have hs := h.1
  refine agree_of_comm (fun u => u.modBall a F) h ?_ ?_
  · show ((s.modBall a F).ball i).active = false
    rw [ball_modBall]
    split
    · rename_i hc
      rw [hc.1, hF _ hs]
      exact hs
    · exact hs
  · intro b hb
    show (s.setBall i b).modBall a F = (s.modBall a F).setBall i b
    by_cases hai : a = i
    · subst hai
      unfold GameState.modBall
      rw [hF _ (ball_set_inactive s a b hs hb), hF _ hs, setBall_ball_self, setBall_ball_self]
    · unfold GameState.modBall
      rw [ball_setBall_ne _ _ _ _ (Ne.symm hai), setBall_comm _ _ _ _ _ hai]

theorem modBall_ne_comm (s : GameState) (a i : Nat) (b : Ball) (f : Ball → Ball) (h : a ≠ i) :
    (s.setBall i b).modBall a f = (s.modBall a f).setBall i b := by
  unfold GameState.modBall
  rw [ball_setBall_ne _ _ _ _ (Ne.symm h), setBall_comm _ _ _ _ _ h]

theorem integrate_agree {i : Nat} {s t : GameState} (h : AgreeOff i s t) :
    AgreeOff i (integrate s) (integrate t) := by
  have hlen : t.balls.length = s.balls.length := by
    obtain ⟨_, b, _, rfl⟩ := h
    exact length_setBall _ _ _
  unfold integrate
  rw [hlen]
  refine forLoop_agree (AgreeOff i) _ _ ?_ s t h
  intro a _ u v huv
  have hf : v.friction = u.friction ∧ v.minVelocity = u.minVelocity := by
    obtain ⟨_, b, _, rfl⟩ := huv
    exact ⟨rfl, rfl⟩
  show AgreeOff i (u.modBall a (integrateBall u.friction u.minVelocity))
    (v.modBall a (integrateBall v.friction v.minVelocity))
  rw [hf.1, hf.2]
  exact modBall_skip_agree a _ (integrateBall_inactive _ _) huv

theorem handleCushionCollisions_agree {i : Nat} {s t : GameState} (h : AgreeOff i s t) :
    AgreeOff i (handleCushionCollisions s) (handleCushionCollisions t) := by
  have hlen : t.balls.length = s.balls.length ∧ t.tableWidth = s.tableWidth ∧
      t.tableHeight = s.tableHeight := by
    obtain ⟨_, b, _, rfl⟩ := h
    exact ⟨length_setBall _ _ _, rfl, rfl⟩
  unfold handleCushionCollisions
  dsimp only
  rw [hlen.1, hlen.2.1, hlen.2.2]
  refine forLoop_agree (AgreeOff i) _ _ ?_ s t h
  intro a _ u v huv
  exact modBall_skip_agree a _ (cushionBall_inactive _ _ _ _) huv

theorem applyImpulse_comm (a j i : Nat) (nx ny imp : ℚ) (s : GameState) (b : Ball)
    (ha : a ≠ i) (hj : j ≠ i) :
    applyImpulse a j nx ny imp (s.setBall i b) = (applyImpulse a j nx ny imp s).setBall i b := by
  unfold applyImpulse
  dsimp only
  rw [modBall_ne_comm _ _ _ _ _ ha, modBall_ne_comm _ _ _ _ _ ha, modBall_ne_comm _ _ _ _ _ hj,
    modBall_ne_comm _ _ _ _ _ hj]

theorem separate_comm (a j i : Nat) (nx ny d : ℚ) (s : GameState) (b : Ball)
    (ha : a ≠ i) (hj : j ≠ i) :
    separate a j nx ny d (s.setBall i b) = (separate a j nx ny d s).setBall i b := by
  unfold separate
  dsimp only
  rw [ball_setBall_ne _ _ _ _ (Ne.symm ha), ball_setBall_ne _ _ _ _ (Ne.symm hj),
    modBall_ne_comm _ _ _ _ _ ha, modBall_ne_comm _ _ _ _ _ ha, modBall_ne_comm _ _ _ _ _ hj,
    modBall_ne_comm _ _ _ _ _ hj]

theorem collidePair_comm (m : Libm) (a j i : Nat) (s : GameState) (b : Ball) (ha : a ≠ i)
    (hs : (s.ball i).active = false) (hb : b.active = false) :
    collidePair m a j (s.setBall i b) = (collidePair m a j s).setBall i b := by
  by_cases hact : (s.ball j).active = true
  · have hj : j ≠ i := by
      rintro rfl
      rw [hs] at hact
      exact Bool.noConfusion hact
    have hba : (s.setBall i b).ball a = s.ball a := ball_setBall_ne _ _ _ _ (Ne.symm ha)
    have hbj : (s.setBall i b).ball j = s.ball j := ball_setBall_ne _ _ _ _ (Ne.symm hj)
    have hd : pairDistance m a j (s.setBall i b) = pairDistance m a j s := by
      unfold pairDistance
      rw [hba, hbj]
    have hnx : normalX m a j (s.setBall i b) = normalX m a j s := by
      unfold normalX
      rw [hd, hba, hbj]
    have hny : normalY m a j (s.setBall i b) = normalY m a j s := by
      unfold normalY
      rw [hd, hba, hbj]
    have hvn : velAlongNormal m a j (s.setBall i b) = velAlongNormal m a j s := by
      unfold velAlongNormal
      rw [hnx, hny, hba, hbj]
    have hov : Overlapping m a j (s.setBall i b) ↔ Overlapping m a j s := by
      unfold Overlapping
      rw [hd, hba, hbj]
    by_cases ov : Overlapping m a j s
    · by_cases vn : velAlongNormal m a j s > 0
      · rw [collidePair_skip m a j s vn, collidePair_skip m a j _ (by rw [hvn]; exact vn)]
      · rw [collidePair_hit m a j s hact ov vn,
          collidePair_hit m a j _ (by rw [hbj]; exact hact) (hov.2 ov) (by rw [hvn]; exact vn),
          hnx, hny, hd, hvn, applyImpulse_comm _ _ _ _ _ _ _ _ ha hj,
          separate_comm _ _ _ _ _ _ _ _ ha hj]
    · rw [collidePair_apart m a j s ov, collidePair_apart m a j _ (fun hc => ov (hov.1 hc))]
  · have hact2 : (s.ball j).active = false := by simpa using hact
    rw [collidePair_inactive m a j s hact2,
      collidePair_inactive m a j _ ((active_setBall s i b hs hb j).trans hact2)]

theorem collideBall_agree (m : Libm) {i : Nat} {s t : GameState} (a : Nat)
    (h : AgreeOff i s t) : AgreeOff i (collideBall m a s) (collideBall m a t) := by
  have hlen : t.balls.length = s.balls.length ∧ (t.ball a).active = (s.ball a).active := by
    obtain ⟨hs, b, hb, rfl⟩ := h
    exact ⟨length_setBall _ _ _, active_setBall s i b hs hb a⟩
  unfold collideBall
  rw [hlen.1, hlen.2]
  by_cases hact : (s.ball a).active = true
  · rw [if_neg (by simp [hact]), if_neg (by simp [hact])]
    have ha : a ≠ i := by
      rintro rfl
      rw [h.1] at hact
      exact Bool.noConfusion hact
    refine forLoop_agree (AgreeOff i) _ _ ?_ s t h
    intro j _ u v huv
    refine agree_of_comm (collidePair m a j) huv ?_ ?_
    · rw [(collidePair_frame m a j u).active]
      exact huv.1
    · intro b hb
      exact collidePair_comm m a j i u b ha huv.1 hb
  · rw [if_pos (by simpa using hact), if_pos (by simpa using hact)]
    exact h

theorem handleBallCollisions_agree (m : Libm) {i : Nat} {s t : GameState}
    (h : AgreeOff i s t) :
    AgreeOff i (handleBallCollisions m s) (handleBallCollisions m t) := by
  have hlen : t.balls.length = s.balls.length := by
    obtain ⟨_, b, _, rfl⟩ := h
    exact length_setBall _ _ _
  unfold handleBallCollisions
  rw [hlen]
  exact forLoop_agree (AgreeOff i) _ _ (fun a _ u v huv => collideBall_agree m a huv) s t h

theorem agree_setBall {i : Nat} {s t : GameState} (k : Nat) (c d : Ball)
    (hself : k = i → c.active = false ∧ d.active = false) (hne : k ≠ i → d = c)
    (h : AgreeOff i s t) : AgreeOff i (s.setBall k c) (t.setBall k d) := by
  obtain ⟨hs, b, hb, rfl⟩ := h
  by_cases hk : k = i
  · subst hk
    refine ⟨ball_set_inactive s k c hs (hself rfl).1, d, (hself rfl).2, ?_⟩
    rw [setBall_setBall, setBall_setBall]
  · rw [hne hk]
    refine ⟨?_, b, hb, setBall_comm _ _ _ _ _ hk⟩
    rw [ball_setBall_ne _ _ _ _ hk]
    exact hs

theorem deactivate_comm (a i : Nat) (s : GameState) (b : Ball) (h : a ≠ i) :
    deactivate a (s.setBall i b) = (deactivate a s).setBall i b := by
  unfold deactivate
  dsimp only
  rw [ball_setBall_ne _ _ _ _ (Ne.symm h), setBall_comm _ _ _ _ _ h]
  rfl

theorem scratchBranch_comm (i : Nat) (s : GameState) (b : Ball) (h : i ≠ 0) :
    scratchBranch (s.setBall i b) = (scratchBranch s).setBall i b := by
  have hb : (s.setBall i b).ball 0 = s.ball 0 := ball_setBall_ne _ _ _ _ h
  have hc := setBall_comm s 0 i b
    { s.ball 0 with x := -(2 / 5), y := 0, vx := 0, vy := 0, active := true } (Ne.symm h)
  unfold scratchBranch
  unfold GameState.setBall GameState.ball at *
  dsimp only at *
  rw [hb]
  have hl := congrArg GameState.balls hc
  dsimp only at hl
  rw [hl]

theorem ownBallActive_setBall (i : Nat) (s : GameState) (b : Ball)
    (hs : (s.ball i).active = false) (hb : b.active = false) :
    ownBallActive (s.setBall i b) = ownBallActive s := by
  unfold ownBallActive
  rw [length_setBall]
  apply any_congr_mem
  intro k _
  by_cases hk : i = k
  · subst hk
    rw [ball_set_inactive s i b hs hb, hs, Bool.and_false, Bool.and_false]
  · rw [ball_setBall_ne _ _ _ _ hk]
    rfl

theorem eightBallBranch_comm (i : Nat) (s : GameState) (b : Ball)
    (hs : (s.ball i).active = false) (hb : b.active = false) :
    eightBallBranch (s.setBall i b) = (eightBallBranch s).setBall i b := by
  unfold eightBallBranch
  dsimp only
  rw [ownBallActive_setBall i s b hs hb]
  by_cases h : (!ownBallActive s) = true
  · rw [if_pos h, if_pos h]
    rfl
  · rw [if_neg h, if_neg h]
    rfl

theorem assignSplit_comm (a i : Nat) (s : GameState) (b : Ball) :
    assignSplit a (s.setBall i b) = (assignSplit a s).setBall i b := by
  unfold assignSplit
  dsimp only
  by_cases h : s.currentPlayer = 1
  · rw [if_pos (show (s.setBall i b).currentPlayer = 1 from h), if_pos h]
    rfl
  · rw [if_neg (show ¬ (s.setBall i b).currentPlayer = 1 from h), if_neg h]
    rfl

theorem assignFinish_comm (i : Nat) (s : GameState) (b : Ball) :
    assignFinish (s.setBall i b) = (assignFinish s).setBall i b := by
  unfold assignFinish
  dsimp only
  by_cases h : s.player1Solids = true
  · rw [if_pos (show (s.setBall i b).player1Solids = true from h), if_pos h]
    rfl
  · rw [if_neg (show ¬ (s.setBall i b).player1Solids = true from h), if_neg h]
    rfl

theorem scoreBall_comm (a i : Nat) (s : GameState) (b : Ball) (h : a ≠ i) :
    scoreBall a (s.setBall i b) = (scoreBall a s).setBall i b := by
  have hb : (s.setBall i b).ball a = s.ball a := ball_setBall_ne _ _ _ _ (Ne.symm h)
  unfold scoreBall
  rw [hb]
  dsimp only
  by_cases h1 : (s.ball a).player = s.currentPlayer
  · rw [if_pos (show (s.ball a).player = (s.setBall i b).currentPlayer from h1), if_pos h1]
    by_cases h2 : s.currentPlayer = 1
    · rw [if_pos (show (s.setBall i b).currentPlayer = 1 from h2), if_pos h2]
      rfl
    · rw [if_neg (show ¬ (s.setBall i b).currentPlayer = 1 from h2), if_neg h2]
      rfl
  · rw [if_neg (show ¬ (s.ball a).player = (s.setBall i b).currentPlayer from h1), if_neg h1]
    by_cases h2 : s.currentPlayer = 1
    · rw [if_pos (show (s.setBall i b).currentPlayer = 1 from h2), if_pos h2]
      rfl
    · rw [if_neg (show ¬ (s.setBall i b).currentPlayer = 1 from h2), if_neg h2]
      rfl

theorem assignStep_agree {i : Nat} {s t : GameState} (k : Nat) (h : AgreeOff i s t) :
    AgreeOff i (assignStep k s) (assignStep k t) := by
  have hp : t.player1Solids = s.player1Solids := by
    obtain ⟨_, b, _, rfl⟩ := h
    rfl
  have hne : k ≠ i → t.ball k = s.ball k := by
    intro hk
    obtain ⟨_, b, _, rfl⟩ := h
    exact ball_setBall_ne _ _ _ _ (Ne.symm hk)
  have ht : (t.ball i).active = false := by
    obtain ⟨hs, b, hb, rfl⟩ := h
    exact ball_set_inactive s i b hs hb
  rw [assignStep_eq, assignStep_eq, hp]
  split
  · exact h
  · refine agree_setBall k _ _ ?_ ?_ h
    · rintro rfl
      rw [retag_active, retag_active]
      exact ⟨h.1, ht⟩
    · intro hk
      rw [hne hk]

theorem assignBallTypes_agree {i : Nat} {s t : GameState} (a : Nat) (h : AgreeOff i s t) :
    AgreeOff i (assignBallTypes a s) (assignBallTypes a t) := by
  have hp : t.ballTypeAssigned = s.ballTypeAssigned := by
    obtain ⟨_, b, _, rfl⟩ := h
    rfl
  unfold assignBallTypes
  rw [hp]
  split
  · exact h
  · have h1 : AgreeOff i (assignSplit a s) (assignSplit a t) :=
      agree_of_comm (assignSplit a) h (by rw [ball_congr (assignSplit_balls a s)]; exact h.1)
        (fun b _ => assignSplit_comm a i s b)
    have h2 : AgreeOff i (assignLoop (assignSplit a s)) (assignLoop (assignSplit a t)) := by
      have hl : (assignSplit a t).balls.length = (assignSplit a s).balls.length := by
        obtain ⟨_, b, _, e⟩ := h1
        rw [e]
        exact length_setBall _ _ _
      unfold assignLoop
      rw [hl]
      exact forLoop_agree (AgreeOff i) _ _ (fun k _ u v huv => assignStep_agree k huv) _ _ h1
    exact agree_of_comm assignFinish h2 (by rw [ball_congr (assignFinish_balls _)]; exact h2.1)
      (fun b _ => assignFinish_comm i _ b)

theorem pocketStep_agree (m : Libm) {i : Nat} {s t : GameState} (a j : Nat) (hi : i ≠ 0)
    (ha : a ≠ i) (h : AgreeOff i s t) :
    AgreeOff i (pocketStep m a j s) (pocketStep m a j t) := by
  have hin : inPocket m a j t = inPocket m a j s := by
    obtain ⟨_, b, _, rfl⟩ := h
    have hb : (s.setBall i b).ball a = s.ball a := ball_setBall_ne _ _ _ _ (Ne.symm ha)
    exact inPocket_congr m a j (by rw [hb]) (by rw [hb]) rfl
  have hd : AgreeOff i (deactivate a s) (deactivate a t) :=
    agree_of_comm (deactivate a) h ((deactivate_frame a s).inactive i hi h.1)
      (fun b _ => deactivate_comm a i s b ha)
  unfold pocketStep
  rw [hin]
  split
  · dsimp only
    split
    · exact agree_of_comm scratchBranch hd ((scratchBranch_frame _).inactive i hi hd.1)
        (fun b _ => scratchBranch_comm i _ b hi)
    · split
      · exact agree_of_comm eightBallBranch hd ((eightBallBranch_frame _).inactive i hi hd.1)
          (fun b hb => eightBallBranch_comm i _ b hd.1 hb)
      · rw [regularBranch_eq, regularBranch_eq]
        have h1 := assignBallTypes_agree a hd
        exact agree_of_comm (scoreBall a) h1 ((scoreBall_frame a _).inactive i hi h1.1)
          (fun b _ => scoreBall_comm a i _ b ha)
  · exact h

theorem pocketBall_agree (m : Libm) {i : Nat} {s t : GameState} (a : Nat) (hi : i ≠ 0)
    (h : AgreeOff i s t) : AgreeOff i (pocketBall m a s) (pocketBall m a t) := by
  have hlen : t.pockets = s.pockets ∧ (t.ball a).active = (s.ball a).active := by
    obtain ⟨hs, b, hb, rfl⟩ := h
    exact ⟨rfl, active_setBall s i b hs hb a⟩
  unfold pocketBall
  rw [hlen.1, hlen.2]
  by_cases hact : (s.ball a).active = true
  · rw [if_neg (by simp [hact]), if_neg (by simp [hact])]
    have ha : a ≠ i := by
      rintro rfl
      rw [h.1] at hact
      exact Bool.noConfusion hact
    exact forLoop_agree (AgreeOff i) _ _ (fun j _ u v huv => pocketStep_agree m a j hi ha huv)
      s t h
  · rw [if_pos (by simpa using hact), if_pos (by simpa using hact)]
    exact h

theorem checkPockets_agree (m : Libm) {i : Nat} {s t : GameState} (hi : i ≠ 0)
    (h : AgreeOff i s t) : AgreeOff i (checkPockets m s) (checkPockets m t) := by
  have hlen : t.balls.length = s.balls.length := by
    obtain ⟨_, b, _, rfl⟩ := h
    exact length_setBall _ _ _
  unfold checkPockets
  rw [hlen]
  exact forLoop_agree (AgreeOff i) _ _ (fun a _ u v huv => pocketBall_agree m a hi huv) s t h

theorem tickPasses_agree (m : Libm) {i : Nat} {s t : GameState} (hi : i ≠ 0)
    (h : AgreeOff i s t) : AgreeOff i (tickPasses m s) (tickPasses m t) :=
  checkPockets_agree m hi
    (handleCushionCollisions_agree (handleBallCollisions_agree m (integrate_agree h)))

theorem allBallsStopped_agree {i : Nat} {s t : GameState} (h : AgreeOff i s t) :
    allBallsStopped t = allBallsStopped s := by
  obtain ⟨hs, b, hb, rfl⟩ := h
  unfold allBallsStopped
  rw [length_setBall]
  have hall : ∀ (l : List Nat) (p q : Nat → Bool), (∀ k ∈ l, p k = q k) → l.all p = l.all q := by
    intro l p q hpq
    induction l with
    | nil => rfl
    | cons x xs ih =>
      rw [List.all_cons, List.all_cons, hpq x (List.mem_cons_self _ _),
        ih (fun k hk => hpq k (List.mem_cons_of_mem _ hk))]
  apply hall
  intro k _
  by_cases hk : i = k
  · subst hk
    rw [ball_set_inactive s i b hs hb, hs]
    rfl
  · rw [ball_setBall_ne _ _ _ _ hk]
    rfl

theorem switchPlayer_comm (i : Nat) (s : GameState) (b : Ball) :
    switchPlayer (s.setBall i b) = (switchPlayer s).setBall i b := by
  unfold switchPlayer
  dsimp only
  by_cases h : s.currentPlayer = 1
  · rw [if_pos (show (s.setBall i b).currentPlayer = 1 from h), if_pos h]
    rfl
  · rw [if_neg (show ¬ (s.setBall i b).currentPlayer = 1 from h), if_neg h]
    rfl

theorem resolveTurn_comm (i : Nat) (s : GameState) (b : Ball) :
    resolveTurn (s.setBall i b) = (resolveTurn s).setBall i b := by
  unfold resolveTurn
  dsimp only
  by_cases h : (!s.potted || s.foul) = true
  · rw [if_pos (show (!(s.setBall i b).potted || (s.setBall i b).foul) = true from h), if_pos h]
    have hc := switchPlayer_comm i
      { s with ballsMoving := false, cueAiming := true, cuePower := 0 } b
    have hc2 : switchPlayer
        { s.setBall i b with ballsMoving := false, cueAiming := true, cuePower := 0 } =
        (switchPlayer { s with ballsMoving := false, cueAiming := true, cuePower := 0 }).setBall
          i b := hc
    rw [hc2]
    rfl
  · rw [if_neg (show ¬ (!(s.setBall i b).potted || (s.setBall i b).foul) = true from h),
      if_neg h]
    rfl

theorem update_agree (m : Libm) {i : Nat} {s t : GameState} (hi : i ≠ 0)
    (h : AgreeOff i s t) : AgreeOff i (update m s) (update m t) := by
  have hr : t.gameOver = s.gameOver ∧ t.ballsMoving = s.ballsMoving := by
    obtain ⟨_, b, _, rfl⟩ := h
    exact ⟨rfl, rfl⟩
  have ht := tickPasses_agree m hi h
  unfold update
  rw [hr.1, hr.2]
  by_cases hgo : (!s.gameOver) = true
  · rw [if_pos hgo, if_pos hgo]
    by_cases hmov : s.ballsMoving = true
    · rw [if_pos hmov, if_pos hmov]
      dsimp only
      rw [allBallsStopped_agree ht]
      by_cases hstop : allBallsStopped (tickPasses m s) = true
      · rw [if_pos hstop, if_pos hstop]
        exact agree_of_comm resolveTurn ht
          (by rw [ball_congr (resolveTurn_balls _)]; exact ht.1)
          (fun b _ => resolveTurn_comm i _ b)
      · rw [if_neg hstop, if_neg hstop]
        exact ht
    · rw [if_neg hmov, if_neg hmov]
      exact h
  · rw [if_neg hgo, if_neg hgo]
    exact h

/-- C18. A ball other than the cue ball that is inactive before a tick is inactive
after the tick, with the same position and velocity.  The ball takes no part in the
tick: replacing it before the tick by any other inactive ball (any position and
velocity) changes, in the state after the tick, no field other than the balls (no
score, no flag) and no other ball. -/
theorem pocketed_balls_untouched (m : Libm) (g : GameState) (i : Nat) (hi : i ≠ 0)
    (hin : (g.ball i).active = false) :
    (((update m g).ball i).active = false ∧
      ((update m g).ball i).x = (g.ball i).x ∧ ((update m g).ball i).y = (g.ball i).y ∧
      ((update m g).ball i).vx = (g.ball i).vx ∧ ((update m g).ball i).vy = (g.ball i).vy) ∧
    ∀ b : Ball, b.active = false →
      SameRules (update m g) (update m (g.setBall i b)) ∧
      (update m (g.setBall i b)).balls.length = (update m g).balls.length ∧
      ∀ k, k ≠ i → (update m (g.setBall i b)).ball k = (update m g).ball k := by
  refine ⟨update_ball_inactive m i g hi hin, fun b hb => ?_⟩
  obtain ⟨_, c, _, e⟩ := update_agree m hi (⟨hin, b, hb, rfl⟩ : AgreeOff i g (g.setBall i b))
  rw [e]
  exact ⟨sameRules_setBall _ _ _, length_setBall _ _ _,
    fun k hk => ball_setBall_ne _ _ _ _ (Ne.symm hk)⟩

theorem pocketed_balls_untouched_witness :
    (1 ≠ 0 ∧ (lastBlack.ball 1).active = false) ∧
    ((update evalLibm lastBlack).ball 1).active = false ∧
    ((update evalLibm lastBlack).ball 1).x = (lastBlack.ball 1).x :=
  ⟨⟨by decide, rfl⟩, (pocketed_balls_untouched evalLibm lastBlack 1 (by decide) rfl).1.1,
    (pocketed_balls_untouched evalLibm lastBlack 1 (by decide) rfl).1.2.1⟩

/-! ## C19: the balls in the aiming state -/

theorem ball_default_of_length_le (g : GameState) (k : Nat) (h : g.balls.length ≤ k) :
    g.ball k = default := by
  unfold GameState.ball
  exact List.getD_eq_default _ _ h

theorem allBallsStopped_bound (g : GameState) (h : allBallsStopped g = true) (k : Nat)
    (hact : (g.ball k).active = true) :
    |(g.ball k).vx| ≤ g.minVelocity ∧ |(g.ball k).vy| ≤ g.minVelocity := by
  by_cases hk : k < g.balls.length
  · unfold allBallsStopped at h
    rw [List.all_eq_true] at h
    have hk2 := h k (List.mem_range.2 hk)
    rw [hact] at hk2
    simp only [Bool.not_true, Bool.false_or, Bool.not_eq_true', Bool.or_eq_false_iff,
      decide_eq_false_iff_not, not_lt, gt_iff_lt] at hk2
    exact hk2
  · rw [ball_default_of_length_le g k (Nat.le_of_not_lt hk)] at hact
    exact Bool.noConfusion hact

theorem resolveTurn_minVelocity (g : GameState) :
    (resolveTurn g).minVelocity = g.minVelocity := by
  unfold resolveTurn switchPlayer
  dsimp only
  split_ifs <;> rfl

theorem update_settled (m : Libm) (g : GameState) (h : Settled g) : Settled (update m g) := by
  have ht := tickPasses_table m g
  unfold update
  by_cases hgo : (!g.gameOver) = true
  · rw [if_pos hgo]
    by_cases hmov : g.ballsMoving = true
    · rw [if_pos hmov]
      dsimp only
      by_cases hstop : allBallsStopped (tickPasses m g) = true
      · rw [if_pos hstop]
        refine ⟨(resolveTurn_minVelocity _).trans (ht.minVelocity.trans h.1), fun _ k hk => ?_⟩
        rw [ball_congr (resolveTurn_balls _)] at hk ⊢
        have hb := allBallsStopped_bound _ hstop k hk
        rw [ht.minVelocity, h.1] at hb
        exact hb
      · rw [if_neg hstop]
        refine ⟨ht.minVelocity.trans h.1, fun hm => ?_⟩
        rw [ht.ballsMoving, hmov] at hm
        exact Bool.noConfusion hm
    · rw [if_neg hmov]
      exact h
  · rw [if_neg hgo]
    exact h

theorem mouseMotion_settled (m : Libm) (w h : ℚ) (x y : Int) (g : GameState)
    (hs : Settled g) : Settled (mouseMotion m w h x y g) := by
  unfold mouseMotion
  dsimp only
  split
  · split
    · exact hs
    · exact hs
  · exact hs

theorem shoot_settled (m : Libm) (g : GameState) (hs : Settled g) : Settled (shoot m g) := by
  refine ⟨?_, fun hm => ?_⟩
  · exact hs.1
  · exact Bool.noConfusion hm

theorem mouseClick_settled (m : Libm) (button state : Int) (g : GameState)
    (hs : Settled g) : Settled (mouseClick m button state g) := by
  unfold mouseClick
  split
  · exact hs
  · split
    · split
      · exact hs
      · split
        · exact shoot_settled m g hs
        · exact hs
    · exact hs

theorem initializeGame_settled (c : Int) (g : GameState) (h : g.minVelocity = 1 / 125) :
    Settled (initializeGame c g) := by
  have hmv : (initializeGame c g).minVelocity = g.minVelocity := by
    simp only [initializeGame, initializePockets, initializeBalls]
  refine ⟨hmv.trans h, fun _ k _ => ?_⟩
  rw [(initializeGame_atRest c g k).1, (initializeGame_atRest c g k).2]
  norm_num

theorem keyboard_settled (c : Int) (k : Char) (g h : GameState) (hk : keyboard c k g = some h)
    (hs : Settled g) : Settled h := by
  unfold keyboard at hk
  split at hk
  · rw [← Option.some.inj hk]
    exact initializeGame_settled c g hs.1
  · split at hk
    · exact Option.noConfusion hk
    · rw [← Option.some.inj hk]
      exact hs

theorem matchStep_settled (m : Libm) {g h : GameState} (hs : MatchStep m g h)
    (hg : Settled g) : Settled h := by
  cases hs with
  | play hp =>
    cases hp with
    | tick => exact update_settled m g hg
    | aim w hh x y => exact mouseMotion_settled m w hh x y g hg
    | click b s => exact mouseClick_settled m b s g hg
  | key c k hk => exact keyboard_settled c k g h hk hg

theorem matchRun_settled (m : Libm) {g h : GameState} (hr : MatchRun m g h)
    (hg : Settled g) : Settled h := by
  induction hr with
  | refl => exact hg
  | step _ hs ih => exact matchStep_settled m hs ih

theorem startState_settled (c : Int) : Settled (startState c) :=
  initializeGame_settled c {} rfl

/-- C19 (amended). In every state reached from the start of a match by ticks, aim
updates, clicks and key presses (resets included), whenever the match is in the
aiming state (balls not flagged as moving, game not over) both velocity components
of every active ball have magnitude at most the minimum-velocity threshold 0.008. -/
theorem aiming_means_slow (m : Libm) (g : GameState) (hreach : Attainable m g) :
    g.ballsMoving = false → g.gameOver = false →
    ∀ k, (g.ball k).active = true →
      |(g.ball k).vx| ≤ 1 / 125 ∧ |(g.ball k).vy| ≤ 1 / 125 := by
  intro hm _ k hk
  obtain ⟨c, hr⟩ := hreach
  exact (matchRun_settled m hr (startState_settled c)).2 hm k hk

/-! ### A slow shot into the left cushion -/

theorem le_ratSqrt (q r : ℚ) (n : ℕ) (hr : r = (n : ℚ) / 10 ^ 9) (h : r ^ 2 ≤ q) :
    r ≤ ratSqrt q := by
  unfold ratSqrt
  by_cases hq : q ≤ 0
  · rw [if_pos hq]
    have h0 : r ^ 2 ≤ 0 := le_trans h hq
    have h1 : r = 0 := (pow_eq_zero_iff two_ne_zero).1 (le_antisymm h0 (sq_nonneg r))
    rw [h1]
  · rw [if_neg hq]
    have hqpos : 0 < q := lt_of_not_le hq
    have hnum : 0 < q.num := Rat.num_pos.2 hqpos
    have hden : (0 : ℚ) < q.den := by exact_mod_cast q.den_pos
    have hnat : ((q.num.natAbs : ℕ) : ℚ) = (q.num : ℚ) := by
      rw [← Int.cast_natCast, Int.natAbs_of_nonneg hnum.le]
    have hqeq : q = (q.num.natAbs : ℚ) / (q.den : ℚ) := by
      rw [hnat]
      exact (Rat.num_div_den q).symm
    have key : n * q.den ≤ Nat.sqrt (q.num.natAbs * q.den * 10 ^ 18) := by
      rw [Nat.le_sqrt]
      have h2 : ((n : ℚ) / 10 ^ 9) ^ 2 ≤ (q.num.natAbs : ℚ) / (q.den : ℚ) := by
        rw [← hqeq, ← hr]
        exact h
      rw [div_pow, div_le_div_iff₀ (by positivity) hden] at h2
      have h3 : ((n * q.den * (n * q.den) : ℕ) : ℚ) ≤
          ((q.num.natAbs * q.den * 10 ^ 18 : ℕ) : ℚ) := by
        push_cast
        nlinarith [h2, hden]
      exact_mod_cast h3
    rw [hr, div_le_div_iff₀ (by positivity) (by positivity)]
    have key2 : (n : ℚ) * (q.den : ℚ) ≤ (Nat.sqrt (q.num.natAbs * q.den * 10 ^ 18) : ℚ) := by
      exact_mod_cast key
    calc (n : ℚ) * ((q.den : ℚ) * 10 ^ 9) = (n : ℚ) * (q.den : ℚ) * 10 ^ 9 := by ring
      _ ≤ (Nat.sqrt (q.num.natAbs * q.den * 10 ^ 18) : ℚ) * 10 ^ 9 :=
        mul_le_mul_of_nonneg_right key2 (by positivity)

theorem not_overlapping_of_far (i j : Nat) (g : GameState)
    (hr : (g.ball i).radius + (g.ball j).radius = 3 / 50)
    (h : (3 / 50 : ℚ) ^ 2 ≤
      ((g.ball j).x - (g.ball i).x) * ((g.ball j).x - (g.ball i).x) +
        ((g.ball j).y - (g.ball i).y) * ((g.ball j).y - (g.ball i).y)) :
    ¬ Overlapping evalLibm i j g := by
  unfold Overlapping pairDistance
  rw [hr]
  exact not_lt.2 (le_ratSqrt _ _ 60000000 (by norm_num) h)

theorem not_inPocket_of_far (i j : Nat) (g : GameState) (hr : (g.pocket j).radius = 2 / 25)
    (h : (2 / 25 : ℚ) ^ 2 ≤
      ((g.ball i).x - (g.pocket j).x) * ((g.ball i).x - (g.pocket j).x) +
        ((g.ball i).y - (g.pocket j).y) * ((g.ball i).y - (g.pocket j).y)) :
    inPocket evalLibm i j g = false := by
  unfold inPocket
  dsimp only
  rw [hr, decide_eq_false_iff_not]
  exact not_lt.2 (le_ratSqrt _ _ 80000000 (by norm_num) h)

theorem checkPockets_miss (m : Libm) (g : GameState)
    (h : ∀ i j, (g.ball i).active = true → j < g.pockets.length → inPocket m i j g = false) :
    checkPockets m g = g := by
  unfold checkPockets
  apply forLoop_fixed
  intro i _
  unfold pocketBall
  by_cases hact : (g.ball i).active = true
  · rw [if_neg (by simp [hact])]
    apply forLoop_fixed
    intro j hj
    apply pocketStep_miss
    rw [h i j hact (List.mem_range.1 hj)]
    exact Bool.noConfusion
  · rw [if_pos (by simpa using hact)]

theorem rack_facts (k : Nat) (h1 : 1 ≤ k) (h2 : k < 16) :
    ((startState 0).ball k).active = true ∧ ((startState 0).ball k).radius = 3 / 100 ∧
    2 / 5 ≤ ((startState 0).ball k).x ∧ ((startState 0).ball k).x ≤ 31 / 50 ∧
    |((startState 0).ball k).y| ≤ 63 / 500 := by
  rw [startState_ball]
  interval_cases k <;> simp only [List.getD_cons_succ, List.getD_cons_zero] <;>
    norm_num [rackBall, spacing, ballRadius, abs_le]

set_option maxHeartbeats 4000000 in
theorem rack_apart (i j : Nat) (hi : 1 ≤ i) (hij : i < j) (hj : j < 16) :
    (3 / 50 : ℚ) ^ 2 ≤
      (((startState 0).ball j).x - ((startState 0).ball i).x) *
        (((startState 0).ball j).x - ((startState 0).ball i).x) +
      (((startState 0).ball j).y - ((startState 0).ball i).y) *
        (((startState 0).ball j).y - ((startState 0).ball i).y) := by
  rw [startState_ball, startState_ball]
  interval_cases j <;> interval_cases i <;>
    simp only [List.getD_cons_succ, List.getD_cons_zero] <;>
    norm_num [rackBall, spacing, ballRadius]

theorem startState_inactive_of_le (k : Nat) (h : 16 ≤ k) :
    ((startState 0).ball k).active = false := by
  rw [ball_default_of_length_le _ _ (by rw [startState_length]; exact h)]
  rfl

theorem startState_pocket (j : Nat) (hj : j < 6) :
    ((startState 0).pocket j).radius = 2 / 25 ∧
    (((startState 0).pocket j).y = 17 / 40 ∨ ((startState 0).pocket j).y = -(17 / 40)) := by
  unfold GameState.pocket
  rw [startState_pockets]
  interval_cases j <;> simp only [List.getD_cons_succ, List.getD_cons_zero] <;>
    norm_num

theorem startState_atRest (k : Nat) :
    ((startState 0).ball k).vx = 0 ∧ ((startState 0).ball k).vy = 0 :=
  initializeGame_atRest 0 {} k

theorem startState_active_lt (k : Nat) (h : ((startState 0).ball k).active = true) : k < 16 := by
  by_contra hc
  rw [startState_inactive_of_le k (Nat.le_of_not_lt hc)] at h
  exact Bool.noConfusion h

/-- The four passes of a tick on a shot in which only the cue ball moves, when the cue
ball stays left of the break spot and away from the top and bottom of the table: the
cue ball is integrated and reflected, nothing else changes. -/
theorem cueShot_passes {x y vx vy x1 y1 vx1 vy1 x2 y2 vx2 vy2 : ℚ} {s : GameState}
    (h : CueShot x y vx vy s)
    (hint : integrateBall (1249 / 1250) (1 / 125)
        { cueBall 0 with x := x, y := y, vx := vx, vy := vy } =
      { cueBall 0 with x := x1, y := y1, vx := vx1, vy := vy1 })
    (hcush : cushionBall (-(8 / 5) / 2) (8 / 5 / 2) (4 / 5 / 2) (-(4 / 5) / 2)
        { cueBall 0 with x := x1, y := y1, vx := vx1, vy := vy1 } =
      { cueBall 0 with x := x2, y := y2, vx := vx2, vy := vy2 })
    (hx1 : x1 ≤ -(2 / 5)) (hy2 : |y2| ≤ 63 / 500) :
    CueShot x2 y2 vx2 vy2 (tickPasses evalLibm s) := by
  have hf := integrate_frame s
  have hb0 : (integrate s).ball 0 = { cueBall 0 with x := x1, y := y1, vx := vx1, vy := vy1 } := by
    rw [integrate_ball, h.friction, h.minVelocity, h.cue, hint]
  have hbk : ∀ k, 1 ≤ k → (integrate s).ball k = (startState 0).ball k := by
    intro k hk
    rw [integrate_ball, h.rack k hk]
    exact integrateBall_rest _ _ _ (startState_atRest k).1 (startState_atRest k).2
  have hcol : handleBallCollisions evalLibm (integrate s) = integrate s := by
    apply handleBallCollisions_apart
    intro i j hij hi hj
    have hj1 : 1 ≤ j := by omega
    rw [hbk j hj1] at hj
    have hj16 := startState_active_lt j hj
    obtain ⟨_, hrj, hxj, _, _⟩ := rack_facts j hj1 hj16
    by_cases hi0 : i = 0
    · subst hi0
      apply not_overlapping_of_far
      · rw [hb0, hbk j hj1, hrj]
        norm_num [cueBall, ballRadius]
      · rw [hb0, hbk j hj1]
        show (3 / 50 : ℚ) ^ 2 ≤ (((startState 0).ball j).x - x1) * (((startState 0).ball j).x - x1) +
          (((startState 0).ball j).y - y1) * (((startState 0).ball j).y - y1)
        nlinarith [mul_self_nonneg (((startState 0).ball j).y - y1)]
    · have hi1 : 1 ≤ i := by omega
      obtain ⟨_, hri, _, _, _⟩ := rack_facts i hi1 (by omega)
      apply not_overlapping_of_far
      · rw [hbk i hi1, hbk j hj1, hri, hrj]
        norm_num
      · rw [hbk i hi1, hbk j hj1]
        exact rack_apart i j hi1 hij hj16
  have hpf := tickPasses_physFrame evalLibm s
  rw [hcol] at hpf
  have hc0 : (handleCushionCollisions (integrate s)).ball 0 =
      { cueBall 0 with x := x2, y := y2, vx := vx2, vy := vy2 } := by
    rw [handleCushionCollisions_ball, hf.rules.tableWidth, hf.rules.tableHeight, h.tableWidth,
      h.tableHeight, hb0, hcush]
  have hck : ∀ k, 1 ≤ k → (handleCushionCollisions (integrate s)).ball k =
      (startState 0).ball k := by
    intro k hk
    rw [handleCushionCollisions_ball, hf.rules.tableWidth, hf.rules.tableHeight, h.tableWidth,
      h.tableHeight, hbk k hk]
    apply cushionBall_inside
    intro hact
    obtain ⟨_, hr, hx, hx', hy⟩ := rack_facts k hk (startState_active_lt k hact)
    rw [hr]
    rw [abs_le] at hy
    refine ⟨?_, ?_, ?_, ?_⟩ <;> linarith [hy.1, hy.2]
  have hmiss : checkPockets evalLibm (handleCushionCollisions (integrate s)) =
      handleCushionCollisions (integrate s) := by
    apply checkPockets_miss
    intro i j hact hj
    have hp : (handleCushionCollisions (integrate s)).pockets = (startState 0).pockets :=
      hpf.rules.pockets.trans h.pockets
    have hj6 : j < 6 := by
      rw [hp, startState_pockets] at hj
      exact hj
    have hpj : (handleCushionCollisions (integrate s)).pocket j = (startState 0).pocket j := by
      unfold GameState.pocket
      rw [hp]
    obtain ⟨hr, hy⟩ := startState_pocket j hj6
    have hyi : |((handleCushionCollisions (integrate s)).ball i).y| ≤ 63 / 500 := by
      by_cases hi0 : i = 0
      · subst hi0
        rw [hc0]
        exact hy2
      · have hi1 : 1 ≤ i := by omega
        rw [hck i hi1] at hact ⊢
        exact (rack_facts i hi1 (startState_active_lt i hact)).2.2.2.2
    rw [abs_le] at hyi
    apply not_inPocket_of_far
    · rw [hpj, hr]
    · rw [hpj]
      rcases hy with hy | hy <;> rw [hy] <;>
        nlinarith [mul_self_nonneg (((handleCushionCollisions (integrate s)).ball i).x -
          ((startState 0).pocket j).x), hyi.1, hyi.2]
  have ht : tickPasses evalLibm s = handleCushionCollisions (integrate s) := by
    unfold tickPasses
    rw [hcol, hmiss]
  rw [ht]
  exact ⟨hc0, hck, hpf.length.trans h.length, hpf.rules.pockets.trans h.pockets,
    hpf.rules.tableWidth.trans h.tableWidth, hpf.rules.tableHeight.trans h.tableHeight,
    hpf.rules.friction.trans h.friction, hpf.rules.minVelocity.trans h.minVelocity,
    hpf.rules.ballsMoving.trans h.ballsMoving, hpf.rules.gameOver.trans h.gameOver⟩

theorem allBallsStopped_moving (g : GameState) (k : Nat) (hk : k < g.balls.length)
    (hact : (g.ball k).active = true) (hv : g.minVelocity < |(g.ball k).vx|) :
    allBallsStopped g = false := by
  unfold allBallsStopped
  rw [List.all_eq_false]
  refine ⟨k, List.mem_range.2 hk, ?_⟩
  rw [hact]
  simp [hv]

theorem allBallsStopped_of_bound (g : GameState)
    (h : ∀ k, (g.ball k).active = true →
      |(g.ball k).vx| ≤ g.minVelocity ∧ |(g.ball k).vy| ≤ g.minVelocity) :
    allBallsStopped g = true := by
  unfold allBallsStopped
  rw [List.all_eq_true]
  intro k _
  by_cases hact : (g.ball k).active = true
  · rw [hact]
    simp [not_lt.2 (h k hact).1, not_lt.2 (h k hact).2]
  · simp [hact]

/-- A tick of a shot in which only the cue ball moves and is still faster than the
threshold after the tick: the shot goes on. -/
theorem quiet_tick {x y vx vy x1 y1 vx1 vy1 : ℚ} {s : GameState}
    (h : CueShot x y vx vy s)
    (hint : integrateBall (1249 / 1250) (1 / 125)
        { cueBall 0 with x := x, y := y, vx := vx, vy := vy } =
      { cueBall 0 with x := x1, y := y1, vx := vx1, vy := vy1 })
    (hx1 : x1 ≤ -(2 / 5)) (hx1' : -(77 / 100) ≤ x1) (hy1 : |y1| ≤ 63 / 500)
    (hv : 1 / 125 < |vx1|) :
    CueShot x1 y1 vx1 vy1 (update evalLibm s) := by
  have hcush : cushionBall (-(8 / 5) / 2) (8 / 5 / 2) (4 / 5 / 2) (-(4 / 5) / 2)
      { cueBall 0 with x := x1, y := y1, vx := vx1, vy := vy1 } =
      { cueBall 0 with x := x1, y := y1, vx := vx1, vy := vy1 } := by
    apply cushionBall_inside
    intro _
    rw [abs_le] at hy1
    show -(8 / 5) / 2 ≤ x1 - ballRadius ∧ x1 + ballRadius ≤ 8 / 5 / 2 ∧
      -(4 / 5) / 2 ≤ y1 - ballRadius ∧ y1 + ballRadius ≤ 4 / 5 / 2
    unfold ballRadius
    refine ⟨?_, ?_, ?_, ?_⟩ <;> linarith [hy1.1, hy1.2]
  have hp := cueShot_passes h hint hcush hx1 hy1
  have hmove : allBallsStopped (tickPasses evalLibm s) = false := by
    apply allBallsStopped_moving _ 0
    · rw [hp.length]
      decide
    · rw [hp.cue]
      rfl
    · rw [hp.cue, hp.minVelocity]
      exact hv
  have hu : update evalLibm s = tickPasses evalLibm s := by
    unfold update
    rw [if_pos (by rw [h.gameOver]; rfl), if_pos h.ballsMoving]
    dsimp only
    rw [if_neg (by rw [hmove]; exact Bool.noConfusion)]
  rw [hu]
  exact hp

theorem cushionBall_left (l r t u : ℚ) (c : Ball) (hact : c.active = true)
    (h1 : c.x - c.radius < l) (h2 : l + c.radius + c.radius ≤ r)
    (h3 : u ≤ c.y - c.radius) (h4 : c.y + c.radius ≤ t) :
    cushionBall l r t u c = { c with x := l + c.radius, vx := -c.vx * (4 / 5) } := by
  unfold cushionBall
  simp [hact, h1, not_lt.2 h2, not_lt.2 h3, not_lt.2 h4]

/-- A tick in which the slow cue ball reaches the left cushion: after the reflection
no component exceeds the threshold, the turn is resolved and the cue ball keeps the
reflected velocity. -/
theorem bounce_tick {x y vx vy x1 y1 vx1 : ℚ} {s : GameState}
    (h : CueShot x y vx vy s)
    (hint : integrateBall (1249 / 1250) (1 / 125)
        { cueBall 0 with x := x, y := y, vx := vx, vy := vy } =
      { cueBall 0 with x := x1, y := y1, vx := vx1, vy := 0 })
    (hx1 : x1 < -(77 / 100)) (hy1 : |y1| ≤ 63 / 500)
    (hv : |vx1| * (4 / 5) ≤ 1 / 125) :
    (update evalLibm s).ballsMoving = false ∧ (update evalLibm s).gameOver = false ∧
    (update evalLibm s).ball 0 =
      { cueBall 0 with x := -(77 / 100), y := y1, vx := -vx1 * (4 / 5), vy := 0 } := by
  have hcush : cushionBall (-(8 / 5) / 2) (8 / 5 / 2) (4 / 5 / 2) (-(4 / 5) / 2)
      { cueBall 0 with x := x1, y := y1, vx := vx1, vy := 0 } =
      { cueBall 0 with x := -(77 / 100), y := y1, vx := -vx1 * (4 / 5), vy := 0 } := by
    rw [abs_le] at hy1
    have hl := cushionBall_left (-(8 / 5) / 2) (8 / 5 / 2) (4 / 5 / 2) (-(4 / 5) / 2)
      { cueBall 0 with x := x1, y := y1, vx := vx1, vy := 0 } rfl
      (by show x1 - ballRadius < -(8 / 5) / 2; unfold ballRadius; linarith)
      (by show -(8 / 5) / 2 + ballRadius + ballRadius ≤ 8 / 5 / 2; unfold ballRadius; norm_num)
      (by show -(4 / 5) / 2 ≤ y1 - ballRadius; unfold ballRadius; linarith [hy1.1])
      (by show y1 + ballRadius ≤ 4 / 5 / 2; unfold ballRadius; linarith [hy1.2])
    rw [hl]
    have hx : -(8 / 5 : ℚ) / 2 + ballRadius = -(77 / 100) := by
      unfold ballRadius
      norm_num
    show ({ cueBall 0 with
      x := -(8 / 5) / 2 + ballRadius, y := y1, vx := -vx1 * (4 / 5), vy := 0 } : Ball) = _
    rw [hx]
  have hp := cueShot_passes h hint hcush (by linarith) hy1
  have hstop : allBallsStopped (tickPasses evalLibm s) = true := by
    apply allBallsStopped_of_bound
    intro k _
    rw [hp.minVelocity]
    by_cases hk : k = 0
    · subst hk
      rw [hp.cue]
      show |-vx1 * (4 / 5)| ≤ 1 / 125 ∧ |(0 : ℚ)| ≤ 1 / 125
      refine ⟨?_, by norm_num⟩
      rw [abs_mul, abs_neg, abs_of_pos (by norm_num : (0 : ℚ) < 4 / 5)]
      exact hv
    · rw [hp.rack k (by omega), (startState_atRest k).1, (startState_atRest k).2]
      norm_num
  have hu := update_resolves evalLibm s h.ballsMoving h.gameOver hstop
  rw [hu]
  refine ⟨(resolveTurn_aiming _).2.1, (resolveTurn_gameOver _).1.trans hp.gameOver, ?_⟩
  rw [ball_congr (resolveTurn_balls _)]
  exact hp.cue

theorem integrateBall_cue (x y vx vy : ℚ) (h1 : 1 / 125 ≤ |vx * (1249 / 1250)|)
    (h2 : |vy * (1249 / 1250)| < 1 / 125) :
    integrateBall (1249 / 1250) (1 / 125) { cueBall 0 with x := x, y := y, vx := vx, vy := vy } =
      { cueBall 0 with x := x + vx, y := y + vy, vx := vx * (1249 / 1250), vy := 0 } := by
  unfold integrateBall
  rw [if_neg (by simp [cueBall])]
  dsimp only
  rw [if_neg (not_lt.2 h1), if_pos h2]

/-- After `n` ticks of a shot in which only the cue ball moves, rolling left along a
horizontal line at a speed that stays above the threshold and short of the cushion. -/
theorem cueShot_run (n : ℕ) : ∀ (s : GameState) (x y v : ℚ), CueShot x y v 0 s → v < 0 →
    x ≤ -(2 / 5) → |y| ≤ 63 / 500 → 1 / 125 < -(v * (1249 / 1250) ^ n) →
    -(77 / 100) ≤ x + 1250 * v * (1 - (1249 / 1250) ^ n) →
    CueShot (x + 1250 * v * (1 - (1249 / 1250) ^ n)) y (v * (1249 / 1250) ^ n) 0
      ((update evalLibm)^[n] s) := by
  induction n with
  | zero =>
    intro s x y v h _ _ _ _ _
    simp only [pow_zero, sub_self, mul_zero, add_zero, mul_one, Function.iterate_zero, id]
    exact h
  | succ n ih =>
    intro s x y v h hv hx hy hfast hshort
    have hp0 : (0 : ℚ) < (1249 / 1250) ^ n := by positivity
    have hp1 : ((1249 / 1250 : ℚ)) ^ n ≤ 1 := pow_le_one₀ (by norm_num) (by norm_num)
    rw [pow_succ] at hfast hshort
    have hvf : 1 / 125 < -(v * (1249 / 1250)) := by nlinarith
    have hxv : -(77 / 100) ≤ x + v := by nlinarith
    have hint := integrateBall_cue x y v 0
      (by rw [abs_of_neg (by linarith)]; linarith) (by norm_num)
    rw [add_zero] at hint
    have h1 := quiet_tick h hint (by linarith) hxv hy
      (by rw [abs_of_neg (by linarith)]; exact hvf)
    have h2 := ih (update evalLibm s) (x + v) y (v * (1249 / 1250)) h1 (by linarith)
      (by linarith) hy (by nlinarith) (by nlinarith)
    have e1 : x + v + 1250 * (v * (1249 / 1250)) * (1 - (1249 / 1250) ^ n) =
        x + 1250 * v * (1 - (1249 / 1250) ^ (n + 1)) := by ring
    have e2 : v * (1249 / 1250) * (1249 / 1250) ^ n = v * (1249 / 1250) ^ (n + 1) := by ring
    rw [e1, e2] at h2
    rw [Function.iterate_succ_apply]
    exact h2

theorem mouseMotion_drag (m : Libm) (w h : ℚ) (x y : Int) (g : GameState)
    (h1 : g.ballsMoving = false) (h2 : g.cueAiming = true) (h3 : g.cueDragging = true) :
    mouseMotion m w h x y g =
      { g with
        cueAngle := m.atan2 (1 - 2 * (y : ℚ) / h - (g.ball 0).y) (2 * (x : ℚ) / w - 1 - (g.ball 0).x)
        cuePower := min (m.sqrt ((2 * (x : ℚ) / w - 1 - (g.ball 0).x) *
            (2 * (x : ℚ) / w - 1 - (g.ball 0).x) +
          (1 - 2 * (y : ℚ) / h - (g.ball 0).y) * (1 - 2 * (y : ℚ) / h - (g.ball 0).y)))
          g.maxCuePower } := by
  unfold mouseMotion
  simp [h1, h2, h3]

theorem shoot_ball (m : Libm) (g : GameState) (k : Nat) :
    (shoot m g).ball k =
      if 0 = k ∧ 0 < g.balls.length then
        { g.ball 0 with vx := m.cos (g.cueAngle + PI) * g.cuePower * (1 / 2),
                        vy := m.sin (g.cueAngle + PI) * g.cuePower * (1 / 2) }
      else g.ball k := by
  have h : (shoot m g).ball k =
      ((g.modBall 0 (fun b => { b with vx := m.cos (g.cueAngle + PI) * g.cuePower * (1 / 2) })).modBall
        0 (fun b => { b with vy := m.sin (g.cueAngle + PI) * g.cuePower * (1 / 2) })).ball k := rfl
  rw [h, ball_modBall, length_modBall]
  by_cases hk : 0 = k ∧ 0 < g.balls.length
  · rw [if_pos hk, if_pos hk, ball_modBall, if_pos ⟨rfl, hk.2⟩]
  · rw [if_neg hk, if_neg hk, ball_modBall, if_neg hk]

theorem dragStarted_eq : dragStarted = { startState 0 with cueDragging := true } := rfl

theorem dragStarted_ball (k : Nat) : dragStarted.ball k = (startState 0).ball k := rfl

theorem slowAim_eq : slowAim = { dragStarted with cueAngle := 0, cuePower := 1 / 50 } := by
  unfold slowAim
  rw [mouseMotion_drag evalLibm 800 600 248 300 dragStarted rfl rfl rfl]
  have hb : dragStarted.ball 0 = cueBall 0 := by
    rw [dragStarted_ball, startState_ball]
    rfl
  have hm : dragStarted.maxCuePower = 1 / 20 := rfl
  rw [hb, hm]
  have ha : evalLibm.atan2 (1 - 2 * ((300 : Int) : ℚ) / 600 - (cueBall 0).y)
      (2 * ((248 : Int) : ℚ) / 800 - 1 - (cueBall 0).x) = 0 := by
    norm_num [evalLibm, ratAtan2, ratAtan, cueBall]
  have hp : min (evalLibm.sqrt ((2 * ((248 : Int) : ℚ) / 800 - 1 - (cueBall 0).x) *
        (2 * ((248 : Int) : ℚ) / 800 - 1 - (cueBall 0).x) +
      (1 - 2 * ((300 : Int) : ℚ) / 600 - (cueBall 0).y) *
        (1 - 2 * ((300 : Int) : ℚ) / 600 - (cueBall 0).y))) (1 / 20) = 1 / 50 := by
    norm_num [evalLibm, ratSqrt, cueBall]
  rw [ha, hp]
  rfl

theorem slowShot_eq : slowShot = shoot evalLibm slowAim := by
  unfold slowShot mouseClick
  rw [slowAim_eq]
  rfl

theorem ratCos_pi : -1 ≤ ratCos (0 + PI) ∧ ratCos (0 + PI) ≤ -(999 / 1000) := by
  norm_num [ratCos, PI, List.range_succ, Nat.factorial]

theorem ratSin_pi : 0 ≤ ratSin (0 + PI) ∧ ratSin (0 + PI) ≤ 1 / 100 := by
  norm_num [ratSin, PI, List.range_succ, Nat.factorial]

theorem slowAim_ball (k : Nat) : slowAim.ball k = (startState 0).ball k := by
  rw [slowAim_eq]
  exact dragStarted_ball k

theorem slowShot_cueShot :
    CueShot (-(2 / 5)) 0 (ratCos (0 + PI) * (1 / 50) * (1 / 2))
      (ratSin (0 + PI) * (1 / 50) * (1 / 2)) slowShot := by
  have hlen : slowAim.balls.length = 16 := by
    rw [slowAim_eq]
    exact startState_length 0
  have ha : slowAim.cueAngle = 0 := by rw [slowAim_eq]
  have hp : slowAim.cuePower = 1 / 50 := by rw [slowAim_eq]
  have hrules : slowShot.pockets = (startState 0).pockets ∧ slowShot.tableWidth = 8 / 5 ∧
      slowShot.tableHeight = 4 / 5 ∧ slowShot.friction = 1249 / 1250 ∧
      slowShot.minVelocity = 1 / 125 ∧ slowShot.ballsMoving = true ∧
      slowShot.gameOver = false := by
    rw [slowShot_eq, slowAim_eq]
    exact ⟨rfl, rfl, rfl, rfl, rfl, rfl, rfl⟩
  obtain ⟨h1, h2, h3, h4, h5, h6, h7⟩ := hrules
  refine ⟨?_, ?_, ?_, h1, h2, h3, h4, h5, h6, h7⟩
  · rw [slowShot_eq, shoot_ball, if_pos ⟨rfl, by rw [hlen]; decide⟩, slowAim_ball,
      startState_ball, ha, hp]
    rfl
  · intro k hk
    rw [slowShot_eq, shoot_ball, if_neg (by omega), slowAim_ball]
  · rw [slowShot_eq]
    exact (shoot_keepsSplit evalLibm slowAim).length.trans hlen

theorem matchRun_ticks (m : Libm) (n : ℕ) {g h : GameState} (hr : MatchRun m g h) :
    MatchRun m g ((update m)^[n] h) := by
  induction n with
  | zero => exact hr
  | succ n ih =>
    rw [Function.iterate_succ_apply']
    exact ih.step (MatchStep.play (PlayStep.tick _))

theorem slowBounce_attainable : Attainable evalLibm slowBounce := by
  have r1 : MatchRun evalLibm (startState 0) dragStarted :=
    (MatchRun.refl _).step
      (MatchStep.play (PlayStep.click (startState 0) GLUT_LEFT_BUTTON GLUT_DOWN))
  have r2 : MatchRun evalLibm (startState 0) slowAim :=
    r1.step (MatchStep.play (PlayStep.aim dragStarted 800 600 248 300))
  have r3 : MatchRun evalLibm (startState 0) slowShot :=
    r2.step (MatchStep.play (PlayStep.click slowAim GLUT_LEFT_BUTTON GLUT_UP))
  exact ⟨0, matchRun_ticks evalLibm 38 r3⟩

theorem slowBounce_cue :
    slowBounce.ballsMoving = false ∧ slowBounce.gameOver = false ∧
    (slowBounce.ball 0).active = true ∧ 0 < (slowBounce.ball 0).vx := by
  obtain ⟨hC1, hC2⟩ := ratCos_pi
  obtain ⟨hS1, hS2⟩ := ratSin_pi
  have h0 := slowShot_cueShot
  generalize ratCos (0 + PI) = C at hC1 hC2 h0
  generalize ratSin (0 + PI) = S at hS1 hS2 h0
  have hp : (9715 / 10000 : ℚ) ≤ (1249 / 1250) ^ 36 ∧ ((1249 / 1250 : ℚ)) ^ 36 ≤ 9717 / 10000 := by
    norm_num
  have hint1 := integrateBall_cue (-(2 / 5)) 0 (C * (1 / 50) * (1 / 2)) (S * (1 / 50) * (1 / 2))
    (by rw [abs_of_neg (by linarith)]; linarith)
    (by rw [abs_of_nonneg (by linarith)]; linarith)
  have h1 := quiet_tick h0 hint1 (by linarith) (by linarith)
    (by rw [abs_of_nonneg (by linarith)]; linarith)
    (by rw [abs_of_neg (by linarith)]; linarith)
  have hy : |0 + S * (1 / 50) * (1 / 2)| ≤ 63 / 500 := by
    rw [abs_of_nonneg (by linarith)]
    linarith
  have h37 := cueShot_run 36 _ _ _ _ h1 (by linarith) (by linarith) hy
    (by nlinarith) (by nlinarith)
  generalize ((1249 / 1250 : ℚ)) ^ 36 = p at hp h37
  obtain ⟨hp1, hp2⟩ := hp
  have hv37 : C * (1 / 50) * (1 / 2) * (1249 / 1250) * p * (1249 / 1250) < 0 := by
    have : 0 < -C * p := by nlinarith
    nlinarith
  have hint2 := integrateBall_cue
    (-(2 / 5) + C * (1 / 50) * (1 / 2) +
      1250 * (C * (1 / 50) * (1 / 2) * (1249 / 1250)) * (1 - p))
    (0 + S * (1 / 50) * (1 / 2)) (C * (1 / 50) * (1 / 2) * (1249 / 1250) * p) 0
    (by rw [abs_of_neg hv37]; nlinarith) (by norm_num)
  rw [add_zero] at hint2
  have hb := bounce_tick h37 hint2 (by nlinarith) hy
    (by rw [abs_of_neg hv37]; nlinarith)
  have he : slowBounce = update evalLibm ((update evalLibm)^[36] (update evalLibm slowShot)) := by
    unfold slowBounce
    rw [show 38 = 37 + 1 from rfl, Function.iterate_succ_apply', show 37 = 36 + 1 from rfl,
      Function.iterate_succ_apply]
  rw [he]
  refine ⟨hb.1, hb.2.1, ?_, ?_⟩
  · rw [hb.2.2]
    rfl
  · rw [hb.2.2]
    show 0 < -(C * (1 / 50) * (1 / 2) * (1249 / 1250) * p * (1249 / 1250)) * (4 / 5)
    linarith

/-- C19 (counterexample). The slow shot: at the start of a match the button is
pressed, the pointer is moved 0.02 to the right of the cue ball and the button is
released; the cue ball rolls left at about 0.01 per tick and reaches the left cushion
in the 38th tick at a speed between the threshold and the threshold divided by the
cushion restitution.  The state after that tick is reached by play, is in the aiming
state, and its active cue ball has a velocity component that is not zero. -/
theorem aiming_with_residual_velocity :
    Attainable evalLibm slowBounce ∧ slowBounce.ballsMoving = false ∧
    slowBounce.gameOver = false ∧ (slowBounce.ball 0).active = true ∧
    (slowBounce.ball 0).vx ≠ 0 :=
  ⟨slowBounce_attainable, slowBounce_cue.1, slowBounce_cue.2.1, slowBounce_cue.2.2.1,
    ne_of_gt slowBounce_cue.2.2.2⟩

theorem aiming_means_slow_witness :
    (Attainable evalLibm slowBounce ∧ slowBounce.ballsMoving = false ∧
      slowBounce.gameOver = false ∧ (slowBounce.ball 0).active = true) ∧
    |(slowBounce.ball 0).vx| ≤ 1 / 125 :=
  ⟨⟨slowBounce_attainable, slowBounce_cue.1, slowBounce_cue.2.1, slowBounce_cue.2.2.1⟩,
    (aiming_means_slow evalLibm slowBounce slowBounce_attainable slowBounce_cue.1
      slowBounce_cue.2.1 0 slowBounce_cue.2.2.1).1⟩

/-! ## C21: one capture per ball and pass -/

theorem evalLibm_sqrtBelow (r : ℚ) (n : ℕ) (hr : r = (n : ℚ) / 10 ^ 9) :
    SqrtBelow evalLibm r := by
  intro q hq
  by_contra hc
  exact absurd (le_ratSqrt q r n hr (not_lt.1 hc)) (not_le.2 hq)

theorem inPocket_inDisc (m : Libm) (i j : Nat) (g : GameState)
    (hm : SqrtBelow m (g.pocket j).radius) (h : inPocket m i j g = true) :
    InDisc (g.pocket j) (g.ball i).x (g.ball i).y := by
  unfold inPocket at h
  dsimp only at h
  rw [decide_eq_true_iff] at h
  exact hm _ h

theorem disc_bounds (p : Pocket) (x y : ℚ) (hr : 0 ≤ p.radius) (h : InDisc p x y) :
    p.x - p.radius < x ∧ x < p.x + p.radius ∧ p.y - p.radius < y ∧ y < p.y + p.radius := by
  unfold InDisc at h
  have hx : (x - p.x) ^ 2 < p.radius ^ 2 := by nlinarith [mul_self_nonneg (y - p.y)]
  have hy : (y - p.y) ^ 2 < p.radius ^ 2 := by nlinarith [mul_self_nonneg (x - p.x)]
  have hx2 := abs_lt_of_sq_lt_sq' hx hr
  have hy2 := abs_lt_of_sq_lt_sq' hy hr
  refine ⟨?_, ?_, ?_, ?_⟩ <;> linarith [hx2.1, hx2.2, hy2.1, hy2.2]

theorem startState_pocket_eq (j : Nat) :
    (startState 0).pocket j =
      [ ({ x := -(33 / 40), y := 17 / 40, radius := 2 / 25 } : Pocket),
        { x := 0, y := 17 / 40, radius := 2 / 25 },
        { x := 33 / 40, y := 17 / 40, radius := 2 / 25 },
        { x := 33 / 40, y := -(17 / 40), radius := 2 / 25 },
        { x := 0, y := -(17 / 40), radius := 2 / 25 },
        { x := -(33 / 40), y := -(17 / 40), radius := 2 / 25 } ].getD j default := by
  unfold GameState.pocket
  rw [startState_pockets]

/-- The six capture discs are pairwise disjoint. -/
theorem discs_disjoint (j k : Nat) (hjk : j < k) (hk : k < 6) (x y : ℚ)
    (h1 : InDisc ((startState 0).pocket j) x y) : ¬ InDisc ((startState 0).pocket k) x y := by
  intro h2
  have hr1 := (startState_pocket j (by omega)).1
  have hr2 := (startState_pocket k hk).1
  have b1 := disc_bounds _ x y (by rw [hr1]; norm_num) h1
  have b2 := disc_bounds _ x y (by rw [hr2]; norm_num) h2
  rw [hr1] at b1
  rw [hr2] at b2
  rw [startState_pocket_eq] at b1 b2
  interval_cases k <;> interval_cases j <;>
    simp only [List.getD_cons_succ, List.getD_cons_zero] at b1 b2 <;>
    linarith [b1.1, b1.2.1, b1.2.2.1, b1.2.2.2, b2.1, b2.2.1, b2.2.2.1, b2.2.2.2]

/-- No capture disc contains a point of the horizontal axis of the table, where the
break spot lies. -/
theorem axis_outside_discs (j : Nat) (hj : j < 6) (x : ℚ) :
    ¬ InDisc ((startState 0).pocket j) x 0 := by
  intro h
  obtain ⟨hr, hy⟩ := startState_pocket j hj
  have b := disc_bounds _ x 0 (by rw [hr]; norm_num) h
  rw [hr] at b
  rcases hy with hy | hy <;> rw [hy] at b <;> linarith [b.2.2.1, b.2.2.2]

theorem innerLoop_frame (m : Libm) (i n : Nat) (g : GameState) :
    PocketFrame g (forLoop (List.range n) (pocketStep m i) g) :=
  forLoop_pocketFrame _ _ (fun j s => pocketStep_frame m i j s) g

theorem innerLoop_succ (m : Libm) (i n : Nat) (g : GameState) :
    forLoop (List.range (n + 1)) (pocketStep m i) g =
      pocketStep m i n (forLoop (List.range n) (pocketStep m i) g) := by
  rw [List.range_succ, forLoop_append]
  rfl

theorem capturedAt_other (m : Libm) (i j : Nat) (g : GameState) (hi : i ≠ 0) :
    capturedAt m i j g = inPocket m i j g := by
  have hf := innerLoop_frame m i j g
  unfold capturedAt
  exact inPocket_congr m i j (hf.motion i hi).1 (hf.motion i hi).2.1 hf.table.pockets

theorem default_ball_origin : (default : Ball).x = 0 ∧ (default : Ball).y = 0 := ⟨rfl, rfl⟩

/-- Once the cue ball has been captured at pocket `j`, the inner loop holds it on the
break spot. -/
theorem scratched_after (m : Libm) (j : Nat) (g : GameState) (hlen : 0 < g.balls.length)
    (h : capturedAt m 0 j g = true) (n : Nat) (hn : j < n) :
    Scratched (forLoop (List.range n) (pocketStep m 0) g) := by
  induction n with
  | zero => omega
  | succ n ih =>
    rw [innerLoop_succ]
    by_cases hjn : j = n
    · subst hjn
      exact scratched_first m j _
        (by rw [(innerLoop_frame m 0 j g).table.length]; exact hlen) h
    · exact scratched_step_zero m n (ih (by omega))

/-- C21. With a library square root that is below the capture radius 0.08 only on
arguments below its square, and the six pockets built by `initializePockets`: the six
capture discs are pairwise disjoint, the break spot lies in none of them, and in the
inner loop of the pocket pass over the pockets, started in any state and for any ball
at any position, the capture branch runs for at most one pocket. -/
theorem captured_at_most_once (m : Libm) (hm : SqrtBelow m (2 / 25)) (g : GameState)
    (hp : g.pockets = (startState 0).pockets) :
    (∀ j k x y, j < k → k < 6 →
      ¬ (InDisc ((startState 0).pocket j) x y ∧ InDisc ((startState 0).pocket k) x y)) ∧
    (∀ j, j < 6 → ¬ InDisc ((startState 0).pocket j) (-(2 / 5)) 0) ∧
    (∀ i j k, j < k → k < 6 → capturedAt m i j g = true → capturedAt m i k g = false) := by
  refine ⟨fun j k x y hjk hk h => discs_disjoint j k hjk hk x y h.1 h.2,
    fun j hj => axis_outside_discs j hj _, ?_⟩
  intro i j k hjk hk hcap
  have hpk : ∀ (s : GameState) (n : Nat), s.pockets = (startState 0).pockets →
      s.pocket n = (startState 0).pocket n := by
    intro s n hs
    unfold GameState.pocket
    rw [hs]
  have hdisc : ∀ (s : GameState) (n : Nat), s.pockets = (startState 0).pockets → n < 6 →
      inPocket m i n s = true → InDisc ((startState 0).pocket n) (s.ball i).x (s.ball i).y := by
    intro s n hs hn hin
    have h := inPocket_inDisc m i n s
      (by rw [hpk s n hs, (startState_pocket n hn).1]; exact hm) hin
    rw [hpk s n hs] at h
    exact h
  rw [Bool.eq_false_iff]
  intro hcap2
  by_cases hi : i = 0
  · subst hi
    have hfk := innerLoop_frame m 0 k g
    have hd := hdisc _ k (hfk.table.pockets.trans hp) hk hcap2
    by_cases hlen : 0 < g.balls.length
    · have hs := scratched_after m j g hlen hcap k hjk
      rw [hs.x, hs.y] at hd
      exact axis_outside_discs k hk _ hd
    · have hb : (forLoop (List.range k) (pocketStep m 0) g).ball 0 = default :=
        ball_default_of_length_le _ _ (by rw [hfk.table.length]; omega)
      rw [hb, default_ball_origin.1, default_ball_origin.2] at hd
      exact axis_outside_discs k hk _ hd
  · rw [capturedAt_other m i j g hi] at hcap
    rw [capturedAt_other m i k g hi] at hcap2
    exact discs_disjoint j k hjk hk _ _ (hdisc g j hp (by omega) hcap) (hdisc g k hp hk hcap2)

theorem cueAtPocket_captured : capturedAt evalLibm 0 0 cueAtPocket = true := by
  have hb : cueAtPocket.ball 0 = { cueBall 0 with x := -(33 / 40), y := 17 / 40 } := by
    unfold cueAtPocket
    rw [ball_modBall, startState_length, if_pos ⟨rfl, by decide⟩, startState_ball]
    rfl
  have hp : cueAtPocket.pockets = (startState 0).pockets := rfl
  show inPocket evalLibm 0 0 cueAtPocket = true
  unfold inPocket GameState.pocket
  rw [hb, hp, startState_pockets]
  norm_num [evalLibm, ratSqrt]

theorem captured_at_most_once_witness :
    (SqrtBelow evalLibm (2 / 25) ∧ cueAtPocket.pockets = (startState 0).pockets) ∧
    capturedAt evalLibm 0 0 cueAtPocket = true ∧ capturedAt evalLibm 0 1 cueAtPocket = false :=
  ⟨⟨evalLibm_sqrtBelow _ 80000000 (by norm_num), rfl⟩, cueAtPocket_captured,
    (captured_at_most_once evalLibm (evalLibm_sqrtBelow _ 80000000 (by norm_num)) cueAtPocket
      rfl).2.2 0 0 1 (by decide) (by decide) cueAtPocket_captured⟩

/-! ## C26: the opening layout -/

theorem openingLayout_ball (c : Int) (g : GameState) (k : Nat) :
    (openingLayout c g).ball k = (startState c).ball k := by
  rw [startState_ball]
  unfold GameState.ball openingLayout
  have h : (initializePockets (initializeBalls c g)).balls = (initializeBalls c g).balls := by
    simp only [initializePockets]
  rw [h, initializeBalls_balls]

theorem startState_ball_succ (c : Int) (k : Nat) (hk : 1 ≤ k) :
    (startState c).ball k = (startState 0).ball k := by
  rw [startState_ball, startState_ball]
  obtain ⟨n, rfl⟩ : ∃ n, k = n + 1 := ⟨k - 1, by omega⟩
  simp only [List.getD_cons_succ]

theorem startState_ball_zero (c : Int) : (startState c).ball 0 = cueBall c := by
  rw [startState_ball]
  rfl

theorem openingLayout_rules (c : Int) (g : GameState) (hw : g.tableWidth = 8 / 5)
    (hh : g.tableHeight = 4 / 5) (ht : g.cushionThickness = 1 / 20) :
    (openingLayout c g).balls.length = 16 ∧
    (openingLayout c g).pockets = (startState 0).pockets ∧
    (openingLayout c g).tableWidth = 8 / 5 ∧ (openingLayout c g).tableHeight = 4 / 5 := by
  refine ⟨?_, ?_, ?_, ?_⟩
  · have h : (openingLayout c g).balls = (initializeBalls c g).balls := by
      simp only [openingLayout, initializePockets]
    rw [h, initializeBalls_balls]
    rfl
  · rw [startState_pockets]
    unfold openingLayout initializePockets
    simp only [initializeBalls, hw, hh, ht]
    norm_num
  · simp only [openingLayout, initializePockets, initializeBalls]
    exact hw
  · simp only [openingLayout, initializePockets, initializeBalls]
    exact hh

/-- Facts about each of the sixteen balls of the start of a match. -/
theorem start_ball_facts (c : Int) (k : Nat) (hk : k < 16) :
    ((startState c).ball k).active = true ∧ ((startState c).ball k).radius = 3 / 100 ∧
    ((startState c).ball k).vx = 0 ∧ ((startState c).ball k).vy = 0 ∧
    -(2 / 5) ≤ ((startState c).ball k).x ∧ ((startState c).ball k).x ≤ 31 / 50 ∧
    |((startState c).ball k).y| ≤ 63 / 500 := by
  by_cases h0 : k = 0
  · subst h0
    rw [startState_ball_zero]
    refine ⟨rfl, ?_, rfl, rfl, ?_, ?_, ?_⟩ <;> norm_num [cueBall, ballRadius]
  · have h1 : 1 ≤ k := by omega
    rw [startState_ball_succ c k h1]
    obtain ⟨a, r, x1, x2, y⟩ := rack_facts k h1 hk
    exact ⟨a, r, (startState_atRest k).1, (startState_atRest k).2, by linarith, x2, y⟩

/-- The squared distance of the centres of two balls of the start of a match is at
least the square of the sum of their radii. -/
theorem start_apart (c : Int) (i j : Nat) (hij : i < j) (hj : j < 16) :
    (((startState c).ball i).radius + ((startState c).ball j).radius) ^ 2 ≤
      (((startState c).ball j).x - ((startState c).ball i).x) *
        (((startState c).ball j).x - ((startState c).ball i).x) +
      (((startState c).ball j).y - ((startState c).ball i).y) *
        (((startState c).ball j).y - ((startState c).ball i).y) := by
  have hr : ((startState c).ball i).radius + ((startState c).ball j).radius = 3 / 50 := by
    rw [(start_ball_facts c i (by omega)).2.1, (start_ball_facts c j hj).2.1]
    norm_num
  rw [hr]
  have hj1 : 1 ≤ j := by omega
  by_cases hi : i = 0
  · subst hi
    have hx := (rack_facts j hj1 hj).2.2.1
    rw [startState_ball_succ c j hj1, startState_ball_zero]
    show (3 / 50 : ℚ) ^ 2 ≤ (((startState 0).ball j).x - -(2 / 5)) *
      (((startState 0).ball j).x - -(2 / 5)) +
      (((startState 0).ball j).y - 0) * (((startState 0).ball j).y - 0)
    nlinarith [mul_self_nonneg (((startState 0).ball j).y - 0)]
  · have hi1 : 1 ≤ i := by omega
    rw [startState_ball_succ c i hi1, startState_ball_succ c j hj1]
    exact rack_apart i j hi1 hij hj

theorem start_outside_discs (c : Int) (k j : Nat) (hk : k < 16) (hj : j < 6) :
    ¬ InDisc ((startState 0).pocket j) ((startState c).ball k).x ((startState c).ball k).y := by
  intro h
  obtain ⟨hr, hy⟩ := startState_pocket j hj
  have b := disc_bounds _ _ _ (by rw [hr]; norm_num) h
  have hb := (start_ball_facts c k hk).2.2.2.2.2.2
  rw [abs_le] at hb
  rw [hr] at b
  rcases hy with hy | hy <;> rw [hy] at b <;> linarith [b.2.2.1, b.2.2.2, hb.1, hb.2]

theorem start_active_lt (c : Int) (k : Nat) (h : ((startState c).ball k).active = true) :
    k < 16 := by
  by_contra hc
  rw [ball_default_of_length_le _ _ (by rw [startState_length]; omega)] at h
  exact Bool.noConfusion h

/-- C26. On the table of 1.6 by 0.8 with cushion thickness 0.05, `initializeBalls`
followed by `initializePockets` yields sixteen balls, all active, at rest and of radius
0.03; the distance of the centres of any two of them is at least the sum of their radii;
every ball lies wholly inside the cushion bounds; no centre lies in a capture disc of
one of the six pockets.  Hence, for every library square root that is below 0.06 and
below 0.08 only on arguments below their squares, the ball-collision pass, the cushion
pass and the pocket pass leave the layout as it is. -/
theorem opening_layout_is_legal (c : Int) (g : GameState) (hw : g.tableWidth = 8 / 5)
    (hh : g.tableHeight = 4 / 5) (ht : g.cushionThickness = 1 / 20) :
    (openingLayout c g).balls.length = 16 ∧ (openingLayout c g).pockets.length = 6 ∧
    (∀ k, k < 16 → ((openingLayout c g).ball k).active = true ∧
      ((openingLayout c g).ball k).vx = 0 ∧ ((openingLayout c g).ball k).vy = 0 ∧
      ((openingLayout c g).ball k).radius = 3 / 100) ∧
    (∀ i j, i < j → j < 16 →
      (((openingLayout c g).ball i).radius + ((openingLayout c g).ball j).radius) ^ 2 ≤
        (((openingLayout c g).ball j).x - ((openingLayout c g).ball i).x) ^ 2 +
        (((openingLayout c g).ball j).y - ((openingLayout c g).ball i).y) ^ 2 ∧
      ((((openingLayout c g).ball i).radius + ((openingLayout c g).ball j).radius : ℚ) : ℝ) ≤
        Real.sqrt (((((openingLayout c g).ball j).x - ((openingLayout c g).ball i).x) ^ 2 +
          (((openingLayout c g).ball j).y - ((openingLayout c g).ball i).y) ^ 2 : ℚ) : ℝ)) ∧
    (∀ k, k < 16 → InsideTable (openingLayout c g) ((openingLayout c g).ball k)) ∧
    (∀ k j, k < 16 → j < 6 →
      ¬ InDisc ((openingLayout c g).pocket j) ((openingLayout c g).ball k).x
        ((openingLayout c g).ball k).y) ∧
    (∀ m, SqrtBelow m (3 / 50) → SqrtBelow m (2 / 25) →
      handleBallCollisions m (openingLayout c g) = openingLayout c g ∧
      (∀ k, (handleCushionCollisions (openingLayout c g)).ball k = (openingLayout c g).ball k) ∧
      checkPockets m (openingLayout c g) = openingLayout c g) := by
  obtain ⟨hlen, hpk, htw, hth⟩ := openingLayout_rules c g hw hh ht
  have hpj : ∀ j, (openingLayout c g).pocket j = (startState 0).pocket j := by
    intro j
    unfold GameState.pocket
    rw [hpk]
  have hsq : ∀ i j, i < j → j < 16 →
      (((openingLayout c g).ball i).radius + ((openingLayout c g).ball j).radius) ^ 2 ≤
        (((openingLayout c g).ball j).x - ((openingLayout c g).ball i).x) ^ 2 +
        (((openingLayout c g).ball j).y - ((openingLayout c g).ball i).y) ^ 2 := by
    intro i j hij hj
    rw [openingLayout_ball, openingLayout_ball, sq (_ - _), sq (_ - _)]
    exact start_apart c i j hij hj
  have hinside : ∀ k, k < 16 → InsideTable (openingLayout c g) ((openingLayout c g).ball k) := by
    intro k hk
    obtain ⟨_, hr, _, _, x1, x2, hy⟩ := start_ball_facts c k hk
    rw [abs_le] at hy
    unfold InsideTable
    rw [htw, hth, openingLayout_ball, hr]
    refine ⟨?_, ?_, ?_, ?_⟩ <;> linarith [hy.1, hy.2]
  have hdisc : ∀ k j, k < 16 → j < 6 →
      ¬ InDisc ((openingLayout c g).pocket j) ((openingLayout c g).ball k).x
        ((openingLayout c g).ball k).y := by
    intro k j hk hj
    rw [hpj, openingLayout_ball]
    exact start_outside_discs c k j hk hj
  refine ⟨hlen, by rw [hpk, startState_pockets]; rfl, ?_, ?_, hinside, hdisc, ?_⟩
  · intro k hk
    obtain ⟨a, r, vx, vy, _⟩ := start_ball_facts c k hk
    rw [openingLayout_ball]
    exact ⟨a, vx, vy, r⟩
  · intro i j hij hj
    refine ⟨hsq i j hij hj, ?_⟩
    apply Real.le_sqrt_of_sq_le
    exact_mod_cast hsq i j hij hj
  · intro m hm1 hm2
    refine ⟨?_, ?_, ?_⟩
    · apply handleBallCollisions_apart
      intro i j hij _ hj hov
      rw [openingLayout_ball] at hj
      have hj16 := start_active_lt c j hj
      have hr : ((openingLayout c g).ball i).radius + ((openingLayout c g).ball j).radius =
          3 / 50 := by
        rw [openingLayout_ball, openingLayout_ball, (start_ball_facts c i (by omega)).2.1,
          (start_ball_facts c j hj16).2.1]
        norm_num
      have h1 := hsq i j hij hj16
      unfold Overlapping pairDistance at hov
      rw [hr] at hov h1
      have h2 := hm1 _ hov
      rw [sq (_ - _), sq (_ - _)] at h1
      exact absurd h2 (not_lt.2 h1)
    · intro k
      rw [handleCushionCollisions_ball]
      apply cushionBall_inside
      intro hact
      rw [openingLayout_ball] at hact
      have h := hinside k (start_active_lt c k hact)
      unfold InsideTable at h
      refine ⟨?_, ?_, ?_, ?_⟩ <;> linarith [h.1, h.2.1, h.2.2.1, h.2.2.2]
    · apply checkPockets_miss
      intro i j hact hj
      rw [openingLayout_ball] at hact
      rw [hpk, startState_pockets] at hj
      have hj6 : j < 6 := hj
      rw [Bool.eq_false_iff]
      intro hin
      exact hdisc i j (start_active_lt c i hact) hj6
        (inPocket_inDisc m i j _ (by rw [hpj, (startState_pocket j hj6).1]; exact hm2) hin)

theorem opening_layout_is_legal_witness :
    ((({} : GameState).tableWidth = 8 / 5 ∧ ({} : GameState).tableHeight = 4 / 5 ∧
      ({} : GameState).cushionThickness = 1 / 20) ∧
    (openingLayout 0 {}).balls.length = 16 ∧
    checkPockets evalLibm (openingLayout 0 {}) = openingLayout 0 {}) :=
  ⟨⟨rfl, rfl, rfl⟩, (opening_layout_is_legal 0 {} rfl rfl rfl).1,
    ((opening_layout_is_legal 0 {} rfl rfl rfl).2.2.2.2.2.2 evalLibm
      (evalLibm_sqrtBelow _ 60000000 (by norm_num))
      (evalLibm_sqrtBelow _ 80000000 (by norm_num))).2.2⟩

/-! ## C22: the two restitution coefficients -/

/-- The relative velocity of a resolved pair along the normal of the impact is the
incoming one times `-(1 + 2 * elasticity)`, when the normal has length one. -/
theorem collidePair_rebound (m : Libm) (i j : Nat) (g : GameState)
    (hact : (g.ball j).active = true) (hov : Overlapping m i j g)
    (hvn : ¬ (velAlongNormal m i j g > 0)) (hij : i ≠ j)
    (hi : i < g.balls.length) (hj : j < g.balls.length)
    (hunit : normalX m i j g ^ 2 + normalY m i j g ^ 2 = 1) :
    (((collidePair m i j g).ball j).vx - ((collidePair m i j g).ball i).vx) * normalX m i j g +
      (((collidePair m i j g).ball j).vy - ((collidePair m i j g).ball i).vy) * normalY m i j g =
      -(1 + 2 * elasticity) * velAlongNormal m i j g := by
  obtain ⟨h1, h2, h3, h4, _⟩ := collidePair_hit_ball m i j g hact hov hvn hij hi hj
  rw [h1, h2, h3, h4]
  have hv : velAlongNormal m i j g =
      ((g.ball j).vx - (g.ball i).vx) * normalX m i j g +
        ((g.ball j).vy - (g.ball i).vy) * normalY m i j g := rfl
  unfold elasticity
  rw [hv]
  linear_combination
    (-(11 / 5) * (((g.ball j).vx - (g.ball i).vx) * normalX m i j g +
      ((g.ball j).vy - (g.ball i).vy) * normalY m i j g)) * hunit

theorem integrateBall_fields (f mv : ℚ) (b : Ball) (hact : b.active = true) :
    (integrateBall f mv b).active = true ∧
    (integrateBall f mv b).x = b.x + b.vx ∧ (integrateBall f mv b).y = b.y + b.vy ∧
    (integrateBall f mv b).vx = snapStep f mv b.vx ∧
    (integrateBall f mv b).vy = snapStep f mv b.vy := by
  unfold integrateBall snapStep
  rw [if_neg (by simp [hact])]
  dsimp only
  by_cases h1 : |b.vx * f| < mv <;> by_cases h2 : |b.vy * f| < mv <;>
    simp only [h1, h2, if_true, if_false] <;>
    refine ⟨?_, ?_, ?_, ?_, ?_⟩ <;> first | exact hact | trivial

theorem snapStep_zero (f mv : ℚ) (hmv : 0 < mv) : snapStep f mv 0 = 0 := by
  unfold snapStep
  simp [hmv]

theorem snapStep_iterate (f mv v : ℚ) (hmv : 0 < mv) (n : ℕ) :
    (snapStep f mv)^[n] v = 0 ∨ (snapStep f mv)^[n] v = v * f ^ n := by
  induction n with
  | zero =>
    right
    simp
  | succ n ih =>
    rw [Function.iterate_succ_apply']
    rcases ih with h | h
    · left
      rw [h]
      exact snapStep_zero f mv hmv
    · rw [h]
      unfold snapStep
      split
      · exact Or.inl rfl
      · right
        ring

/-- A velocity component is exactly zero after finitely many integration steps, and
stays zero. -/
theorem snapStep_eventually_zero (f mv v : ℚ) (hf0 : 0 ≤ f) (hf1 : f < 1) (hmv : 0 < mv) :
    ∃ n, ∀ t, n ≤ t → (snapStep f mv)^[t] v = 0 := by
  by_cases hv : v = 0
  · refine ⟨0, fun t _ => ?_⟩
    rcases snapStep_iterate f mv v hmv t with h | h
    · exact h
    · rw [h, hv, zero_mul]
  · have hpos : 0 < mv / |v| := div_pos hmv (abs_pos.2 hv)
    obtain ⟨n, hn⟩ := exists_pow_lt_of_lt_one hpos hf1
    refine ⟨n + 1, ?_⟩
    intro t ht
    obtain ⟨s, rfl⟩ : ∃ s, t = s + 1 := ⟨t - 1, by omega⟩
    rw [Function.iterate_succ_apply']
    have hsmall : |v * f ^ (s + 1)| < mv := by
      rw [abs_mul, abs_of_nonneg (pow_nonneg hf0 _)]
      have hle : f ^ (s + 1) ≤ f ^ n :=
        pow_le_pow_of_le_one hf0 hf1.le (by omega)
      have h1 : |v| * f ^ (s + 1) ≤ |v| * f ^ n :=
        mul_le_mul_of_nonneg_left hle (abs_nonneg v)
      have h2 : |v| * f ^ n < mv := by
        rw [lt_div_iff₀ (abs_pos.2 hv)] at hn
        linarith
      linarith
    rcases snapStep_iterate f mv v hmv s with h | h
    · rw [h]
      exact snapStep_zero f mv hmv
    · rw [h]
      unfold snapStep
      rw [if_pos (by rw [mul_assoc, ← pow_succ]; exact hsmall)]

theorem integrateBall_iterate (f mv : ℚ) (b : Ball) (hact : b.active = true) (n : ℕ) :
    ((integrateBall f mv)^[n] b).active = true ∧
    ((integrateBall f mv)^[n] b).vx = (snapStep f mv)^[n] b.vx ∧
    ((integrateBall f mv)^[n] b).vy = (snapStep f mv)^[n] b.vy := by
  induction n with
  | zero => exact ⟨hact, rfl, rfl⟩
  | succ n ih =>
    rw [Function.iterate_succ_apply', Function.iterate_succ_apply',
      Function.iterate_succ_apply']
    obtain ⟨h1, _, _, h4, h5⟩ := integrateBall_fields f mv _ ih.1
    exact ⟨h1, by rw [h4, ih.2.1], by rw [h5, ih.2.2]⟩

theorem integrate_iterate (g : GameState) (n : ℕ) :
    SameRules g (integrate^[n] g) ∧
    ∀ k, (integrate^[n] g).ball k = (integrateBall g.friction g.minVelocity)^[n] (g.ball k) := by
  induction n with
  | zero => exact ⟨SameRules.reflRules g, fun _ => rfl⟩
  | succ n ih =>
    rw [Function.iterate_succ_apply']
    refine ⟨ih.1.thenRules (integrate_frame _).rules, fun k => ?_⟩
    rw [integrate_ball, ih.1.friction, ih.1.minVelocity, ih.2 k, Function.iterate_succ_apply']

/-- C23. Under a friction factor in `[0, 1)` and a positive threshold (the constants
are 0.9992 and 0.008), for every active ball and every initial velocity there is a
number `n` of integration steps after which both velocity components are exactly
zero on every later step, and the position no longer changes. -/
theorem no_asymptotic_creep (g : GameState) (k : Nat) (hact : (g.ball k).active = true)
    (hf0 : 0 ≤ g.friction) (hf1 : g.friction < 1) (hmv : 0 < g.minVelocity) :
    ∃ n, ∀ t, n ≤ t →
      ((integrate^[t] g).ball k).vx = 0 ∧ ((integrate^[t] g).ball k).vy = 0 ∧
      ((integrate^[t] g).ball k).x = ((integrate^[n] g).ball k).x ∧
      ((integrate^[t] g).ball k).y = ((integrate^[n] g).ball k).y := by
  obtain ⟨n1, h1⟩ := snapStep_eventually_zero g.friction g.minVelocity (g.ball k).vx hf0 hf1 hmv
  obtain ⟨n2, h2⟩ := snapStep_eventually_zero g.friction g.minVelocity (g.ball k).vy hf0 hf1 hmv
  have hv : ∀ t, max n1 n2 ≤ t →
      ((integrate^[t] g).ball k).vx = 0 ∧ ((integrate^[t] g).ball k).vy = 0 := by
    intro t ht
    obtain ⟨_, hx, hy⟩ := integrateBall_iterate g.friction g.minVelocity (g.ball k) hact t
    rw [(integrate_iterate g t).2 k, hx, hy]
    exact ⟨h1 t (le_trans (le_max_left _ _) ht), h2 t (le_trans (le_max_right _ _) ht)⟩
  refine ⟨max n1 n2, fun t ht => ⟨(hv t ht).1, (hv t ht).2, ?_⟩⟩
  induction t, ht using Nat.le_induction with
  | base => exact ⟨rfl, rfl⟩
  | succ t ht ih =>
    have ha := (integrateBall_iterate g.friction g.minVelocity (g.ball k) hact t).1
    rw [← (integrate_iterate g t).2 k] at ha
    obtain ⟨_, hx, hy, _, _⟩ := integrateBall_fields g.friction g.minVelocity _ ha
    have hb : (integrate^[t + 1] g).ball k =
        integrateBall g.friction g.minVelocity ((integrate^[t] g).ball k) := by
      rw [(integrate_iterate g (t + 1)).2 k, Function.iterate_succ_apply',
        (integrate_iterate g t).2 k]
    rw [hb, hx, hy, (hv t ht).1, (hv t ht).2, add_zero, add_zero]
    exact ih

theorem no_asymptotic_creep_witness :
    ((cueRolling.ball 0).active = true ∧ 0 ≤ cueRolling.friction ∧ cueRolling.friction < 1 ∧
      0 < cueRolling.minVelocity) ∧
    ∃ n, ∀ t, n ≤ t → ((integrate^[t] cueRolling).ball 0).vx = 0 := by
  have ha : (cueRolling.ball 0).active = true := by
    rw [cueRolling_ball]
    rfl
  have hf : cueRolling.friction = 1249 / 1250 := rfl
  have hm : cueRolling.minVelocity = 1 / 125 := rfl
  have h0 : 0 ≤ cueRolling.friction := by rw [hf]; norm_num
  have h1 : cueRolling.friction < 1 := by rw [hf]; norm_num
  have h2 : 0 < cueRolling.minVelocity := by rw [hm]; norm_num
  obtain ⟨n, hn⟩ := no_asymptotic_creep cueRolling 0 ha h0 h1 h2
  exact ⟨⟨ha, h0, h1, h2⟩, n, fun t ht => (hn t ht).1⟩

/-! ## C25: the last own ball and the 8-ball in one pass -/

theorem suit_captured_loop (m : Libm) (i : Nat) (js : List Nat) (s : GameState)
    (hi : IsSuitBall i) (hlen : i < s.balls.length)
    (h : ∃ j ∈ js, inPocket m i j s = true) :
    ((forLoop js (pocketStep m i) s).ball i).active = false := by
  have hi0 : i ≠ 0 := by unfold IsSuitBall at hi; omega
  induction js generalizing s with
  | nil =>
    obtain ⟨j, hj, _⟩ := h
    exact absurd hj (List.not_mem_nil j)
  | cons j js ih =>
    rw [forLoop_cons]
    by_cases hin : inPocket m i j s = true
    · have hcap : ((pocketStep m i j s).ball i).active = false := by
        rw [pocketStep_suit m i j s hi hin]
        apply (scoreBall_frame i _).inactive i hi0
        apply (assignBallTypes_frame i _).inactive i hi0
        rw [deactivate_ball, if_pos ⟨rfl, hlen⟩]
      exact (forLoop_pocketFrame js _ (fun j t => pocketStep_frame m i j t) _).inactive i hi0 hcap
    · rw [pocketStep_miss m i j s hin]
      apply ih s hlen
      obtain ⟨j', hj', hin'⟩ := h
      rcases List.mem_cons.1 hj' with e | e
      · rw [e] at hin'
        exact absurd hin' hin
      · exact ⟨j', e, hin'⟩

/-- An active suit ball inside a capture radius is inactive after the outer loop of the
pocket pass has run over a list of indices that contains its index. -/
theorem captured_in_pass (m : Libm) (idxs : List Nat) (i j : Nat) (g : GameState)
    (hi : IsSuitBall i) (hmem : i ∈ idxs) (hlen : i < g.balls.length)
    (hj : j < g.pockets.length) (hact : (g.ball i).active = true)
    (hin : inPocket m i j g = true) :
    ((forLoop idxs (pocketBall m) g).ball i).active = false := by
  have hi0 : i ≠ 0 := by unfold IsSuitBall at hi; omega
  induction idxs generalizing g with
  | nil => exact absurd hmem (List.not_mem_nil i)
  | cons a as ih =>
    rw [forLoop_cons]
    by_cases hai : a = i
    · subst hai
      have hcap : ((pocketBall m a g).ball a).active = false := by
        unfold pocketBall
        rw [if_neg (by simp [hact])]
        exact suit_captured_loop m a _ g hi hlen ⟨j, List.mem_range.2 hj, hin⟩
      exact (forLoop_pocketFrame as _ (pocketBall_frame m) _).inactive a hi0 hcap
    · have hf := pocketBall_frame m a g
      have ha : ((pocketBall m a g).ball i).active = (g.ball i).active :=
        pocketBalls_active_other m [a] i g
          (fun k hk => by rw [List.mem_singleton.1 hk]; exact Ne.symm hai) hi0
      apply ih (pocketBall m a g)
      · rcases List.mem_cons.1 hmem with e | e
        · exact absurd e.symm hai
        · exact e
      · rw [hf.table.length]
        exact hlen
      · rw [hf.table.pockets]
        exact hj
      · rw [ha]
        exact hact
      · rw [inPocket_congr m i j (hf.motion i hi0).1 (hf.motion i hi0).2.1 hf.table.pockets]
        exact hin

/-- The acting player's last own ball has an index below 8: it is captured before the
8-ball is examined, and the acting player is declared the winner. -/
theorem last_solid_then_eight (m : Libm) (g : GameState) (i j j8 : Nat)
    (hlen : g.balls.length = 16) (hassigned : g.ballTypeAssigned = true)
    (h8 : (g.ball 8).active = true) (hj8 : j8 < g.pockets.length)
    (hin8 : inPocket m 8 j8 g = true)
    (hi : 1 ≤ i ∧ i ≤ 7) (hact : (g.ball i).active = true) (hj : j < g.pockets.length)
    (hin : inPocket m i j g = true)
    (hlast : ∀ k, IsSuitBall k → k ≠ i → (g.ball k).player = g.currentPlayer →
      (g.ball k).active = false) :
    (checkPockets m g).gameOver = true ∧ (checkPockets m g).winner = g.currentPlayer := by
  obtain ⟨hgo, hwin, _⟩ := checkPockets_eight m g j8 hlen h8 hj8 hin8
  have hf := passBefore_frame m 8 g
  have hcap : ((passBefore m 8 g).ball i).active = false :=
    captured_in_pass m (List.range 8) i j g (Or.inl hi) (List.mem_range.2 (by omega))
      (by rw [hlen]; omega) hj hact hin
  have hown : ¬ (ownBallActive (deactivate 8 (passBefore m 8 g)) = true) := by
    rw [ownBallActive_deactivate _ (hf.table.length.trans hlen)]
    rintro ⟨k, hk, htag, hka⟩
    have hk0 : k ≠ 0 := by unfold IsSuitBall at hk; omega
    by_cases hki : k = i
    · rw [hki, hcap] at hka
      exact Bool.noConfusion hka
    · rw [((hf.split hassigned).2 k), hf.table.currentPlayer] at htag
      rw [hf.inactive k hk0 (hlast k hk hki htag)] at hka
      exact Bool.noConfusion hka
  refine ⟨hgo, ?_⟩
  rw [hwin]
  unfold verdict
  rw [if_neg hown, hf.table.currentPlayer]

/-- The acting player's last own ball has an index above 8: the 8-ball is examined
while that ball is still active, and the opponent is declared the winner. -/
theorem eight_then_last_stripe (m : Libm) (g : GameState) (i j8 : Nat)
    (hlen : g.balls.length = 16) (hassigned : g.ballTypeAssigned = true)
    (h8 : (g.ball 8).active = true) (hj8 : j8 < g.pockets.length)
    (hin8 : inPocket m 8 j8 g = true)
    (hi : 9 ≤ i ∧ i ≤ 15) (hact : (g.ball i).active = true)
    (htag : (g.ball i).player = g.currentPlayer) :
    (checkPockets m g).gameOver = true ∧
    (checkPockets m g).winner = if g.currentPlayer = 1 then 2 else 1 := by
  obtain ⟨hgo, hwin, _⟩ := checkPockets_eight m g j8 hlen h8 hj8 hin8
  have hf := passBefore_frame m 8 g
  have ha : ((passBefore m 8 g).ball i).active = true := by
    unfold passBefore
    rw [pocketBalls_active_other m (List.range 8) i g
      (fun k hk => by have := List.mem_range.1 hk; omega) (by omega)]
    exact hact
  have hown : ownBallActive (deactivate 8 (passBefore m 8 g)) = true := by
    rw [ownBallActive_deactivate _ (hf.table.length.trans hlen)]
    exact ⟨i, Or.inr hi, by rw [(hf.split hassigned).2 i, hf.table.currentPlayer]; exact htag, ha⟩
  refine ⟨hgo, ?_⟩
  rw [hwin]
  unfold verdict
  rw [if_pos hown, hf.table.currentPlayer]

theorem lastTwoSolids_ball (k : Nat) :
    lastTwoSolids.ball k =
      [cueBall 0, pottedBall 0 0 1 1, pottedBall 1 0 2 1, pottedBall 1 1 3 1,
       pottedBall 2 0 4 1, pottedBall 2 1 5 1, pottedBall 2 2 6 1,
       { rackBall 3 0 7 with x := 0, y := -(37 / 100), player := 1 },
       { rackBall 3 1 8 with x := 0, y := 37 / 100 },
       pottedBall 3 2 9 2, pottedBall 3 3 10 2, pottedBall 4 0 11 2, pottedBall 4 1 12 2,
       pottedBall 4 2 13 2, pottedBall 4 3 14 2, pottedBall 4 4 15 2].getD k default := rfl

theorem lastTwoStripes_ball (k : Nat) :
    lastTwoStripes.ball k =
      [cueBall 0, pottedBall 0 0 1 2, pottedBall 1 0 2 2, pottedBall 1 1 3 2,
       pottedBall 2 0 4 2, pottedBall 2 1 5 2, pottedBall 2 2 6 2, pottedBall 3 0 7 2,
       { rackBall 3 1 8 with x := 0, y := 37 / 100 },
       { rackBall 3 2 9 with x := 0, y := -(37 / 100), player := 1 },
       pottedBall 3 3 10 1, pottedBall 4 0 11 1, pottedBall 4 1 12 1,
       pottedBall 4 2 13 1, pottedBall 4 3 14 1, pottedBall 4 4 15 1].getD k default := rfl

/-- The facts that place `lastTwoSolids`: player 1 to play with suits assigned, ball 7
and the 8-ball active and inside capture radii, every other ball of player 1 potted. -/
theorem lastTwoSolids_facts :
    lastTwoSolids.balls.length = 16 ∧ lastTwoSolids.ballTypeAssigned = true ∧
    lastTwoSolids.currentPlayer = 1 ∧
    (lastTwoSolids.ball 8).active = true ∧ inPocket evalLibm 8 1 lastTwoSolids = true ∧
    (lastTwoSolids.ball 7).active = true ∧ (lastTwoSolids.ball 7).player = 1 ∧
    inPocket evalLibm 7 4 lastTwoSolids = true ∧
    (∀ k, IsSuitBall k → k ≠ 7 → (lastTwoSolids.ball k).player = lastTwoSolids.currentPlayer →
      (lastTwoSolids.ball k).active = false) := by
  have hp : lastTwoSolids.pockets = (startState 0).pockets := rfl
  refine ⟨rfl, rfl, rfl, rfl, ?_, rfl, rfl, ?_, ?_⟩
  · unfold inPocket GameState.pocket
    rw [lastTwoSolids_ball, hp, startState_pockets]
    norm_num [evalLibm, ratSqrt, rackBall]
  · unfold inPocket GameState.pocket
    rw [lastTwoSolids_ball, hp, startState_pockets]
    norm_num [evalLibm, ratSqrt, rackBall]
  · intro k hk h7 _
    unfold IsSuitBall at hk
    rw [lastTwoSolids_ball]
    have hk16 : k < 16 := by omega
    interval_cases k <;> first | rfl | omega

/-- The facts that place `lastTwoStripes`: player 1 to play with suits assigned, ball 9
and the 8-ball active and inside capture radii, every other ball of player 1 potted. -/
theorem lastTwoStripes_facts :
    lastTwoStripes.balls.length = 16 ∧ lastTwoStripes.ballTypeAssigned = true ∧
    lastTwoStripes.currentPlayer = 1 ∧
    (lastTwoStripes.ball 8).active = true ∧ inPocket evalLibm 8 1 lastTwoStripes = true ∧
    (lastTwoStripes.ball 9).active = true ∧ (lastTwoStripes.ball 9).player = 1 ∧
    inPocket evalLibm 9 4 lastTwoStripes = true ∧
    (∀ k, IsSuitBall k → k ≠ 9 →
      (lastTwoStripes.ball k).player = lastTwoStripes.currentPlayer →
      (lastTwoStripes.ball k).active = false) := by
  have hp : lastTwoStripes.pockets = (startState 0).pockets := rfl
  refine ⟨rfl, rfl, rfl, rfl, ?_, rfl, rfl, ?_, ?_⟩
  · unfold inPocket GameState.pocket
    rw [lastTwoStripes_ball, hp, startState_pockets]
    norm_num [evalLibm, ratSqrt, rackBall]
  · unfold inPocket GameState.pocket
    rw [lastTwoStripes_ball, hp, startState_pockets]
    norm_num [evalLibm, ratSqrt, rackBall]
  · intro k hk h9 _
    unfold IsSuitBall at hk
    rw [lastTwoStripes_ball]
    have hk16 : k < 16 := by omega
    interval_cases k <;> first | rfl | omega

/-- C25 (evaluation of the code). When the acting player's last own ball and the
8-ball are inside capture radii in the same pocket pass, the winner depends on the
suit: with an own ball of index below 8 the acting player wins, with an own ball of
index above 8 the opponent wins.  In `lastTwoSolids` and `lastTwoStripes`, which
differ by the exchange of the suits only, player 1 plays: the pass declares player 1
the winner in the first and player 2 in the second. -/
theorem eight_ball_outcome_depends_on_suit :
    (∀ (m : Libm) (g : GameState) (i j j8 : Nat), g.balls.length = 16 →
      g.ballTypeAssigned = true → (g.ball 8).active = true → j8 < g.pockets.length →
      inPocket m 8 j8 g = true → 1 ≤ i ∧ i ≤ 7 → (g.ball i).active = true →
      j < g.pockets.length → inPocket m i j g = true →
      (∀ k, IsSuitBall k → k ≠ i → (g.ball k).player = g.currentPlayer →
        (g.ball k).active = false) →
      (checkPockets m g).gameOver = true ∧ (checkPockets m g).winner = g.currentPlayer) ∧
    (∀ (m : Libm) (g : GameState) (i j8 : Nat), g.balls.length = 16 →
      g.ballTypeAssigned = true → (g.ball 8).active = true → j8 < g.pockets.length →
      inPocket m 8 j8 g = true → 9 ≤ i ∧ i ≤ 15 → (g.ball i).active = true →
      (g.ball i).player = g.currentPlayer →
      (checkPockets m g).gameOver = true ∧
      (checkPockets m g).winner = if g.currentPlayer = 1 then 2 else 1) ∧
    (lastTwoSolids.currentPlayer = 1 ∧ (lastTwoSolids.ball 7).active = true ∧
      (lastTwoSolids.ball 7).player = 1 ∧ inPocket evalLibm 7 4 lastTwoSolids = true ∧
      (lastTwoSolids.ball 8).active = true ∧ inPocket evalLibm 8 1 lastTwoSolids = true) ∧
    (lastTwoStripes.currentPlayer = 1 ∧ (lastTwoStripes.ball 9).active = true ∧
      (lastTwoStripes.ball 9).player = 1 ∧ inPocket evalLibm 9 4 lastTwoStripes = true ∧
      (lastTwoStripes.ball 8).active = true ∧ inPocket evalLibm 8 1 lastTwoStripes = true) ∧
    (checkPockets evalLibm lastTwoSolids).winner = 1 ∧
    (checkPockets evalLibm lastTwoStripes).winner = 2 := by
  obtain ⟨a1, a2, a3, a4, a5, a6, a7, a8, a9⟩ := lastTwoSolids_facts
  obtain ⟨b1, b2, b3, b4, b5, b6, b7, b8, _⟩ := lastTwoStripes_facts
  have hpa : (1 : Nat) < lastTwoSolids.pockets.length ∧ 4 < lastTwoSolids.pockets.length := by
    have hp : lastTwoSolids.pockets = (startState 0).pockets := rfl
    rw [hp, startState_pockets]
    exact ⟨by decide, by decide⟩
  have hpb : (1 : Nat) < lastTwoStripes.pockets.length := by
    have hp : lastTwoStripes.pockets = (startState 0).pockets := rfl
    rw [hp, startState_pockets]
    decide
  have hA := last_solid_then_eight evalLibm lastTwoSolids 7 4 1 a1 a2 a4 hpa.1 a5
    ⟨by decide, by decide⟩ a6 hpa.2 a8 a9
  have hB := eight_then_last_stripe evalLibm lastTwoStripes 9 1 b1 b2 b4 hpb b5
    ⟨by decide, by decide⟩ b6 (b7.trans b3.symm)
  refine ⟨fun m g i j j8 h1 h2 h3 h4 h5 h6 h7 h8 h9 h10 =>
      last_solid_then_eight m g i j j8 h1 h2 h3 h4 h5 h6 h7 h8 h9 h10,
    fun m g i j8 h1 h2 h3 h4 h5 h6 h7 h8 =>
      eight_then_last_stripe m g i j8 h1 h2 h3 h4 h5 h6 h7 h8,
    ⟨a3, a6, a7, a8, a4, a5⟩, ⟨b3, b6, b7, b8, b4, b5⟩, ?_, ?_⟩
  · rw [hA.2, a3]
  · rw [hB.2, b3]
    rfl

/-! ## C24: the scores and the pocketed balls -/

theorem countP_congr_mem (l : List Nat) (p q : Nat → Bool) (h : ∀ k ∈ l, q k = p k) :
    l.countP q = l.countP p := by
  induction l with
  | nil => rfl
  | cons a l ih =>
    rw [List.countP_cons, List.countP_cons, h a (List.mem_cons_self _ _),
      ih (fun k hk => h k (List.mem_cons_of_mem _ hk))]

/-- A predicate that changes at one index only, from false, changes the count by the
new value at that index. -/
theorem countP_update (l : List Nat) (hnd : l.Nodup) (p q : Nat → Bool) (i : Nat)
    (hi : i ∈ l) (h : ∀ k ∈ l, k ≠ i → q k = p k) (hp : p i = false) :
    l.countP q = l.countP p + if q i = true then 1 else 0 := by
  induction l with
  | nil => exact absurd hi (List.not_mem_nil i)
  | cons a l ih =>
    rw [List.countP_cons, List.countP_cons]
    obtain ⟨ha, hl⟩ := List.nodup_cons.1 hnd
    by_cases hai : a = i
    · subst hai
      rw [countP_congr_mem l p q (fun k hk => h k (List.mem_cons_of_mem _ hk)
        (fun e => ha (e ▸ hk))), hp]
      simp
    · have hil : i ∈ l := by
        rcases List.mem_cons.1 hi with e | e
        · exact absurd e.symm hai
        · exact e
      rw [ih hl hil (fun k hk hki => h k (List.mem_cons_of_mem _ hk) hki),
        h a (List.mem_cons_self _ _) hai]
      omega

theorem pottedOf_congr {s t : GameState} (p : Int) (hl : t.balls.length = s.balls.length)
    (h : ∀ k, k < s.balls.length →
      (t.ball k).player = (s.ball k).player ∧ (t.ball k).active = (s.ball k).active) :
    pottedOf t p = pottedOf s p := by
  unfold pottedOf
  rw [hl]
  apply countP_congr_mem
  intro k hk
  rw [(h k (List.mem_range.1 hk)).1, (h k (List.mem_range.1 hk)).2]

/-- The count of the inactive balls tagged `p` after ball `i`, active before, has
been deactivated, when no other ball changes its contribution. -/
theorem pottedOf_capture {s t : GameState} (p : Int) (i : Nat)
    (hl : t.balls.length = s.balls.length) (hi : i < s.balls.length)
    (hact : (s.ball i).active = true) (hin : (t.ball i).active = false)
    (h : ∀ k, k < s.balls.length → k ≠ i →
      (decide ((t.ball k).player = p) && !(t.ball k).active) =
        (decide ((s.ball k).player = p) && !(s.ball k).active)) :
    pottedOf t p = pottedOf s p + if (t.ball i).player = p then 1 else 0 := by
  unfold pottedOf
  rw [hl, countP_update (List.range s.balls.length) (List.nodup_range _)
    (fun k => decide ((s.ball k).player = p) && !(s.ball k).active)
    (fun k => decide ((t.ball k).player = p) && !(t.ball k).active) i (List.mem_range.2 hi)
    (fun k hk hki => h k (List.mem_range.1 hk) hki) (by simp [hact])]
  simp [hin]

/-- States with the same balls up to positions and velocities, the same scores, split
and pockets, and a player to play, agree on the tally. -/
theorem Tally.ofSameBoard {s t : GameState} (h : Tally s) (hc : Consistent t)
    (hp : t.currentPlayer = 1 ∨ t.currentPlayer = 2) (hk : t.pockets = s.pockets)
    (hb : ∀ k, (t.ball k).player = (s.ball k).player ∧ (t.ball k).active = (s.ball k).active)
    (ha : t.ballTypeAssigned = s.ballTypeAssigned) (h1 : t.player1Score = s.player1Score)
    (h2 : t.player2Score = s.player2Score) : Tally t := by
  have hl : t.balls.length = s.balls.length := hc.length.trans h.consistent.length.symm
  refine ⟨hc, hp, hk.trans h.pockets, (hb 0).2.trans h.cue, ?_, ?_, ?_⟩
  · intro hf k hks
    rw [(hb k).2]
    exact h.fresh (ha.symm.trans hf) k hks
  · rw [h1, h.score1, pottedOf_congr 1 hl (fun k _ => hb k)]
  · rw [h2, h.score2, pottedOf_congr 2 hl (fun k _ => hb k)]

theorem PhysFrame.keepsTally {s t : GameState} (hf : PhysFrame s t) (h : Tally s) : Tally t :=
  h.ofSameBoard (hf.consistent h.consistent) (by rw [hf.rules.currentPlayer]; exact h.player)
    hf.rules.pockets (fun k => ⟨hf.player k, hf.active k⟩) hf.rules.ballTypeAssigned
    hf.rules.player1Score hf.rules.player2Score

theorem pottedOf_congr_pred {s t : GameState} (p : Int)
    (hl : t.balls.length = s.balls.length)
    (h : ∀ k, k < s.balls.length →
      (decide ((t.ball k).player = p) && !(t.ball k).active) =
        (decide ((s.ball k).player = p) && !(s.ball k).active)) :
    pottedOf t p = pottedOf s p := by
  unfold pottedOf
  rw [hl]
  exact countP_congr_mem _ _ _ (fun k hk => h k (List.mem_range.1 hk))

theorem pocketStep_special_ball (m : Libm) (i j k : Nat) (g : GameState)
    (hi : i = 0 ∨ i = 8) (hk : k ≠ i) : (pocketStep m i j g).ball k = g.ball k := by
  unfold pocketStep
  by_cases hin : inPocket m i j g = true
  · rw [if_pos hin]
    dsimp only
    rcases hi with hi | hi
    · rw [if_pos hi, scratchBranch_ball, if_neg (fun h => hk (hi ▸ h.1.symm)), deactivate_ball,
        if_neg (fun h => hk h.1.symm)]
    · rw [if_neg (by omega), if_pos hi, ball_congr (eightBallBranch_balls _), deactivate_ball,
        if_neg (fun h => hk h.1.symm)]
  · rw [if_neg hin]

theorem pocketStep_special_scores (m : Libm) (i j : Nat) (g : GameState)
    (hi : i = 0 ∨ i = 8) :
    (pocketStep m i j g).player1Score = g.player1Score ∧
    (pocketStep m i j g).player2Score = g.player2Score ∧
    (pocketStep m i j g).ballTypeAssigned = g.ballTypeAssigned := by
  unfold pocketStep
  by_cases hin : inPocket m i j g = true
  · rw [if_pos hin]
    dsimp only
    rcases hi with hi | hi
    · rw [if_pos hi]
      exact ⟨(scratchBranch_player1Score _).trans (deactivate_board i g).player1Score,
        (scratchBranch_player2Score _).trans (deactivate_board i g).player2Score,
        (scratchBranch_split _).ballTypeAssigned.trans (deactivate_split i g).ballTypeAssigned⟩
    · rw [if_neg (by omega), if_pos hi]
      exact ⟨(eightBallBranch_player1Score _).trans (deactivate_board i g).player1Score,
        (eightBallBranch_player2Score _).trans (deactivate_board i g).player2Score,
        (eightBallBranch_split _).ballTypeAssigned.trans (deactivate_split i g).ballTypeAssigned⟩
  · rw [if_neg hin]
    exact ⟨rfl, rfl, rfl⟩

/-- A step of the pocket pass for the cue ball or for the 8-ball keeps the tally. -/
theorem pocketStep_special_tally (m : Libm) (i j : Nat) (g : GameState)
    (hi : i = 0 ∨ i = 8) (h : Tally g) : Tally (pocketStep m i j g) := by
  have hc := pocketStep_consistent m i j g h.consistent
  have hf := pocketStep_frame m i j g
  obtain ⟨h1, h2, h3⟩ := pocketStep_special_scores m i j g hi
  have hcue : ((pocketStep m i j g).ball 0).active = true := by
    rcases hi with hi | hi
    · subst hi
      rw [pocketStep_zero_ball]
      split
      · rfl
      · exact h.cue
    · rw [pocketStep_special_ball m i j 0 g (Or.inr hi) (by omega)]
      exact h.cue
  have hpred : ∀ p : Int, p = 1 ∨ p = 2 → ∀ k, k < g.balls.length →
      (decide (((pocketStep m i j g).ball k).player = p) &&
          !((pocketStep m i j g).ball k).active) =
        (decide ((g.ball k).player = p) && !(g.ball k).active) := by
    intro p hp k _
    by_cases hki : k = i
    · subst hki
      rcases hi with hi | hi
      · subst hi
        rw [hcue, h.cue]
        simp
      · subst hi
        rw [hc.eight, h.consistent.eight]
        rcases hp with hp | hp <;> rw [hp] <;> simp
    · rw [pocketStep_special_ball m i j k g hi hki]
  refine ⟨hc, by rw [hf.table.currentPlayer]; exact h.player, hf.table.pockets.trans h.pockets,
    hcue, ?_, ?_, ?_⟩
  · intro hfr k hk
    have hki : k ≠ i := by unfold IsSuitBall at hk; omega
    rw [pocketStep_special_ball m i j k g hi hki]
    exact h.fresh (h3.symm.trans hfr) k hk
  · rw [h1, h.score1, pottedOf_congr_pred 1 hf.table.length (hpred 1 (Or.inl rfl))]
  · rw [h2, h.score2, pottedOf_congr_pred 2 hf.table.length (hpred 2 (Or.inr rfl))]

theorem assignBallTypes_sets (i : Nat) (g : GameState) :
    (assignBallTypes i g).ballTypeAssigned = true := by
  cases ha : g.ballTypeAssigned
  · exact (assignBallTypes_effect i g ha).assigned
  · rw [assignBallTypes_assigned i g ha]
    exact ha

theorem assignBallTypes_active (i k : Nat) (g : GameState) :
    ((assignBallTypes i g).ball k).active = (g.ball k).active := by
  cases ha : g.ballTypeAssigned
  · rw [(assignBallTypes_effect i g ha).ball]
    split
    · exact retag_active _ _ _
    · rfl
  · rw [assignBallTypes_assigned i g ha]

theorem assignBallTypes_scores (i : Nat) (g : GameState) :
    (assignBallTypes i g).player1Score = g.player1Score ∧
    (assignBallTypes i g).player2Score = g.player2Score ∧
    (assignBallTypes i g).currentPlayer = g.currentPlayer := by
  cases ha : g.ballTypeAssigned
  · have he := assignBallTypes_effect i g ha
    exact ⟨he.board.player1Score, he.board.player2Score, he.table.currentPlayer⟩
  · rw [assignBallTypes_assigned i g ha]
    exact ⟨rfl, rfl, rfl⟩

/-- The scoring of a pocketed ball whose tag is 1 or 2: the score of the player named
by the tag goes up by one. -/
theorem scoreBall_tagged (i : Nat) (g : GameState)
    (hp : g.currentPlayer = 1 ∨ g.currentPlayer = 2)
    (ht : (g.ball i).player = 1 ∨ (g.ball i).player = 2) :
    (scoreBall i g).player1Score = g.player1Score + (if (g.ball i).player = 1 then 1 else 0) ∧
    (scoreBall i g).player2Score = g.player2Score + (if (g.ball i).player = 2 then 1 else 0) := by
  unfold scoreBall
  dsimp only
  rcases hp with hp | hp <;> rcases ht with ht | ht <;> rw [hp, ht] <;> simp

/-- The capture of an active suit ball keeps the tally. -/
theorem suit_capture_tally (m : Libm) (i j : Nat) (g : GameState) (hi : IsSuitBall i)
    (hin : inPocket m i j g = true) (hact : (g.ball i).active = true) (h : Tally g) :
    Tally (pocketStep m i j g) := by
  have hi0 : i ≠ 0 := by unfold IsSuitBall at hi; omega
  have hi16 : i < 16 := by unfold IsSuitBall at hi; omega
  have hc := pocketStep_consistent m i j g h.consistent
  have hf := pocketStep_frame m i j g
  have hcue := pocketStep_cue m i j g hi0
  have hc2 : Consistent (assignBallTypes i (deactivate i g)) :=
    assignBallTypes_consistent i _ (deactivate_consistent i g h.consistent)
  have hset := assignBallTypes_sets i (deactivate i g)
  obtain ⟨q1, q2, q3⟩ := assignBallTypes_scores i (deactivate i g)
  have htag : ((assignBallTypes i (deactivate i g)).ball i).player = 1 ∨
      ((assignBallTypes i (deactivate i g)).ball i).player = 2 := by
    obtain ⟨_, hs, hst⟩ := hc2.split hset
    unfold IsSuitBall at hi
    rcases hi with hi | hi
    · rw [hs i hi]
      unfold solidsOwner
      split
      · exact Or.inl rfl
      · exact Or.inr rfl
    · rw [hst i hi]
      unfold stripesOwner
      split
      · exact Or.inr rfl
      · exact Or.inl rfl
  have hcp : (assignBallTypes i (deactivate i g)).currentPlayer = 1 ∨
      (assignBallTypes i (deactivate i g)).currentPlayer = 2 := by
    rw [q3, (deactivate_table i g).currentPlayer]
    exact h.player
  obtain ⟨s1, s2⟩ := scoreBall_tagged i _ hcp htag
  have hstep : pocketStep m i j g = scoreBall i (assignBallTypes i (deactivate i g)) :=
    pocketStep_suit m i j g hi hin
  have hball : ∀ k, (pocketStep m i j g).ball k = (assignBallTypes i (deactivate i g)).ball k := by
    intro k
    rw [hstep, ball_congr (scoreBall_balls _ _)]
  have hactive : ∀ k, k ≠ i → ((pocketStep m i j g).ball k).active = (g.ball k).active := by
    intro k hk
    rw [hball, assignBallTypes_active, deactivate_ball, if_neg (fun e => hk e.1.symm)]
  have hinact : ((pocketStep m i j g).ball i).active = false := by
    rw [hball, assignBallTypes_active, deactivate_ball,
      if_pos ⟨rfl, by rw [h.consistent.length]; exact hi16⟩]
  have hpred : ∀ p : Int, p = 1 ∨ p = 2 → ∀ k, k < g.balls.length → k ≠ i →
      (decide (((pocketStep m i j g).ball k).player = p) &&
          !((pocketStep m i j g).ball k).active) =
        (decide ((g.ball k).player = p) && !(g.ball k).active) := by
    intro p hp k hk hki
    rw [hactive k hki]
    cases hka : (g.ball k).active
    · have htk : ((pocketStep m i j g).ball k).player = (g.ball k).player := by
        cases ha : g.ballTypeAssigned
        · have hk8 : k = 8 := by
            rw [h.consistent.length] at hk
            by_contra h8
            have hk0 : k ≠ 0 := by
              rintro rfl
              rw [h.cue] at hka
              exact Bool.noConfusion hka
            have hs : IsSuitBall k := by unfold IsSuitBall; omega
            rw [h.fresh ha k hs] at hka
            exact Bool.noConfusion hka
          rw [hk8, hc.eight, h.consistent.eight]
        · exact (hf.split ha).2 k
      rw [htk]
    · simp
  have hscore : ∀ p : Int, p = 1 ∨ p = 2 →
      pottedOf (pocketStep m i j g) p =
        pottedOf g p +
          if ((assignBallTypes i (deactivate i g)).ball i).player = p then 1 else 0 := by
    intro p hp
    rw [pottedOf_capture p i hf.table.length (by rw [h.consistent.length]; exact hi16) hact
      hinact (hpred p hp), hball]
  refine ⟨hc, by rw [hf.table.currentPlayer]; exact h.player, hf.table.pockets.trans h.pockets,
    by rw [hcue]; exact h.cue, ?_, ?_, ?_⟩
  · intro hfr
    rw [hstep, (scoreBall_split _ _).ballTypeAssigned, hset] at hfr
    exact Bool.noConfusion hfr
  · rw [hstep, s1, q1, (deactivate_board i g).player1Score, h.score1, ← hstep,
      hscore 1 (Or.inl rfl)]
    push_cast
    split <;> simp
  · rw [hstep, s2, q2, (deactivate_board i g).player2Score, h.score2, ← hstep,
      hscore 2 (Or.inr rfl)]
    push_cast
    split <;> simp

/-- A property kept by the iterations of the indices of the list is kept by the loop. -/
theorem forLoop_invariant_mem (P : GameState → Prop) (idxs : List Nat)
    (body : Nat → GameState → GameState) (hbody : ∀ i ∈ idxs, ∀ s, P s → P (body i s))
    (g : GameState) (hg : P g) : P (forLoop idxs body g) := by
  induction idxs generalizing g with
  | nil => exact hg
  | cons i is ih =>
    exact ih (fun k hk => hbody k (List.mem_cons_of_mem _ hk)) _
      (hbody i (List.mem_cons_self _ _) g hg)

/-- A ball that passes the pocket test of pocket `n` lies in the capture disc of that
pocket. -/
theorem inPocket_startDisc (m : Libm) (hm : SqrtBelow m (2 / 25)) (i n : Nat) (g : GameState)
    (hp : g.pockets = (startState 0).pockets) (hn : n < 6) (hin : inPocket m i n g = true) :
    InDisc ((startState 0).pocket n) (g.ball i).x (g.ball i).y := by
  have hpk : g.pocket n = (startState 0).pocket n := by
    unfold GameState.pocket
    rw [hp]
  have h := inPocket_inDisc m i n g (by rw [hpk, (startState_pocket n hn).1]; exact hm) hin
  rw [hpk] at h
  exact h

/-- The inner loop of the pocket pass for an active suit ball keeps the tally: the
ball is captured at most once. -/
theorem suit_loop_tally (m : Libm) (hm : SqrtBelow m (2 / 25)) (i : Nat) (g : GameState)
    (hi : IsSuitBall i) (h : Tally g) (hact : (g.ball i).active = true) (n : Nat)
    (hn : n ≤ 6) :
    Tally (forLoop (List.range n) (pocketStep m i) g) ∧
    (((forLoop (List.range n) (pocketStep m i) g).ball i).active = true ∨
      ∃ j, j < n ∧ inPocket m i j g = true) := by
  have hi0 : i ≠ 0 := by unfold IsSuitBall at hi; omega
  induction n with
  | zero => exact ⟨h, Or.inl hact⟩
  | succ n ih =>
    obtain ⟨ht, hcase⟩ := ih (by omega)
    rw [innerLoop_succ]
    have hcap := capturedAt_other m i n g hi0
    unfold capturedAt at hcap
    by_cases hin : inPocket m i n g = true
    · rcases hcase with ha | ⟨j, hj, hjin⟩
      · exact ⟨suit_capture_tally m i n _ hi (hcap.trans hin) ha ht,
          Or.inr ⟨n, Nat.lt_succ_self n, hin⟩⟩
      · exact absurd (inPocket_startDisc m hm i n g h.pockets (by omega) hin)
          (discs_disjoint j n hj (by omega) _ _
            (inPocket_startDisc m hm i j g h.pockets (by omega) hjin))
    · rw [pocketStep_miss m i n _ (by rw [hcap]; exact hin)]
      refine ⟨ht, ?_⟩
      rcases hcase with ha | ⟨j, hj, hjin⟩
      · exact Or.inl ha
      · exact Or.inr ⟨j, by omega, hjin⟩

theorem pocketBall_tally (m : Libm) (hm : SqrtBelow m (2 / 25)) (i : Nat) (g : GameState)
    (hi : i < 16) (h : Tally g) : Tally (pocketBall m i g) := by
  unfold pocketBall
  by_cases hact : (!(g.ball i).active) = true
  · rw [if_pos hact]
    exact h
  · rw [if_neg hact]
    by_cases hs : i = 0 ∨ i = 8
    · exact forLoop_invariant Tally _ _ (fun j s hs2 => pocketStep_special_tally m i j s hs hs2)
        g h
    · have hsuit : IsSuitBall i := by unfold IsSuitBall; omega
      have hlen : g.pockets.length = 6 := by
        rw [h.pockets, startState_pockets]
        rfl
      rw [hlen]
      exact (suit_loop_tally m hm i g hsuit h (by simpa using hact) 6 (le_refl 6)).1

theorem checkPockets_tally (m : Libm) (hm : SqrtBelow m (2 / 25)) (g : GameState)
    (h : Tally g) : Tally (checkPockets m g) := by
  unfold checkPockets
  refine forLoop_invariant_mem Tally _ _ ?_ g h
  intro i hi s hs
  rw [List.mem_range, h.consistent.length] at hi
  exact pocketBall_tally m hm i s hi hs

theorem tickPasses_tally (m : Libm) (hm : SqrtBelow m (2 / 25)) (g : GameState)
    (h : Tally g) : Tally (tickPasses m g) :=
  checkPockets_tally m hm _ ((tickPasses_physFrame m g).keepsTally h)

theorem resolveTurn_board (g : GameState) :
    (resolveTurn g).pockets = g.pockets ∧ (resolveTurn g).player1Score = g.player1Score ∧
    (resolveTurn g).player2Score = g.player2Score ∧
    (resolveTurn g).tableWidth = g.tableWidth ∧ (resolveTurn g).tableHeight = g.tableHeight ∧
    (resolveTurn g).cushionThickness = g.cushionThickness := by
  unfold resolveTurn switchPlayer
  dsimp only
  refine ⟨?_, ?_, ?_, ?_, ?_, ?_⟩ <;>
    cases hp : g.potted <;> cases hf : g.foul <;> simp <;> split <;> rfl

theorem resolveTurn_tally (g : GameState) (h : Tally g) : Tally (resolveTurn g) := by
  obtain ⟨b1, b2, b3, _, _, _⟩ := resolveTurn_board g
  refine h.ofSameBoard
    (h.consistent.of_same (by rw [resolveTurn_balls])
      (fun k => by rw [ball_congr (resolveTurn_balls _)]) (resolveTurn_split _))
    ?_ b1 (fun k => by rw [ball_congr (resolveTurn_balls _)]; exact ⟨rfl, rfl⟩)
    (resolveTurn_split g).ballTypeAssigned b2 b3
  rw [resolveTurn_currentPlayer]
  rcases h.player with hp | hp <;> rw [hp] <;> split <;> simp

theorem update_tableTally (m : Libm) (hm : SqrtBelow m (2 / 25)) (g : GameState)
    (h : TableTally g) : TableTally (update m g) := by
  have ht := tickPasses_table m g
  have hp : TableTally (tickPasses m g) :=
    ⟨tickPasses_tally m hm g h.tally, ht.tableWidth.trans h.width,
      ht.tableHeight.trans h.height, ht.cushionThickness.trans h.cushion⟩
  obtain ⟨_, _, _, b4, b5, b6⟩ := resolveTurn_board (tickPasses m g)
  unfold update
  split
  · split
    · dsimp only
      split
      · exact ⟨resolveTurn_tally _ hp.tally, b4.trans hp.width, b5.trans hp.height,
          b6.trans hp.cushion⟩
      · exact hp
    · exact h
  · exact h

theorem mouseMotion_tableTally (m : Libm) (w hh : ℚ) (x y : Int) (g : GameState)
    (h : TableTally g) : TableTally (mouseMotion m w hh x y g) := by
  have hc := mouseMotion_consistent m w hh x y g h.tally.consistent
  unfold mouseMotion at hc ⊢
  dsimp only at hc ⊢
  split
  · split
    · rw [if_pos (by assumption), if_pos (by assumption)] at hc
      exact ⟨h.tally.ofSameBoard hc h.tally.player rfl (fun _ => ⟨rfl, rfl⟩) rfl rfl rfl,
        h.width, h.height, h.cushion⟩
    · rw [if_pos (by assumption), if_neg (by assumption)] at hc
      exact ⟨h.tally.ofSameBoard hc h.tally.player rfl (fun _ => ⟨rfl, rfl⟩) rfl rfl rfl,
        h.width, h.height, h.cushion⟩
  · exact h

theorem shoot_tableTally (m : Libm) (g : GameState) (h : TableTally g) :
    TableTally (shoot m g) := by
  have hc := shoot_consistent m g h.tally.consistent
  have h1 := fun (s : GameState) (v : ℚ) =>
    physFrame_modBall s 0 (fun b => { b with vx := v }) (fun _ => ⟨rfl, rfl, rfl⟩)
  have h2 := fun (s : GameState) (v : ℚ) =>
    physFrame_modBall s 0 (fun b => { b with vy := v }) (fun _ => ⟨rfl, rfl, rfl⟩)
  unfold shoot at hc ⊢
  dsimp only at hc ⊢
  have hf := (h1 g (m.cos (g.cueAngle + PI) * g.cuePower * (1 / 2))).thenPhys
    (h2 _ (m.sin (g.cueAngle + PI) * g.cuePower * (1 / 2)))
  have ht := hf.keepsTally h.tally
  exact ⟨ht.ofSameBoard hc ht.player rfl (fun _ => ⟨rfl, rfl⟩) rfl rfl rfl,
    hf.rules.tableWidth.trans h.width, hf.rules.tableHeight.trans h.height,
    hf.rules.cushionThickness.trans h.cushion⟩

theorem mouseClick_tableTally (m : Libm) (button state : Int) (g : GameState)
    (h : TableTally g) : TableTally (mouseClick m button state g) := by
  have hc := mouseClick_consistent m button state g h.tally.consistent
  unfold mouseClick at hc ⊢
  split
  · exact h
  · split
    · split
      · rw [if_neg (by assumption), if_pos (by assumption), if_pos (by assumption)] at hc
        exact ⟨h.tally.ofSameBoard hc h.tally.player rfl (fun _ => ⟨rfl, rfl⟩) rfl rfl rfl,
          h.width, h.height, h.cushion⟩
      · split
        · exact shoot_tableTally m g h
        · exact h
    · exact h

theorem initializeGame_ball (c : Int) (g : GameState) (k : Nat) :
    (initializeGame c g).ball k = (startState c).ball k := by
  unfold startState
  refine ball_congr ?_ k
  rw [initializeGame_balls, initializeGame_balls, initializeBalls_balls, initializeBalls_balls]

theorem initializeGame_all_active (c : Int) (g : GameState) (k : Nat) (hk : k < 16) :
    ((initializeGame c g).ball k).active = true := by
  have hl : (initializeGame c g).balls.length = 16 := by
    rw [initializeGame_balls, initializeBalls_balls]
    rfl
  unfold GameState.ball
  rw [List.getD_eq_getElem _ _ (by rw [hl]; exact hk)]
  exact (initializeGame_active c g _ (List.getElem_mem _)).1

theorem initializeGame_pottedOf (c : Int) (g : GameState) (p : Int) :
    pottedOf (initializeGame c g) p = 0 := by
  have hl : (initializeGame c g).balls.length = 16 := by
    rw [initializeGame_balls, initializeBalls_balls]
    rfl
  unfold pottedOf
  rw [List.countP_eq_zero]
  intro k hk
  rw [List.mem_range, hl] at hk
  rw [initializeGame_all_active c g k hk]
  simp

/-- A reset on the table of the source starts a fresh tally. -/
theorem initializeGame_tableTally (c : Int) (g : GameState) (hw : g.tableWidth = 8 / 5)
    (hh : g.tableHeight = 4 / 5) (ht : g.cushionThickness = 1 / 20) :
    TableTally (initializeGame c g) := by
  have hl : (initializeGame c g).balls.length = 16 := by
    rw [initializeGame_balls, initializeBalls_balls]
    rfl
  have hfa : (initializeGame c g).ballTypeAssigned = false := rfl
  have hpk : (initializeGame c g).pockets = (startState 0).pockets := by
    rw [startState_pockets]
    simp only [initializeGame, initializePockets, initializeBalls]
    rw [hw, hh, ht]
    norm_num
  refine ⟨⟨⟨hl, ?_, fun h => ?_⟩, Or.inl rfl, hpk, initializeGame_all_active c g 0 (by decide),
    fun _ k hk => initializeGame_all_active c g k (by unfold IsSuitBall at hk; omega),
    ?_, ?_⟩, ?_, ?_, ?_⟩
  · rw [initializeGame_ball]
    exact (startState_consistent c).eight
  · rw [hfa] at h
    exact Bool.noConfusion h
  · rw [initializeGame_pottedOf]
    rfl
  · rw [initializeGame_pottedOf]
    rfl
  · simp only [initializeGame, initializePockets, initializeBalls]
    exact hw
  · simp only [initializeGame, initializePockets, initializeBalls]
    exact hh
  · simp only [initializeGame, initializePockets, initializeBalls]
    exact ht

theorem startState_tableTally (c : Int) : TableTally (startState c) :=
  initializeGame_tableTally c {} rfl rfl rfl

theorem keyboard_tableTally (c : Int) (k : Char) (g h : GameState)
    (hk : keyboard c k g = some h) (hs : TableTally g) : TableTally h := by
  unfold keyboard at hk
  split at hk
  · rw [← Option.some.inj hk]
    exact initializeGame_tableTally c g hs.width hs.height hs.cushion
  · split at hk
    · exact Option.noConfusion hk
    · rw [← Option.some.inj hk]
      exact hs

theorem matchRun_tableTally (m : Libm) (hm : SqrtBelow m (2 / 25)) {g h : GameState}
    (hr : MatchRun m g h) (hg : TableTally g) : TableTally h := by
  induction hr with
  | refl => exact hg
  | step _ hs ih =>
    cases hs with
    | play hp =>
      cases hp with
      | tick => exact update_tableTally m hm _ ih
      | aim w hh x y => exact mouseMotion_tableTally m w hh x y _ ih
      | click b s => exact mouseClick_tableTally m b s _ ih
    | key c k hk => exact keyboard_tableTally c k _ _ hk ih

theorem countP_add (l : List Nat) (p q r : Nat → Bool)
    (h : ∀ k ∈ l, (if p k = true then 1 else 0) + (if q k = true then 1 else 0) =
      (if r k = true then 1 else 0 : Nat)) :
    l.countP p + l.countP q = l.countP r := by
  induction l with
  | nil => rfl
  | cons a l ih =>
    have ha := h a (List.mem_cons_self _ _)
    have hl := ih (fun k hk => h k (List.mem_cons_of_mem _ hk))
    rw [List.countP_cons, List.countP_cons, List.countP_cons]
    omega

/-- With suits assigned, the tag of a suit ball is 1 or 2, and the two suits carry
different tags. -/
theorem Consistent.suitTags {g : GameState} (h : Consistent g) (ha : g.ballTypeAssigned = true) :
    (solidsOwner g = 1 ∧ stripesOwner g = 2 ∨ solidsOwner g = 2 ∧ stripesOwner g = 1) ∧
    (∀ k, 1 ≤ k ∧ k ≤ 7 → (g.ball k).player = solidsOwner g) ∧
    (∀ k, 9 ≤ k ∧ k ≤ 15 → (g.ball k).player = stripesOwner g) := by
  obtain ⟨_, hs, hst⟩ := h.split ha
  refine ⟨?_, hs, hst⟩
  unfold solidsOwner stripesOwner
  cases g.player1Solids
  · exact Or.inr ⟨rfl, rfl⟩
  · exact Or.inl ⟨rfl, rfl⟩

/-- Under the tally the two counts by tag add up to the number of pocketed suit balls. -/
theorem Tally.sumOfTags {g : GameState} (h : Tally g) : pottedOf g 1 + pottedOf g 2 = pottedSuits g := by
  unfold pottedOf pottedSuits
  refine countP_add _ _ _ _ ?_
  intro k hk
  rw [List.mem_range, h.consistent.length] at hk
  cases hact : (g.ball k).active
  · have hk0 : k ≠ 0 := by
      rintro rfl
      rw [h.cue] at hact
      exact Bool.noConfusion hact
    by_cases hk8 : k = 8
    · subst hk8
      rw [h.consistent.eight]
      simp
    · have hsuit : IsSuitBall k := by unfold IsSuitBall; omega
      cases ha : g.ballTypeAssigned
      · rw [h.fresh ha k hsuit] at hact
        exact Bool.noConfusion hact
      · obtain ⟨ho, hs, hst⟩ := h.consistent.suitTags ha
        have hd : decide ((1 ≤ k ∧ k ≤ 7) ∨ (9 ≤ k ∧ k ≤ 15)) = true := decide_eq_true hsuit
        rw [hd]
        unfold IsSuitBall at hsuit
        rcases hsuit with hr | hr
        · rw [hs k hr]
          rcases ho with ⟨e, _⟩ | ⟨e, _⟩ <;> rw [e] <;> simp
        · rw [hst k hr]
          rcases ho with ⟨_, e⟩ | ⟨_, e⟩ <;> rw [e] <;> simp
  · simp

theorem default_ball_tag : (default : Ball).player = 0 := rfl

/-- With suits assigned, the balls from index 1 that carry the tag of the solids
owner are balls 1 to 7, and those that carry the tag of the stripes owner are balls 9
to 15. -/
theorem Consistent.suitOf {g : GameState} (h : Consistent g)
    (ha : g.ballTypeAssigned = true) (k : Nat) :
    ((1 ≤ k ∧ (g.ball k).player = solidsOwner g) ↔ k ∈ List.range' 1 7) ∧
    ((1 ≤ k ∧ (g.ball k).player = stripesOwner g) ↔ k ∈ List.range' 9 7) := by
  obtain ⟨ho, hs, hst⟩ := h.suitTags ha
  have h8 := h.eight
  have hdef : 16 ≤ k → (g.ball k).player = 0 := by
    intro hk
    rw [ball_default_of_length_le g k (by rw [h.length]; exact hk)]
    rfl
  rw [List.mem_range'_1, List.mem_range'_1]
  constructor
  · constructor
    · rintro ⟨h1, ht⟩
      by_contra hn
      by_cases hk8 : k = 8
      · subst hk8
        rw [h8] at ht
        rcases ho with ⟨e, _⟩ | ⟨e, _⟩ <;> rw [e] at ht <;> exact absurd ht (by decide)
      · by_cases hk16 : 16 ≤ k
        · rw [hdef hk16] at ht
          rcases ho with ⟨e, _⟩ | ⟨e, _⟩ <;> rw [e] at ht <;> exact absurd ht (by decide)
        · rw [hst k (by omega)] at ht
          rcases ho with ⟨e, e2⟩ | ⟨e, e2⟩ <;> rw [e, e2] at ht <;>
            exact absurd ht (by decide)
    · rintro ⟨h1, h2⟩
      exact ⟨h1, hs k (by omega)⟩
  · constructor
    · rintro ⟨h1, ht⟩
      by_contra hn
      by_cases hk8 : k = 8
      · subst hk8
        rw [h8] at ht
        rcases ho with ⟨_, e⟩ | ⟨_, e⟩ <;> rw [e] at ht <;> exact absurd ht (by decide)
      · by_cases hk16 : 16 ≤ k
        · rw [hdef hk16] at ht
          rcases ho with ⟨_, e⟩ | ⟨_, e⟩ <;> rw [e] at ht <;> exact absurd ht (by decide)
        · rw [hs k (by omega)] at ht
          rcases ho with ⟨e, e2⟩ | ⟨e, e2⟩ <;> rw [e, e2] at ht <;>
            exact absurd ht (by decide)
    · rintro ⟨h1, h2⟩
      exact ⟨by omega, hst k (by omega)⟩

/-- Under the tally, if the balls from index 1 with tag `p` are those of the list `L`
of indices below 16, the count of pocketed balls with tag `p` is 7 exactly when all
balls of `L` are pocketed, for `L` of length 7 without repetition. -/
theorem Tally.clearedOf {g : GameState} (h : Tally g) (p : Int) (L : List Nat)
    (hL : (List.range 16).filter (fun k => decide (k ∈ L)) = L) (hlen : L.length = 7)
    (hmem : ∀ k, (1 ≤ k ∧ (g.ball k).player = p) ↔ k ∈ L) :
    suitCleared g p ↔ pottedOf g p = 7 := by
  have hcount : pottedOf g p = L.countP (fun k => !(g.ball k).active) := by
    unfold pottedOf
    rw [h.consistent.length]
    conv_rhs => rw [← hL, List.countP_filter]
    refine countP_congr_mem _ _ _ ?_
    intro k _
    by_cases hk : k ∈ L
    · have ht := ((hmem k).2 hk).2
      simp [hk, ht]
    · cases hact : (g.ball k).active
      · have hk0 : k ≠ 0 := by
          rintro rfl
          rw [h.cue] at hact
          exact Bool.noConfusion hact
        have hne : ¬ (g.ball k).player = p := fun e => hk ((hmem k).1 ⟨by omega, e⟩)
        simp [hk, hne]
      · simp
  rw [hcount, ← hlen, List.countP_eq_length]
  unfold suitCleared
  constructor
  · intro hc k hk
    have hk2 := (hmem k).2 hk
    rw [hc k hk2.1 hk2.2]
    rfl
  · intro hc k h1 ht
    have := hc k ((hmem k).1 ⟨h1, ht⟩)
    simpa using this

/-- C24. With a library square root that is below the capture radius 0.08 only on
arguments below its square: in every state reached from the start of a match by ticks,
aim updates, clicks and key presses (resets included), the sum of the two scores is
the number of inactive suit balls (indices 1 to 7 and 9 to 15); and once suits are
assigned, the score of each player is the number of inactive balls that carry the tag
of that player, and a player has every ball of their tag from index 1 inactive exactly
when their score is 7. -/
theorem scores_count_pocketed (m : Libm) (hm : SqrtBelow m (2 / 25)) (g : GameState)
    (hreach : Attainable m g) :
    g.player1Score + g.player2Score = (pottedSuits g : Int) ∧
    (g.ballTypeAssigned = true →
      g.player1Score = (pottedOf g 1 : Int) ∧ g.player2Score = (pottedOf g 2 : Int) ∧
      (suitCleared g 1 ↔ g.player1Score = 7) ∧ (suitCleared g 2 ↔ g.player2Score = 7)) := by
  obtain ⟨c, hr⟩ := hreach
  have ht := (matchRun_tableTally m hm hr (startState_tableTally c)).tally
  refine ⟨?_, fun ha => ⟨ht.score1, ht.score2, ?_, ?_⟩⟩
  · rw [ht.score1, ht.score2, ← ht.sumOfTags]
    push_cast
    rfl
  · have hcast : pottedOf g 1 = 7 ↔ g.player1Score = 7 := by
      rw [ht.score1]
      constructor <;> intro h <;> omega
    refine Iff.trans ?_ hcast
    rcases (ht.consistent.suitTags ha).1 with ⟨e, _⟩ | ⟨_, e⟩
    · refine ht.clearedOf 1 (List.range' 1 7) (by decide) rfl (fun k => ?_)
      have hk := (ht.consistent.suitOf ha k).1
      rw [e] at hk
      exact hk
    · refine ht.clearedOf 1 (List.range' 9 7) (by decide) rfl (fun k => ?_)
      have hk := (ht.consistent.suitOf ha k).2
      rw [e] at hk
      exact hk
  · have hcast : pottedOf g 2 = 7 ↔ g.player2Score = 7 := by
      rw [ht.score2]
      constructor <;> intro h <;> omega
    refine Iff.trans ?_ hcast
    rcases (ht.consistent.suitTags ha).1 with ⟨_, e⟩ | ⟨e, _⟩
    · refine ht.clearedOf 2 (List.range' 9 7) (by decide) rfl (fun k => ?_)
      have hk := (ht.consistent.suitOf ha k).2
      rw [e] at hk
      exact hk
    · refine ht.clearedOf 2 (List.range' 1 7) (by decide) rfl (fun k => ?_)
      have hk := (ht.consistent.suitOf ha k).1
      rw [e] at hk
      exact hk

theorem scores_count_pocketed_witness :
    (SqrtBelow evalLibm (2 / 25) ∧
      Attainable evalLibm (update evalLibm (mouseClick evalLibm GLUT_LEFT_BUTTON GLUT_UP
        (mouseClick evalLibm GLUT_LEFT_BUTTON GLUT_DOWN (startState 0))))) ∧
    (update evalLibm (mouseClick evalLibm GLUT_LEFT_BUTTON GLUT_UP
        (mouseClick evalLibm GLUT_LEFT_BUTTON GLUT_DOWN (startState 0)))).player1Score +
      (update evalLibm (mouseClick evalLibm GLUT_LEFT_BUTTON GLUT_UP
        (mouseClick evalLibm GLUT_LEFT_BUTTON GLUT_DOWN (startState 0)))).player2Score =
      (pottedSuits (update evalLibm (mouseClick evalLibm GLUT_LEFT_BUTTON GLUT_UP
        (mouseClick evalLibm GLUT_LEFT_BUTTON GLUT_DOWN (startState 0)))) : Int) :=
  have hm : SqrtBelow evalLibm (2 / 25) := evalLibm_sqrtBelow _ 80000000 (by norm_num)
  have hr : Attainable evalLibm (update evalLibm (mouseClick evalLibm GLUT_LEFT_BUTTON GLUT_UP
      (mouseClick evalLibm GLUT_LEFT_BUTTON GLUT_DOWN (startState 0)))) :=
    ⟨0, (((MatchRun.refl _).step (MatchStep.play (PlayStep.click _ _ _))).step
      (MatchStep.play (PlayStep.click _ _ _))).step (MatchStep.play (PlayStep.tick _))⟩
  ⟨⟨hm, hr⟩, (scores_count_pocketed evalLibm hm _ hr).1⟩

/-! ## C16: the cushion clamp and the end of a tick -/

theorem forLoopChecked_cons (i : Nat) (is : List Nat)
    (body : Nat → GameState → Option GameState) (g : GameState) :
    forLoopChecked (i :: is) body g = (body i g).bind (fun s => forLoopChecked is body s) := by
  unfold forLoopChecked
  rw [List.foldlM_cons]
  rfl

theorem forLoopChecked_none (i : Nat) (is : List Nat)
    (body : Nat → GameState → Option GameState) (g : GameState) (h : body i g = none) :
    forLoopChecked (i :: is) body g = none := by
  rw [forLoopChecked_cons, h]
  rfl

/-- A loop with a failing body that ends without failure ends in the state of the loop
with the total body. -/
theorem forLoopChecked_sound (idxs : List Nat) (bodyC : Nat → GameState → Option GameState)
    (body : Nat → GameState → GameState)
    (h : ∀ i s t, bodyC i s = some t → t = body i s) (g t : GameState)
    (ht : forLoopChecked idxs bodyC g = some t) : t = forLoop idxs body g := by
  induction idxs generalizing g with
  | nil =>
    unfold forLoopChecked at ht
    exact (Option.some.inj ht).symm
  | cons i is ih =>
    rw [forLoopChecked_cons] at ht
    cases hb : bodyC i g with
    | none =>
      rw [hb] at ht
      exact Option.noConfusion ht
    | some s =>
      rw [hb] at ht
      rw [forLoop_cons, ← h i g s hb]
      exact ih s ht

theorem forLoopChecked_fixed (idxs : List Nat) (body : Nat → GameState → Option GameState)
    (g : GameState) (h : ∀ i ∈ idxs, body i g = some g) :
    forLoopChecked idxs body g = some g := by
  induction idxs with
  | nil => rfl
  | cons i is ih =>
    rw [forLoopChecked_cons, h i (List.mem_cons_self _ _)]
    exact ih (fun k hk => h k (List.mem_cons_of_mem _ hk))

theorem collidePairChecked_sound (m : Libm) (i j : Nat) (s t : GameState)
    (h : collidePairChecked m i j s = some t) : t = collidePair m i j s := by
  unfold collidePairChecked at h
  split at h
  · exact Option.noConfusion h
  · exact (Option.some.inj h).symm

theorem collideBallChecked_sound (m : Libm) (i : Nat) (s t : GameState)
    (h : collideBallChecked m i s = some t) : t = collideBall m i s := by
  unfold collideBallChecked at h
  unfold collideBall
  by_cases ha : (!(s.ball i).active) = true
  · rw [if_pos ha] at h ⊢
    exact (Option.some.inj h).symm
  · rw [if_neg ha] at h ⊢
    exact forLoopChecked_sound _ _ _ (collidePairChecked_sound m i) s t h

/-- A ball-collision pass that divides by no zero distance ends in the state of
`handleBallCollisions`. -/
theorem handleBallCollisionsChecked_sound (m : Libm) (g : GameState)
    (h : handleBallCollisionsChecked m g ≠ none) :
    handleBallCollisionsChecked m g = some (handleBallCollisions m g) := by
  cases ht : handleBallCollisionsChecked m g with
  | none => exact absurd ht h
  | some t =>
    have hs : t = handleBallCollisions m g := by
      unfold handleBallCollisionsChecked at ht
      unfold handleBallCollisions
      exact forLoopChecked_sound _ _ _ (collideBallChecked_sound m) g t ht
    rw [hs]

theorem collidePairChecked_apart (m : Libm) (i j : Nat) (g : GameState)
    (h : (g.ball j).active = true → ¬ Overlapping m i j g) :
    collidePairChecked m i j g = some g := by
  have hcp : collidePair m i j g = g := by
    by_cases hj : (g.ball j).active = true
    · exact collidePair_apart m i j g (h hj)
    · exact collidePair_inactive m i j g (by simpa using hj)
  have hnd : normalDivisor m i j g = none := by
    unfold normalDivisor
    by_cases hj : (g.ball j).active = true
    · have hov := h hj
      unfold Overlapping at hov
      rw [if_neg (by simp [hj]), if_neg hov]
    · rw [if_pos (by simpa using hj)]
  unfold collidePairChecked
  rw [hnd, if_neg (fun e => Option.noConfusion e), hcp]

/-- When no two active balls overlap, the ball-collision pass divides by no distance
and changes nothing. -/
theorem handleBallCollisionsChecked_apart (m : Libm) (g : GameState)
    (h : ∀ i j, i < j → (g.ball i).active = true → (g.ball j).active = true →
      ¬ Overlapping m i j g) : handleBallCollisionsChecked m g = some g := by
  unfold handleBallCollisionsChecked
  apply forLoopChecked_fixed
  intro i _
  unfold collideBallChecked
  by_cases hi : (g.ball i).active = true
  · rw [if_neg (by simp [hi])]
    apply forLoopChecked_fixed
    intro j hj
    have hij : i < j := by
      have := (List.mem_range'_1.1 hj).1
      omega
    exact collidePairChecked_apart m i j g (fun hj2 => h i j hij hi hj2)
  · rw [if_pos (by simpa using hi)]

theorem stackedShot_ball (k : Nat) : stackedShot.ball k = stacked.ball k := rfl

theorem stacked_pair :
    stacked.ball 0 = cueBall 0 ∧
    stacked.ball 1 = { rackBall 0 0 1 with x := -(2 / 5), y := 0 } ∧
    stacked.balls.length = 16 := by
  refine ⟨?_, ?_, ?_⟩
  · unfold stacked
    rw [ball_modBall, if_neg (fun h => absurd h.1 (by decide)), startState_ball]
    rfl
  · unfold stacked
    rw [ball_modBall, startState_length, if_pos ⟨rfl, by decide⟩, startState_ball]
    rfl
  · unfold stacked
    exact (length_modBall _ _ _).trans (startState_length 0)

/-- The integration step leaves the two stacked balls where they are. -/
theorem stackedShot_integrated :
    (integrate stackedShot).ball 0 = cueBall 0 ∧
    (integrate stackedShot).ball 1 = { rackBall 0 0 1 with x := -(2 / 5), y := 0 } ∧
    (integrate stackedShot).balls.length = 16 := by
  refine ⟨?_, ?_, ?_⟩
  · rw [integrate_ball, stackedShot_ball, stacked_pair.1]
    exact integrateBall_rest _ _ _ rfl rfl
  · rw [integrate_ball, stackedShot_ball, stacked_pair.2.1]
    exact integrateBall_rest _ _ _ rfl rfl
  · rw [(integrate_frame stackedShot).length]
    exact stacked_pair.2.2

/-- In the tick on `stackedShot` the ball-collision pass reaches, at its first pair, the
division by the distance zero. -/
theorem stackedShot_divides_by_zero :
    normalDivisor evalLibm 0 1 (integrate stackedShot) = some 0 ∧
    handleBallCollisionsChecked evalLibm (integrate stackedShot) = none := by
  obtain ⟨h0, h1, hl⟩ := stackedShot_integrated
  have hd : normalDivisor evalLibm 0 1 (integrate stackedShot) = some 0 := by
    unfold normalDivisor pairDistance
    rw [h0, h1]
    norm_num [evalLibm, ratSqrt, cueBall, rackBall, ballRadius]
  refine ⟨hd, ?_⟩
  have hpair : collidePairChecked evalLibm 0 1 (integrate stackedShot) = none := by
    unfold collidePairChecked
    rw [if_pos hd]
  have hball : collideBallChecked evalLibm 0 (integrate stackedShot) = none := by
    unfold collideBallChecked
    rw [if_neg (by rw [h0]; simp [cueBall]), hl]
    exact forLoopChecked_none 1 (List.range' 2 14) _ _ hpair
  unfold handleBallCollisionsChecked
  rw [hl]
  exact forLoopChecked_none 0 (List.range' 1 15) _ _ hball

theorem restShot_integrated_apart (i j : Nat) (hij : i < j)
    (_hi : ((integrate restShot).ball i).active = true)
    (hj : ((integrate restShot).ball j).active = true) :
    ¬ Overlapping evalLibm i j (integrate restShot) := by
  have hb : ∀ k, (integrate restShot).ball k = (startState 0).ball k := by
    intro k
    rw [integrate_ball, restShot_ball]
    exact integrateBall_rest _ _ _ (startState_atRest k).1 (startState_atRest k).2
  rw [hb j] at hj
  have hj16 := startState_active_lt j hj
  have hr : ((integrate restShot).ball i).radius + ((integrate restShot).ball j).radius =
      3 / 50 := by
    rw [hb i, hb j, (start_ball_facts 0 i (by omega)).2.1, (start_ball_facts 0 j hj16).2.1]
    norm_num
  apply not_overlapping_of_far i j _ hr
  have h := start_apart 0 i j hij hj16
  rw [(start_ball_facts 0 i (by omega)).2.1, (start_ball_facts 0 j hj16).2.1] at h
  rw [hb i, hb j]
  norm_num at h ⊢
  exact h

/-- C16 (evaluation of the code). On the table of 1.6 by 0.8 with balls of radius at
most 0.4, for any ball positions, after the cushion pass every active ball lies wholly
inside the playing area.  At the end of a tick that runs the passes (balls moving, game
not over) the same holds when the ball-collision pass of the tick divides by no zero
distance; the model and the source then agree on that pass.  It is lost in the source
on `stackedShot`: the table and the radii are as required, the balls are moving and
the game is not over, the cue ball and ball 1 are active with coincident centres, and
the first pair of the ball-collision pass divides by the distance zero, whose result
the source writes into the positions of both balls before the cushion pass. -/
theorem cushion_clamp_keeps_on_table :
    (∀ g : GameState, g.tableWidth = 8 / 5 → g.tableHeight = 4 / 5 →
      (∀ k, (g.ball k).radius ≤ 2 / 5) →
      ∀ k, ((handleCushionCollisions g).ball k).active = true →
        InsideTable (handleCushionCollisions g) ((handleCushionCollisions g).ball k)) ∧
    (∀ (m : Libm) (g : GameState), g.tableWidth = 8 / 5 → g.tableHeight = 4 / 5 →
      (∀ k, (g.ball k).radius ≤ 2 / 5) → g.ballsMoving = true → g.gameOver = false →
      handleBallCollisionsChecked m (integrate g) ≠ none →
      handleBallCollisionsChecked m (integrate g) =
        some (handleBallCollisions m (integrate g)) ∧
      ∀ k, ((update m g).ball k).active = true →
        InsideTable (update m g) ((update m g).ball k)) ∧
    (stackedShot.tableWidth = 8 / 5 ∧ stackedShot.tableHeight = 4 / 5 ∧
      (∀ k, (stackedShot.ball k).radius ≤ 2 / 5) ∧ stackedShot.ballsMoving = true ∧
      stackedShot.gameOver = false ∧
      ((integrate stackedShot).ball 0).active = true ∧
      ((integrate stackedShot).ball 1).active = true ∧
      ((integrate stackedShot).ball 0).x = ((integrate stackedShot).ball 1).x ∧
      ((integrate stackedShot).ball 0).y = ((integrate stackedShot).ball 1).y ∧
      normalDivisor evalLibm 0 1 (integrate stackedShot) = some 0 ∧
      handleBallCollisionsChecked evalLibm (integrate stackedShot) = none) := by
  refine ⟨fun g hw hh hr => (onTable_cushions g hw hh hr).inside, ?_, ?_⟩
  · intro m g hw hh hr hmov hover hdef
    refine ⟨handleBallCollisionsChecked_sound m _ hdef, ?_⟩
    have hf := (integrate_frame g).thenPhys (handleBallCollisions_frame m (integrate g))
    have ht : OnTable (tickPasses m g) := by
      unfold tickPasses
      apply onTable_checkPockets
      apply onTable_cushions
      · exact hf.rules.tableWidth.trans hw
      · exact hf.rules.tableHeight.trans hh
      · intro k
        rw [hf.radius k]
        exact hr k
    unfold update
    rw [if_pos (by simp [hover]), if_pos hmov]
    dsimp only
    split
    · intro k hk
      have hb := resolveTurn_balls (tickPasses m g)
      have hd : InsideTable (resolveTurn (tickPasses m g))
          ((resolveTurn (tickPasses m g)).ball k)
          = InsideTable (tickPasses m g) ((tickPasses m g).ball k) := by
        unfold InsideTable
        rw [ball_congr hb k]
        unfold resolveTurn switchPlayer
        dsimp only
        split
        · split <;> rfl
        · rfl
      rw [hd]
      rw [ball_congr hb k] at hk
      exact ht.inside k hk
    · exact ht.inside
  · obtain ⟨h0, h1, _⟩ := stackedShot_integrated
    refine ⟨rfl, rfl, ?_, rfl, rfl, ?_, ?_, ?_, ?_, stackedShot_divides_by_zero.1,
      stackedShot_divides_by_zero.2⟩
    · intro k
      rw [stackedShot_ball]
      unfold stacked
      rw [ball_modBall]
      split
      · exact startState_radius 0 _
      · exact startState_radius 0 k
    · rw [h0]
      rfl
    · rw [h1]
      rfl
    · rw [h0, h1]
      rfl
    · rw [h0, h1]
      rfl

theorem cushion_clamp_keeps_on_table_witness :
    (restShot.tableWidth = 8 / 5 ∧ restShot.tableHeight = 4 / 5 ∧
      (∀ k, (restShot.ball k).radius ≤ 2 / 5) ∧ restShot.ballsMoving = true ∧
      restShot.gameOver = false ∧
      handleBallCollisionsChecked evalLibm (integrate restShot) ≠ none) ∧
    ∀ k, ((update evalLibm restShot).ball k).active = true →
      InsideTable (update evalLibm restShot) ((update evalLibm restShot).ball k) :=
  have hr : ∀ k, (restShot.ball k).radius ≤ 2 / 5 := fun k => by
    rw [restShot_ball]
    exact startState_radius 0 k
  have hdef : handleBallCollisionsChecked evalLibm (integrate restShot) ≠ none := by
    rw [handleBallCollisionsChecked_apart evalLibm _ restShot_integrated_apart]
    exact fun e => Option.noConfusion e
  ⟨⟨rfl, rfl, hr, rfl, rfl, hdef⟩,
    (cushion_clamp_keeps_on_table.2.1 evalLibm restShot rfl rfl hr rfl rfl hdef).2⟩

/-! ## C22: the cushion factor against the coefficient of ball-ball resolution -/

/-- A ball other than the cue ball that is active and inside no capture radius is
active after the outer loop of the pocket pass over any indices. -/
theorem uncaptured_stays_active (m : Libm) (idxs : List Nat) (k : Nat) (g : GameState)
    (hk0 : k ≠ 0) (hact : (g.ball k).active = true)
    (hout : ∀ j, j < g.pockets.length → inPocket m k j g = false) :
    ((forLoop idxs (pocketBall m) g).ball k).active = true := by
  refine (forLoop_invariant
    (fun s => (s.ball k).active = true ∧ (s.ball k).x = (g.ball k).x ∧
      (s.ball k).y = (g.ball k).y ∧ s.pockets = g.pockets) idxs _ ?_ g ⟨hact, rfl, rfl, rfl⟩).1
  rintro i s ⟨ha, hx, hy, hp⟩
  have hf := pocketBall_frame m i s
  refine ⟨?_, (hf.motion k hk0).1.trans hx, (hf.motion k hk0).2.1.trans hy,
    hf.table.pockets.trans hp⟩
  by_cases hik : i = k
  · subst hik
    have hfix : pocketBall m i s = s := by
      unfold pocketBall
      rw [if_neg (by simp [ha])]
      refine forLoop_fixed _ _ _ (fun j hj => pocketStep_miss m i j s ?_)
      rw [inPocket_congr m i j hx hy hp, hout j (by rw [← hp]; exact List.mem_range.1 hj)]
      exact Bool.false_ne_true
    rw [hfix]
    exact ha
  · have h := pocketBalls_active_other m [i] k s
      (fun a hmem => by rw [List.mem_singleton.1 hmem]; exact fun e => hik e.symm) hk0
    exact h.trans ha

/-- The 8-ball rule read on the state before the pass.  With suits assigned and the
active 8-ball inside a capture radius, the pass sets game-over; the acting player wins
if no suit ball with their tag is active before the pass, and the other player wins
if some suit ball with the acting player's tag is active before the pass and is a
stripe or lies inside no capture radius. -/
theorem eight_ball_rule_on_entry (m : Libm) (g : GameState) (j : Nat)
    (hlen : g.balls.length = 16) (hassigned : g.ballTypeAssigned = true)
    (hact : (g.ball 8).active = true) (hj : j < g.pockets.length)
    (hin : inPocket m 8 j g = true)
    (hplayer : g.currentPlayer = 1 ∨ g.currentPlayer = 2) :
    (checkPockets m g).gameOver = true ∧
    ((∀ k, IsSuitBall k → (g.ball k).player = g.currentPlayer → (g.ball k).active = false) →
      (checkPockets m g).winner = g.currentPlayer) ∧
    ((∃ k, IsSuitBall k ∧ (g.ball k).player = g.currentPlayer ∧ (g.ball k).active = true ∧
        (9 ≤ k ∨ ∀ j2, j2 < g.pockets.length → inPocket m k j2 g = false)) →
      (checkPockets m g).winner = if g.currentPlayer = 1 then 2 else 1) := by
  obtain ⟨hgo, hwin, hlose, htag, hstripe, hsolid⟩ :=
    eight_ball_mid_pass m g j hlen hassigned hact hj hin hplayer
  refine ⟨hgo, fun hnone => hwin (fun k hk ht => ?_), ?_⟩
  · rw [htag k] at ht
    cases ha : ((passBefore m 8 g).ball k).active
    · rfl
    · have hk1 : 1 ≤ k := by unfold IsSuitBall at hk; omega
      have hg := hsolid k hk1 ha
      rw [hnone k hk ht] at hg
      exact Bool.noConfusion hg
  · rintro ⟨k, hk, ht, ha, hside⟩
    have hk0 : k ≠ 0 := by unfold IsSuitBall at hk; omega
    have hmid : ((passBefore m 8 g).ball k).active = true := by
      rcases hside with h9 | hout
      · rw [hstripe k h9]
        exact ha
      · exact uncaptured_stays_active m (List.range 8) k g hk0 ha hout
    rcases hlose ⟨k, hk, by rw [htag k]; exact ht, hmid⟩ with ⟨hp, hw⟩ | ⟨hp, hw⟩
    · rw [hw, if_pos hp]
    · rw [hw, if_neg (by rw [hp]; decide)]

/-- The acting player wins on the 8-ball when each of their active suit balls is a
solid inside a capture radius: the pass captures these before it examines the 8-ball. -/
theorem solids_captured_then_eight (m : Libm) (g : GameState) (j8 : Nat)
    (hlen : g.balls.length = 16) (hassigned : g.ballTypeAssigned = true)
    (h8 : (g.ball 8).active = true) (hj8 : j8 < g.pockets.length)
    (hin8 : inPocket m 8 j8 g = true)
    (hplayer : g.currentPlayer = 1 ∨ g.currentPlayer = 2)
    (hall : ∀ k, IsSuitBall k → (g.ball k).player = g.currentPlayer →
      (g.ball k).active = true →
      k ≤ 7 ∧ ∃ j, j < g.pockets.length ∧ inPocket m k j g = true) :
    (checkPockets m g).gameOver = true ∧ (checkPockets m g).winner = g.currentPlayer := by
  obtain ⟨hgo, hwin, _, htag, _, _⟩ :=
    eight_ball_mid_pass m g j8 hlen hassigned h8 hj8 hin8 hplayer
  have hf := passBefore_frame m 8 g
  refine ⟨hgo, hwin (fun k hk ht => ?_)⟩
  have hk0 : k ≠ 0 := by unfold IsSuitBall at hk; omega
  have hk1 : 1 ≤ k := by unfold IsSuitBall at hk; omega
  rw [htag k] at ht
  cases ha : (g.ball k).active
  · exact hf.inactive k hk0 ha
  · obtain ⟨hk7, j, hj, hin⟩ := hall k hk ht ha
    exact captured_in_pass m (List.range 8) k j g (Or.inl ⟨hk1, hk7⟩)
      (List.mem_range.2 (by omega)) (by rw [hlen]; omega) hj ha hin

/-- C2 (evaluation of the code). With suits assigned and the active 8-ball inside a
capture radius, the pass sets game-over.  Read on the state before the pass, the winner
is the one the claim names when no suit ball of the acting player is active, and when
one is active that is a stripe or lies inside no capture radius.  The pass departs
from the claim when every active suit ball of the acting player is a solid inside a
capture radius: such balls are active in the state of the claim, yet the acting player
is declared the winner.  In `lastTwoSolids` ball 7, tagged with the acting player 1,
is active and the pass declares player 1 the winner; in `lastTwoStripes` the pass
leaves no suit ball tagged with the acting player 1 active and declares player 2 the
winner. -/
theorem eight_ball_outcome_on_entry :
    (∀ (m : Libm) (g : GameState) (j : Nat), g.balls.length = 16 →
      g.ballTypeAssigned = true → (g.ball 8).active = true → j < g.pockets.length →
      inPocket m 8 j g = true → (g.currentPlayer = 1 ∨ g.currentPlayer = 2) →
      (checkPockets m g).gameOver = true ∧
      ((∀ k, IsSuitBall k → (g.ball k).player = g.currentPlayer →
          (g.ball k).active = false) →
        (checkPockets m g).winner = g.currentPlayer) ∧
      ((∃ k, IsSuitBall k ∧ (g.ball k).player = g.currentPlayer ∧
          (g.ball k).active = true ∧
          (9 ≤ k ∨ ∀ j2, j2 < g.pockets.length → inPocket m k j2 g = false)) →
        (checkPockets m g).winner = if g.currentPlayer = 1 then 2 else 1)) ∧
    (∀ (m : Libm) (g : GameState) (j8 : Nat), g.balls.length = 16 →
      g.ballTypeAssigned = true → (g.ball 8).active = true → j8 < g.pockets.length →
      inPocket m 8 j8 g = true → (g.currentPlayer = 1 ∨ g.currentPlayer = 2) →
      (∃ k, IsSuitBall k ∧ (g.ball k).player = g.currentPlayer ∧
        (g.ball k).active = true) →
      (∀ k, IsSuitBall k → (g.ball k).player = g.currentPlayer →
        (g.ball k).active = true →
        k ≤ 7 ∧ ∃ j, j < g.pockets.length ∧ inPocket m k j g = true) →
      (checkPockets m g).gameOver = true ∧ (checkPockets m g).winner = g.currentPlayer ∧
      (checkPockets m g).winner ≠ if g.currentPlayer = 1 then 2 else 1) ∧
    (lastTwoSolids.ballTypeAssigned = true ∧ lastTwoSolids.currentPlayer = 1 ∧
      (lastTwoSolids.ball 8).active = true ∧ inPocket evalLibm 8 1 lastTwoSolids = true ∧
      IsSuitBall 7 ∧ (lastTwoSolids.ball 7).player = 1 ∧
      (lastTwoSolids.ball 7).active = true ∧
      (checkPockets evalLibm lastTwoSolids).gameOver = true ∧
      (checkPockets evalLibm lastTwoSolids).winner = 1) ∧
    (lastTwoStripes.ballTypeAssigned = true ∧ lastTwoStripes.currentPlayer = 1 ∧
      (lastTwoStripes.ball 8).active = true ∧ inPocket evalLibm 8 1 lastTwoStripes = true ∧
      (∀ k, IsSuitBall k → ((checkPockets evalLibm lastTwoStripes).ball k).player = 1 →
        ((checkPockets evalLibm lastTwoStripes).ball k).active = false) ∧
      (checkPockets evalLibm lastTwoStripes).gameOver = true ∧
      (checkPockets evalLibm lastTwoStripes).winner = 2) := by
  obtain ⟨a1, a2, a3, a4, a5, a6, a7, a8, a9⟩ := lastTwoSolids_facts
  obtain ⟨b1, b2, b3, b4, b5, b6, b7, b8, b9⟩ := lastTwoStripes_facts
  have hpa : (1 : Nat) < lastTwoSolids.pockets.length ∧ 4 < lastTwoSolids.pockets.length := by
    have hp : lastTwoSolids.pockets = (startState 0).pockets := rfl
    rw [hp, startState_pockets]
    exact ⟨by decide, by decide⟩
  have hpb : (1 : Nat) < lastTwoStripes.pockets.length ∧ 4 < lastTwoStripes.pockets.length := by
    have hp : lastTwoStripes.pockets = (startState 0).pockets := rfl
    rw [hp, startState_pockets]
    exact ⟨by decide, by decide⟩
  have hA := last_solid_then_eight evalLibm lastTwoSolids 7 4 1 a1 a2 a4 hpa.1 a5
    ⟨by decide, by decide⟩ a6 hpa.2 a8 a9
  have hB := eight_then_last_stripe evalLibm lastTwoStripes 9 1 b1 b2 b4 hpb.1 b5
    ⟨by decide, by decide⟩ b6 (b7.trans b3.symm)
  have hfB := checkPockets_frame evalLibm lastTwoStripes
  refine ⟨eight_ball_rule_on_entry, ?_, ⟨a2, a3, a4, a5, Or.inl ⟨by decide, by decide⟩, a7, a6,
    hA.1, by rw [hA.2, a3]⟩, ⟨b2, b3, b4, b5, ?_, hB.1, by rw [hB.2, b3]; rfl⟩⟩
  · intro m g j8 h1 h2 h3 h4 h5 hp _ hall
    obtain ⟨hgo, hw⟩ := solids_captured_then_eight m g j8 h1 h2 h3 h4 h5 hp hall
    refine ⟨hgo, hw, ?_⟩
    rw [hw]
    rcases hp with hp | hp <;> rw [hp] <;> decide
  · intro k hk ht
    have hk0 : k ≠ 0 := by unfold IsSuitBall at hk; omega
    rw [(hfB.split b2).2 k] at ht
    by_cases hk9 : k = 9
    · subst hk9
      exact captured_in_pass evalLibm (List.range 16) 9 4 lastTwoStripes
        (Or.inr ⟨by decide, by decide⟩) (List.mem_range.2 (by decide)) (by rw [b1]; decide)
        hpb.2 b6 b8
    · exact hfB.inactive k hk0 (b9 k hk hk9 (ht.trans b3.symm))

theorem eight_ball_outcome_on_entry_witness :
    (eightAtPocket.balls.length = 16 ∧ eightAtPocket.ballTypeAssigned = true ∧
      (eightAtPocket.ball 8).active = true ∧ 1 < eightAtPocket.pockets.length ∧
      inPocket evalLibm 8 1 eightAtPocket = true ∧ eightAtPocket.currentPlayer = 1) ∧
    (checkPockets evalLibm eightAtPocket).gameOver = true :=
  ⟨eightAtPocket_facts,
    (eight_ball_outcome_on_entry.1 evalLibm eightAtPocket 1 eightAtPocket_facts.1
      eightAtPocket_facts.2.1 eightAtPocket_facts.2.2.1 eightAtPocket_facts.2.2.2.1
      eightAtPocket_facts.2.2.2.2.1 (Or.inl eightAtPocket_facts.2.2.2.2.2)).1⟩

end Snooker
